import Mathlib

/-!
# gpu-provisioner: bootstrap configuration synthesis and the heartbeat reconciler

A shallow embedding of `pkg/providers/imagefamily/bootstrap/aksbootstrap.go`
(namespace `AKSBootstrap`) and of the method `Reconcile` of
`karpenter-core/pkg/controllers/machine/garbagecollection/controller.go`
(namespace `GarbageCollection`), of the method `instanceToMachine` of
`pkg/cloudprovider/utils.go` (namespace `CloudProvider`), together with the Go
library functions they call, and a model of the offering selector written
from its specification (namespace `OfferingSelection`), followed by theorems
about name normalisation, the version-to-URL table, label and flag merging,
the records `applyOptions` produces, the payload encoding, the package-level
baseline, one pass of the reconciler, the run-time failures of
`instanceToMachine`, and the selector's choice.

Conventions of the embedding:

* a Go `string` is its sequence of bytes (`GoString`); `len` is `List.length`
  and the slice `s[i:j]` is `(s.take j).drop i`;
* a Go `map[string]string` is a `GoMap`, a key-unique entry list; a Go map has
  no order of its own, so a `range` over a map whose order shows in the result
  goes through an `IterOrder` that stands for the order the runtime picked;
* a run-time panic is an explicit outcome (`GoPanic`);
* where aliasing matters, maps live at addresses of an explicit `Memory` and
  the package-level variables are part of the state;
* what the reconciler gets from outside (the listings, the outcome of each
  call on the store, the readings of the clocks) is a parameter (`World`), and
  the calls it makes on the store are recorded in order; the pieces of a
  fan-out are taken one after the other, and what two pieces running at the
  same time do to the variables they share is treated apart (`heartbeatAccesses`,
  `AppendPhase`).
-/

set_option maxRecDepth 100000

namespace AKSBootstrap

/-! ## Go strings -/

/-- A Go string: an immutable sequence of bytes. -/
abbrev GoString := List UInt8

/-- The bytes of a string literal of the source (Go source text is UTF-8). -/
def gs (s : String) : GoString := s.toUTF8.data.toList

/-- Go library `strings.HasSuffix`:
`len(s) >= len(suffix) && s[len(s)-len(suffix):] == suffix`. -/
def stringsHasSuffix (s suffix : GoString) : Bool :=
  decide (s.length ≥ suffix.length) && (s.drop (s.length - suffix.length) == suffix)

/-- Worker of `stringsReplaceAll`: walks the text left to right; `skip` counts
the bytes still to be passed over of an occurrence that was just replaced, so
that occurrences never overlap. -/
def replaceAllFrom (old new : GoString) : Nat → GoString → GoString
  | _, [] => []
  | skip + 1, _ :: rest => replaceAllFrom old new skip rest
  | 0, b :: rest =>
    if old.isPrefixOf (b :: rest) then new ++ replaceAllFrom old new (old.length - 1) rest
    else b :: replaceAllFrom old new 0 rest

/-- Go library `strings.ReplaceAll(s, old, new)` for a non-empty `old`: every
non-overlapping occurrence of `old`, found from the left, is replaced by `new`.
(The library's special treatment of an empty `old` is not used by the program;
an empty `old` leaves the text as it is here.) -/
def stringsReplaceAll (s old new : GoString) : GoString :=
  if old = [] then s else replaceAllFrom old new 0 s

/-- Go library `strings.Join(elems, sep)`. -/
def stringsJoin : List GoString → GoString → GoString
  | [], _ => []
  | [a], _ => a
  | a :: b :: rest, sep => a ++ sep ++ stringsJoin (b :: rest) sep

/-! ## Run-time outcomes -/

/-- The run-time panics the program can raise. -/
inductive GoPanic where
  /-- A nil pointer was dereferenced ("invalid memory address or nil pointer
  dereference"). -/
  | nilPointerDereference
  /-- An entry of a nil map was assigned to ("assignment to entry in nil
  map"). -/
  | assignmentToEntryInNilMap
  deriving DecidableEq, Repr

/-- What a call of a Go function of type `func() (T, error)` comes to: a value
with a nil error, a non-nil error (whose message is kept), or a panic. -/
inductive Outcome (α : Type) where
  | ok (value : α)
  | err (message : GoString)
  | panic (p : GoPanic)
  deriving DecidableEq

/-! ## Library: encoding/base64 -/

/-- The alphabet of `base64.StdEncoding`. -/
def base64Alphabet : GoString :=
  gs "ABCDEFGHIJKLMNOPQRSTUVWXYZabcdefghijklmnopqrstuvwxyz0123456789+/"

/-- The character for a six-bit value. -/
def base64Digit (n : Nat) : UInt8 := base64Alphabet.getD n 61

/-- Go library `base64.StdEncoding.EncodeToString`: three bytes become four
characters, and a last group of one or two bytes is padded with `=`. -/
def base64StdEncodeToString : GoString → GoString
  | a :: b :: c :: rest =>
    let n := a.toNat * 65536 + b.toNat * 256 + c.toNat
    [base64Digit (n / 262144), base64Digit (n / 4096 % 64),
      base64Digit (n / 64 % 64), base64Digit (n % 64)] ++ base64StdEncodeToString rest
  | [a, b] =>
    let n := a.toNat * 65536 + b.toNat * 256
    [base64Digit (n / 262144), base64Digit (n / 4096 % 64), base64Digit (n / 64 % 64), 61]
  | [a] =>
    let n := a.toNat * 65536
    [base64Digit (n / 262144), base64Digit (n / 4096 % 64), 61, 61]
  | [] => []

/-- The six-bit value of a character of the alphabet of `base64.StdEncoding`,
`none` for any other byte. -/
def base64Value (c : UInt8) : Option Nat :=
  if base64Alphabet.indexOf c < 64 then some (base64Alphabet.indexOf c) else none

/-- Go library `base64.StdEncoding.DecodeString` on a text without line breaks:
four characters become three bytes, a last group may end in one or two `=`;
`none` stands for a `CorruptInputError`. -/
def base64StdDecodeString : GoString → Option GoString
  | c1 :: c2 :: c3 :: c4 :: rest =>
    if rest.isEmpty && c3 == 61 && c4 == 61 then
      match base64Value c1, base64Value c2 with
      | some v1, some v2 => some [UInt8.ofNat ((v1 * 262144 + v2 * 4096) / 65536)]
      | _, _ => none
    else if rest.isEmpty && c4 == 61 then
      match base64Value c1, base64Value c2, base64Value c3 with
      | some v1, some v2, some v3 =>
        some [UInt8.ofNat ((v1 * 262144 + v2 * 4096 + v3 * 64) / 65536),
              UInt8.ofNat ((v1 * 262144 + v2 * 4096 + v3 * 64) / 256 % 256)]
      | _, _, _ => none
    else
      match base64Value c1, base64Value c2, base64Value c3, base64Value c4,
          base64StdDecodeString rest with
      | some v1, some v2, some v3, some v4, some tail =>
        some (UInt8.ofNat ((v1 * 262144 + v2 * 4096 + v3 * 64 + v4) / 65536) ::
              UInt8.ofNat ((v1 * 262144 + v2 * 4096 + v3 * 64 + v4) / 256 % 256) ::
              UInt8.ofNat ((v1 * 262144 + v2 * 4096 + v3 * 64 + v4) % 256) :: tail)
      | _, _, _, _, _ => none
  | [] => some []
  | _ => none

/-! ## Library: github.com/Masterminds/semver -/

/-- The type `semver.Version`. -/
structure Version where
  major : Int
  minor : Int
  patch : Int
  pre : GoString
  metadata : GoString
  original : GoString
  deriving DecidableEq

/-- A byte of `[0-9]`. -/
def isDigitByte (b : UInt8) : Bool := decide (48 ≤ b.toNat) && decide (b.toNat ≤ 57)

/-- A byte of `[0-9A-Za-z\-]`. -/
def isIdentByte (b : UInt8) : Bool :=
  isDigitByte b || (decide (65 ≤ b.toNat) && decide (b.toNat ≤ 90)) ||
    (decide (97 ≤ b.toNat) && decide (b.toNat ≤ 122)) || b == 45

/-- Length of the match of `[0-9A-Za-z\-]+(\.[0-9A-Za-z\-]+)*` at the start of
the text when the whole version expression can still match, `none` otherwise.
`needIdent` is true at the start and right after a dot, where an identifier
byte has to come. A dot that no identifier byte follows ends the match for the
regular expression, but then the rest of the expression (`+` or the end of the
text) cannot match the dot either, so the whole match fails. -/
def dottedIdentsLength : Bool → GoString → Option Nat
  | needIdent, [] => if needIdent then none else some 0
  | needIdent, b :: rest =>
    if isIdentByte b then (dottedIdentsLength false rest).map (· + 1)
    else if b == 46 && !needIdent then (dottedIdentsLength true rest).map (· + 1)
    else if needIdent then none else some 0

/-- An optional group `(<lead>([0-9A-Za-z\-]+(\.[0-9A-Za-z\-]+)*))?` of the
version expression: the inner text it captured ("" when the group did not take
part) and the text left over; `none` when the whole match fails. -/
def optionalIdents (lead : UInt8) (s : GoString) : Option (GoString × GoString) :=
  match s with
  | b :: rest =>
    if b == lead then
      match dottedIdentsLength true rest with
      | some n => some (rest.take n, rest.drop n)
      | none => none
    else some ([], s)
  | [] => some ([], s)

/-- An optional group `(\.[0-9]+)?` of the version expression: the digits it
captured (empty when the group did not take part) and the text left over. -/
def optionalDotDigits (s : GoString) : GoString × GoString :=
  match s with
  | b :: rest =>
    if b == 46 && !(rest.takeWhile isDigitByte).isEmpty then
      (rest.takeWhile isDigitByte, rest.dropWhile isDigitByte)
    else ([], s)
  | [] => ([], s)

/-- The value of a text of decimal digits. -/
def decimalValue (digits : GoString) : Nat :=
  digits.foldl (fun acc b => acc * 10 + (b.toNat - 48)) 0

/-- Go library `strconv.ParseInt(s, 10, 64)` on a non-empty text of decimal
digits: the value, or `none` (a range error) when it does not fit an int64. -/
def parseInt64 (digits : GoString) : Option Int :=
  if decimalValue digits ≤ 9223372036854775807 then some (Int.ofNat (decimalValue digits)) else none

/-- Library function `semver.NewVersion`; `none` stands for the result
`(nil, err)`. The text has to match, from its first to its last byte,
`v?([0-9]+)(\.[0-9]+)?(\.[0-9]+)?(-(IDENTS))?(\+(IDENTS))?` with `IDENTS` being
`[0-9A-Za-z\-]+(\.[0-9A-Za-z\-]+)*`, and each of the numbers has to fit an
int64; a number that is left out is 0. -/
def semverNewVersion (v : GoString) : Option Version :=
  let s := match v with
    | b :: rest => if b == 118 then rest else v
    | [] => v
  let majorDigits := s.takeWhile isDigitByte
  let s := s.dropWhile isDigitByte
  if majorDigits.isEmpty then none else
  let (minorDigits, s) := optionalDotDigits s
  let (patchDigits, s) := optionalDotDigits s
  match optionalIdents 45 s with
  | none => none
  | some (pre, s) =>
    match optionalIdents 43 s with
    | none => none
    | some (metadata, s) =>
      if !s.isEmpty then none else
      match parseInt64 majorDigits with
      | none => none
      | some major =>
        match (if minorDigits.isEmpty then some 0 else parseInt64 minorDigits) with
        | none => none
        | some minor =>
          match (if patchDigits.isEmpty then some 0 else parseInt64 patchDigits) with
          | none => none
          | some patch =>
            some { major := major, minor := minor, patch := patch, pre := pre,
                   metadata := metadata, original := v }

/-! ## Library: k8s.io/api/core/v1 -/

/-- The type `v1.Taint` (its `TimeAdded` plays no part in `ToString`). -/
structure Taint where
  Key : GoString
  Value : GoString
  Effect : GoString
  deriving DecidableEq

/-- Library method `Taint.ToString`: `key=value:effect`, `key=value:`,
`key:effect` or `key`, according to which of value and effect are empty. -/
def Taint.ToString (t : Taint) : GoString :=
  if t.Effect.length = 0 then
    if t.Value.length = 0 then t.Key
    else t.Key ++ gs "=" ++ t.Value ++ gs ":"
  else if t.Value.length = 0 then t.Key ++ gs ":" ++ t.Effect
  else t.Key ++ gs "=" ++ t.Value ++ gs ":" ++ t.Effect

/-! ## Go maps -/

/-- The assignment `m[k] = v` on an entry list: the value of an existing key is
replaced, a new key gets a new entry. -/
def entriesSet (k v : GoString) : List (GoString × GoString) → List (GoString × GoString)
  | [] => [(k, v)]
  | e :: rest => if e.1 = k then (k, v) :: rest else e :: entriesSet k v rest

/-- The lookup `m[k]` on an entry list (`none`: the key is absent). -/
def entriesGet (k : GoString) : List (GoString × GoString) → Option GoString
  | [] => none
  | e :: rest => if e.1 = k then some e.2 else entriesGet k rest

/-- A Go `map[string]string`: its entries, no key twice. The order of the list
is not part of the map; a `nil` map is the empty one. -/
structure GoMap where
  entries : List (GoString × GoString)
  nodupKeys : (entries.map Prod.fst).Nodup
  deriving DecidableEq

/-- The empty map `map[string]string{}`. -/
def GoMap.empty : GoMap := ⟨[], List.nodup_nil⟩

/-- The lookup `m[k]` with its presence flag. -/
def GoMap.get (m : GoMap) (k : GoString) : Option GoString := entriesGet k m.entries

/-- The assignment `m[k] = v`. -/
def GoMap.set (m : GoMap) (k v : GoString) : GoMap :=
  ⟨entriesSet k v m.entries, by
    have key : ∀ l : List (GoString × GoString),
        (∀ x, x ∈ (entriesSet k v l).map Prod.fst → x = k ∨ x ∈ l.map Prod.fst) ∧
        ((l.map Prod.fst).Nodup → ((entriesSet k v l).map Prod.fst).Nodup) := by
      intro l
      induction l with
      | nil => simp [entriesSet]
      | cons e rest ih =>
        by_cases h : e.1 = k
        · simp only [entriesSet, h, if_true, List.map_cons]
          constructor
          · intro x hx
            simp only [List.mem_cons] at hx ⊢
            rcases hx with hx | hx
            · exact Or.inl hx
            · exact Or.inr (Or.inr hx)
          · intro hn
            exact hn
        · simp only [entriesSet, h, if_false, List.map_cons]
          constructor
          · intro x hx
            simp only [List.mem_cons] at hx ⊢
            rcases hx with hx | hx
            · exact Or.inr (Or.inl hx)
            · rcases ih.1 x hx with h1 | h1
              · exact Or.inl h1
              · exact Or.inr (Or.inr h1)
          · intro hn
            rw [List.nodup_cons] at hn ⊢
            refine ⟨fun hmem => ?_, ih.2 hn.2⟩
            rcases ih.1 _ hmem with h1 | h1
            · exact h h1
            · exact hn.1 h1
    exact (key m.entries).2 m.nodupKeys⟩

/-- A composite literal `map[string]string{k1: v1, ...}`. -/
def GoMap.ofList (l : List (GoString × GoString)) : GoMap :=
  l.foldl (fun m e => m.set e.1 e.2) GoMap.empty

/-- The order in which one `range` over a map visits the entries: Go leaves it
unspecified, and it may differ from one loop to the next. An `IterOrder` is one
such choice, a rearrangement of the entries. -/
structure IterOrder where
  arrange : List (GoString × GoString) → List (GoString × GoString)
  isPerm : ∀ l, (arrange l).Perm l

/-- Library function `lo.Assign`: a new map that receives the entries of the
given maps in turn, so that a later map overrides an earlier one. (The order in
which one map's entries are visited does not change the map that results,
because the keys of one map are distinct.) -/
def loAssign (maps : List GoMap) : GoMap :=
  maps.foldl (fun out m => m.entries.foldl (fun o e => o.set e.1 e.2) out) GoMap.empty

/-- Library function `lo.MapToSlice`: the iteratee applied to the entries in
the order the `range` over the map visits them. -/
def loMapToSlice (order : IterOrder) (m : GoMap) (iteratee : GoString → GoString → GoString) :
    List GoString :=
  (order.arrange m.entries).map (fun e => iteratee e.1 e.2)

/-! ## Name normalisation -/

/-- The function `normalizeResourceGroupNameForLabel` of aksbootstrap.go. -/
def normalizeResourceGroupNameForLabel (resourceGroupName : GoString) : GoString :=
  let truncated := resourceGroupName
  let truncated := stringsReplaceAll truncated (gs "(") (gs "-")
  let truncated := stringsReplaceAll truncated (gs ")") (gs "-")
  let maxLen := 63
  let truncated := if truncated.length > maxLen then (truncated.take maxLen).drop 0 else truncated
  if stringsHasSuffix truncated (gs "-") ||
      stringsHasSuffix truncated (gs "_") ||
      stringsHasSuffix truncated (gs ".") then
    if truncated.length > 62 then
      ((truncated.take (truncated.length - 1)).drop 0) ++ gs "z"
    else
      truncated ++ gs "z"
  else
    truncated

/-- The normalisation rule in the words of the specification: replace every
`(` and `)` by `-`, keep at most the first 63 bytes, and if the text then ends
in `-`, `_` or `.`, replace its last byte by `z` when the text is already 63
long and append `z` otherwise. -/
def normalizeReference (s : GoString) : GoString :=
  let replaced := s.map (fun b => if b = 40 ∨ b = 41 then 45 else b)
  let kept := replaced.take 63
  match kept.getLast? with
  | none => kept
  | some c =>
    if c = 45 ∨ c = 95 ∨ c = 46 then
      if kept.length = 63 then kept.dropLast ++ [122] else kept ++ [122]
    else kept

/-! ## The bootstrap record and its inputs -/

/-- Modelled from the spec: the declaration of the embedded struct `Options`
(bootstrap.go) is not among the sources. These are the three fields of it that
aksbootstrap.go reads: the declared taints, the caller-supplied node labels and
the pointer to the CA bundle (`none` is the nil pointer). -/
structure Options where
  Taints : List Taint := []
  Labels : GoMap := GoMap.empty
  CABundle : Option GoString := none
  deriving DecidableEq

/-- The struct `AKS` of aksbootstrap.go, which embeds `Options`. -/
structure AKS extends Options where
  TenantID : GoString := []
  SubscriptionID : GoString := []
  UserAssignedIdentityID : GoString := []
  Location : GoString := []
  ResourceGroup : GoString := []
  ClusterID : GoString := []
  APIServerName : GoString := []
  KubeletClientTLSBootstrapToken : GoString := []
  NetworkPlugin : GoString := []
  NetworkPolicy : GoString := []
  KubernetesVersion : GoString := []
  deriving DecidableEq

/-- The record `NodeBootstrapVariables` of aksbootstrap.go, field for field. A
field left out of a composite literal holds Go's zero value, which is the
default given here. -/
structure NodeBootstrapVariables where
  IsAKSCustomCloud : Bool := false
  InitAKSCustomCloudFilepath : GoString := []
  AKSCustomCloudRepoDepotEndpoint : GoString := []
  AdminUsername : GoString := []
  MobyVersion : GoString := []
  TenantID : GoString := []
  KubernetesVersion : GoString := []
  HyperkubeURL : GoString := []
  KubeBinaryURL : GoString := []
  CustomKubeBinaryURL : GoString := []
  KubeproxyURL : GoString := []
  APIServerPublicKey : GoString := []
  SubscriptionID : GoString := []
  ResourceGroup : GoString := []
  Location : GoString := []
  VMType : GoString := []
  Subnet : GoString := []
  NetworkSecurityGroup : GoString := []
  VirtualNetwork : GoString := []
  VirtualNetworkResourceGroup : GoString := []
  RouteTable : GoString := []
  PrimaryAvailabilitySet : GoString := []
  PrimaryScaleSet : GoString := []
  ServicePrincipalClientID : GoString := []
  NetworkPlugin : GoString := []
  NetworkPolicy : GoString := []
  VNETCNILinuxPluginsURL : GoString := []
  CNIPluginsURL : GoString := []
  CloudProviderBackoff : Bool := false
  CloudProviderBackoffMode : GoString := []
  CloudProviderBackoffRetries : GoString := []
  CloudProviderBackoffExponent : GoString := []
  CloudProviderBackoffDuration : GoString := []
  CloudProviderBackoffJitter : GoString := []
  CloudProviderRatelimit : Bool := false
  CloudProviderRatelimitQPS : GoString := []
  CloudProviderRatelimitQPSWrite : GoString := []
  CloudProviderRatelimitBucket : GoString := []
  CloudProviderRatelimitBucketWrite : GoString := []
  LoadBalancerDisableOutboundSNAT : Bool := false
  UseManagedIdentityExtension : Bool := false
  UseInstanceMetadata : Bool := false
  LoadBalancerSKU : GoString := []
  ExcludeMasterFromStandardLB : Bool := false
  MaximumLoadbalancerRuleCount : Int := 0
  ContainerRuntime : GoString := []
  CLITool : GoString := []
  ContainerdDownloadURLBase : GoString := []
  NetworkMode : GoString := []
  UserAssignedIdentityID : GoString := []
  APIServerName : GoString := []
  IsVHD : Bool := false
  GPUNode : Bool := false
  SGXNode : Bool := false
  MIGNode : Bool := false
  ConfigGPUDriverIfNeeded : Bool := false
  EnableGPUDevicePluginIfNeeded : Bool := false
  TeleportdPluginDownloadURL : GoString := []
  ContainerdVersion : GoString := []
  ContainerdPackageURL : GoString := []
  RuncVersion : GoString := []
  RuncPackageURL : GoString := []
  EnableHostsConfigAgent : Bool := false
  DisableSSH : Bool := false
  NeedsContainerd : Bool := false
  TeleportEnabled : Bool := false
  ShouldConfigureHTTPProxy : Bool := false
  ShouldConfigureHTTPProxyCA : Bool := false
  HTTPProxyTrustedCA : GoString := []
  ShouldConfigureCustomCATrust : Bool := false
  CustomCATrustConfigCerts : List GoString := []
  IsKrustlet : Bool := false
  GPUNeedsFabricManager : Bool := false
  NeedsDockerLogin : Bool := false
  IPv6DualStackEnabled : Bool := false
  OutboundCommand : GoString := []
  EnableUnattendedUpgrades : Bool := false
  EnsureNoDupePromiscuousBridge : Bool := false
  ShouldConfigSwapFile : Bool := false
  ShouldConfigTransparentHugePage : Bool := false
  TargetCloud : GoString := []
  TargetEnvironment : GoString := []
  CustomEnvJSON : GoString := []
  IsCustomCloud : Bool := false
  CSEHelpersFilepath : GoString := []
  CSEDistroHelpersFilepath : GoString := []
  CSEInstallFilepath : GoString := []
  CSEDistroInstallFilepath : GoString := []
  CSEConfigFilepath : GoString := []
  AzurePrivateRegistryServer : GoString := []
  HasCustomSearchDomain : Bool := false
  CustomSearchDomainFilepath : GoString := []
  HTTPProxyURLs : GoString := []
  HTTPSProxyURLs : GoString := []
  NoProxyURLs : GoString := []
  ClientTLSBootstrappingEnabled : Bool := false
  DHCPv6ServiceFilepath : GoString := []
  DHCPv6ConfigFilepath : GoString := []
  THPEnabled : GoString := []
  THPDefrag : GoString := []
  ServicePrincipalFileContent : GoString := []
  KubeletClientContent : GoString := []
  KubeletClientCertContent : GoString := []
  KubeletConfigFileEnabled : Bool := false
  KubeletConfigFileContent : GoString := []
  SwapFileSizeMB : Int := 0
  GPUDriverVersion : GoString := []
  GPUInstanceProfile : GoString := []
  CustomSearchDomainName : GoString := []
  CustomSearchRealmUser : GoString := []
  CustomSearchRealmPassword : GoString := []
  MessageOfTheDay : GoString := []
  HasKubeletDiskType : Bool := false
  NeedsCgroupsv2 : Bool := false
  SysctlContent : GoString := []
  TLSBootstrapToken : GoString := []
  KubeletFlags : GoString := []
  KubeletNodeLabels : GoString := []
  AzureEnvironmentFilepath : GoString := []
  KubeCACrt : GoString := []
  KubenetTemplate : GoString := []
  ContainerdConfigContent : GoString := []
  IsKata : Bool := false

/-- The files compiled into the program with `go:embed` (cse_cmd.sh.gtpl,
sysctl.conf, kubenet-cni.json.gtpl, containerd.toml) are not among the sources
and are parameters of the embedding. The parsed template is represented by what
executing it on a record gives: the script text, or an error message. -/
structure EmbeddedFiles where
  customDataTemplate : NodeBootstrapVariables → Except GoString GoString
  sysctlContent : GoString
  kubenetTemplate : GoString
  containerdConfigContent : GoString

/-- The map `kubeletFlagsBase`. -/
def kubeletFlagsBase : GoMap :=
  GoMap.ofList [
    (gs "--address", gs "0.0.0.0"),
    (gs "--anonymous-auth", gs "false"),
    (gs "--authentication-token-webhook", gs "true"),
    (gs "--authorization-mode", gs "Webhook"),
    (gs "--azure-container-registry-config", gs "/etc/kubernetes/azure.json"),
    (gs "--cgroups-per-qos", gs "true"),
    (gs "--client-ca-file", gs "/etc/kubernetes/certs/ca.crt"),
    (gs "--cloud-config", gs "/etc/kubernetes/azure.json"),
    (gs "--cloud-provider", gs "external"),
    (gs "--cluster-dns", gs "10.0.0.10"),
    (gs "--cluster-domain", gs "cluster.local"),
    (gs "--enforce-node-allocatable", gs "pods"),
    (gs "--event-qps", gs "0"),
    (gs "--eviction-hard", gs "memory.available<750Mi,nodefs.available<10%,nodefs.inodesFree<5%"),
    (gs "--feature-gates", gs "CSIMigration=true,CSIMigrationAzureDisk=true,CSIMigrationAzureFile=true,DelegateFSGroupToCSIDriver=true,RotateKubeletServerCertificate=true"),
    (gs "--image-gc-high-threshold", gs "85"),
    (gs "--image-gc-low-threshold", gs "80"),
    (gs "--keep-terminated-pod-volumes", gs "false"),
    (gs "--kubeconfig", gs "/var/lib/kubelet/kubeconfig"),
    (gs "--max-pods", gs "110"),
    (gs "--node-status-update-frequency", gs "10s"),
    (gs "--pod-infra-container-image", gs "mcr.microsoft.com/oss/kubernetes/pause:3.6"),
    (gs "--pod-manifest-path", gs "/etc/kubernetes/manifests"),
    (gs "--pod-max-pids", gs "-1"),
    (gs "--protect-kernel-defaults", gs "true"),
    (gs "--read-only-port", gs "0"),
    (gs "--resolv-conf", gs "/run/systemd/resolve/resolv.conf"),
    (gs "--rotate-certificates", gs "true"),
    (gs "--streaming-connection-idle-timeout", gs "4h"),
    (gs "--tls-cert-file", gs "/etc/kubernetes/certs/kubeletserver.crt"),
    (gs "--tls-cipher-suites", gs "TLS_ECDHE_ECDSA_WITH_AES_128_GCM_SHA256,TLS_ECDHE_RSA_WITH_AES_128_GCM_SHA256,TLS_ECDHE_ECDSA_WITH_CHACHA20_POLY1305,TLS_ECDHE_RSA_WITH_AES_256_GCM_SHA384,TLS_ECDHE_RSA_WITH_CHACHA20_POLY1305,TLS_ECDHE_ECDSA_WITH_AES_256_GCM_SHA384,TLS_RSA_WITH_AES_256_GCM_SHA384,TLS_RSA_WITH_AES_128_GCM_SHA256"),
    (gs "--tls-private-key-file", gs "/etc/kubernetes/certs/kubeletserver.key")]

/-- The map `kubeletNodeLabelsBase`. -/
def kubeletNodeLabelsBase : GoMap :=
  GoMap.ofList [(gs "kubernetes.azure.com/mode", gs "system")]

/-- The baseline record `staticNodeBootstrapVars`. -/
def staticNodeBootstrapVars (files : EmbeddedFiles) : NodeBootstrapVariables :=
  {
    IsAKSCustomCloud := false,
    InitAKSCustomCloudFilepath := gs "",
    AKSCustomCloudRepoDepotEndpoint := gs "",
    AdminUsername := gs "azureuser",
    MobyVersion := gs "",
    HyperkubeURL := gs "",
    KubeBinaryURL := gs "",
    CustomKubeBinaryURL := gs "",
    KubeproxyURL := gs "",
    VMType := gs "vmss",
    Subnet := gs "aks-subnet",
    VirtualNetworkResourceGroup := gs "",
    PrimaryAvailabilitySet := gs "",
    PrimaryScaleSet := gs "",
    ServicePrincipalClientID := gs "msi",
    VNETCNILinuxPluginsURL := gs "https://acs-mirror.azureedge.net/azure-cni/v1.4.32/binaries/azure-vnet-cni-linux-amd64-v1.4.32.tgz",
    CNIPluginsURL := gs "https://acs-mirror.azureedge.net/cni-plugins/v1.1.1/binaries/cni-plugins-linux-amd64-v1.1.1.tgz",
    CloudProviderBackoff := true,
    CloudProviderBackoffMode := gs "v2",
    CloudProviderBackoffRetries := gs "6",
    CloudProviderBackoffExponent := gs "0",
    CloudProviderBackoffDuration := gs "5",
    CloudProviderBackoffJitter := gs "0",
    CloudProviderRatelimit := true,
    CloudProviderRatelimitQPS := gs "10",
    CloudProviderRatelimitQPSWrite := gs "10",
    CloudProviderRatelimitBucket := gs "100",
    CloudProviderRatelimitBucketWrite := gs "100",
    LoadBalancerDisableOutboundSNAT := false,
    UseManagedIdentityExtension := false,
    UseInstanceMetadata := true,
    LoadBalancerSKU := gs "Standard",
    ExcludeMasterFromStandardLB := true,
    MaximumLoadbalancerRuleCount := 250,
    ContainerRuntime := gs "containerd",
    CLITool := gs "ctr",
    ContainerdDownloadURLBase := gs "",
    NetworkMode := gs "",
    IsVHD := true,
    SGXNode := false,
    MIGNode := false,
    ConfigGPUDriverIfNeeded := true,
    EnableGPUDevicePluginIfNeeded := false,
    TeleportdPluginDownloadURL := gs "",
    ContainerdVersion := gs "",
    ContainerdPackageURL := gs "",
    RuncVersion := gs "",
    RuncPackageURL := gs "",
    DisableSSH := false,
    EnableHostsConfigAgent := false,
    NeedsContainerd := true,
    TeleportEnabled := false,
    ShouldConfigureHTTPProxy := false,
    ShouldConfigureHTTPProxyCA := false,
    HTTPProxyTrustedCA := gs "",
    ShouldConfigureCustomCATrust := false,
    CustomCATrustConfigCerts := [],
    OutboundCommand := gs "curl -v --insecure --proxy-insecure https://mcr.microsoft.com/v2/",
    EnableUnattendedUpgrades := true,
    IsKrustlet := false,
    ShouldConfigSwapFile := false,
    ShouldConfigTransparentHugePage := false,
    TargetCloud := gs "AzurePublicCloud",
    TargetEnvironment := gs "AzurePublicCloud",
    CustomEnvJSON := gs "",
    IsCustomCloud := false,
    CSEHelpersFilepath := gs "/opt/azure/containers/provision_source.sh",
    CSEDistroHelpersFilepath := gs "/opt/azure/containers/provision_source_distro.sh",
    CSEInstallFilepath := gs "/opt/azure/containers/provision_installs.sh",
    CSEDistroInstallFilepath := gs "/opt/azure/containers/provision_installs_distro.sh",
    CSEConfigFilepath := gs "/opt/azure/containers/provision_configs.sh",
    AzurePrivateRegistryServer := gs "",
    HasCustomSearchDomain := false,
    CustomSearchDomainFilepath := gs "/opt/azure/containers/setup-custom-search-domains.sh",
    HTTPProxyURLs := gs "",
    HTTPSProxyURLs := gs "",
    NoProxyURLs := gs "",
    ClientTLSBootstrappingEnabled := true,
    THPEnabled := gs "",
    THPDefrag := gs "",
    ServicePrincipalFileContent := base64StdEncodeToString (gs "msi"),
    KubeletClientContent := gs "",
    KubeletClientCertContent := gs "",
    KubeletConfigFileEnabled := false,
    KubeletConfigFileContent := gs "",
    SwapFileSizeMB := 0,
    GPUInstanceProfile := gs "",
    CustomSearchDomainName := gs "",
    CustomSearchRealmUser := gs "",
    CustomSearchRealmPassword := gs "",
    MessageOfTheDay := gs "",
    HasKubeletDiskType := false,
    SysctlContent := base64StdEncodeToString files.sysctlContent,
    KubeletFlags := gs "",
    AzureEnvironmentFilepath := gs "",
    KubenetTemplate := base64StdEncodeToString files.kubenetTemplate,
    ContainerdConfigContent := base64StdEncodeToString files.containerdConfigContent,
    IsKata := false }

/-! ## Synthesis -/

/-- The function `kubeBinaryURL`. The error of `semver.NewVersion` is dropped
and `Minor` is called on the pointer it returned, which is nil when the text is
not a version: the call then panics. -/
def kubeBinaryURL (kubernetesVersion : GoString) : Except GoPanic GoString :=
  match semverNewVersion kubernetesVersion with
  | none => .error GoPanic.nilPointerDereference
  | some version =>
    let kubeBinaryVersion :=
      if version.minor = 24 then gs "1.24.10-hotfix.20230509"
      else if version.minor = 25 then gs "1.25.6-hotfix.20230509"
      else if version.minor = 26 then gs "1.26.3-hotfix.20230509"
      else gs "1.27.1"
    .ok (gs "https://acs-mirror.azureedge.net/kubernetes/v" ++ kubeBinaryVersion ++
      gs "/binaries/kubernetes-node-linux-amd64.tar.gz")

/-- The function `getAgentbakerGeneratedLabels`; the map it writes to is
returned. -/
def getAgentbakerGeneratedLabels (nodeResourceGroup apName : GoString) (nodeLabels : GoMap) :
    GoMap :=
  let nodeLabels := nodeLabels.set (gs "kubernetes.azure.com/role") (gs "agent")
  let nodeLabels := nodeLabels.set (gs "agentpool") apName
  let nodeLabels := nodeLabels.set (gs "kubernetes.azure.com/agentpool") apName
  nodeLabels.set (gs "kubernetes.azure.com/cluster")
    (normalizeResourceGroupNameForLabel nodeResourceGroup)

/-- The constant `karpenterAgentPoolName` of `applyOptions`. -/
def karpenterAgentPoolName : GoString := gs "nodepool1"

/-- The map `kubeletLabels` of `applyOptions` at the point where it is turned
into text ("merge and stringify labels"). -/
def AKS.kubeletLabels (a : AKS) : GoMap :=
  let kubeletLabels := loAssign [kubeletNodeLabelsBase, a.Labels]
  getAgentbakerGeneratedLabels a.ResourceGroup karpenterAgentPoolName kubeletLabels

/-- The map `kubeletFlags` of `applyOptions` at the point where it is turned
into text ("merge and stringify taints"). -/
def AKS.kubeletFlags (a : AKS) : GoMap :=
  let kubeletFlags := loAssign [kubeletFlagsBase]
  if a.Taints.length > 0 then
    let taintStrs := a.Taints.map (fun taint => taint.ToString)
    loAssign [kubeletFlags,
      GoMap.ofList [(gs "--register-with-taints", stringsJoin taintStrs (gs ","))]]
  else kubeletFlags

/-- The iteratee `fmt.Sprintf("%s=%s", k, v)` of both `lo.MapToSlice` calls. -/
def keyEqualsValue (k v : GoString) : GoString := k ++ gs "=" ++ v

/-- A call of `applyOptions`: the contents of `*nbv` when control leaves the
method, and the panic that ended it, if one did (`none`: it returned). -/
structure ApplyRun where
  nbv : NodeBootstrapVariables
  panic : Option GoPanic

/-- The method `AKS.applyOptions`, on the record `nbv` points to. `labelOrder`
and `flagOrder` are the orders in which the two `lo.MapToSlice` loops visit
their maps. The method dereferences `a.CABundle` first and calls
`kubeBinaryURL` after eleven fields have been assigned. -/
def AKS.applyOptions (a : AKS) (labelOrder flagOrder : IterOrder)
    (nbv : NodeBootstrapVariables) : ApplyRun :=
  match a.CABundle with
  | none => { nbv := nbv, panic := some GoPanic.nilPointerDereference }
  | some caBundle =>
    let nbv := { nbv with
      KubeCACrt := caBundle
      APIServerName := a.APIServerName
      TLSBootstrapToken := a.KubeletClientTLSBootstrapToken
      TenantID := a.TenantID
      SubscriptionID := a.SubscriptionID
      Location := a.Location
      ResourceGroup := a.ResourceGroup
      UserAssignedIdentityID := a.UserAssignedIdentityID
      NetworkPlugin := a.NetworkPlugin
      NetworkPolicy := a.NetworkPolicy
      KubernetesVersion := a.KubernetesVersion }
    match kubeBinaryURL a.KubernetesVersion with
    | .error p => { nbv := nbv, panic := some p }
    | .ok url =>
      let nbv := { nbv with KubeBinaryURL := url }
      let nbv := { nbv with
        EnsureNoDupePromiscuousBridge :=
          nbv.NeedsContainerd && nbv.NetworkPlugin == gs "kubenet" &&
            nbv.NetworkPolicy != gs "calico" }
      let nbv := { nbv with
        NetworkSecurityGroup := gs "aks-agentpool-" ++ a.ClusterID ++ gs "-nsg"
        VirtualNetwork := gs "aks-vnet-" ++ a.ClusterID
        RouteTable := gs "aks-agentpool-" ++ a.ClusterID ++ gs "-routetable" }
      let nbv := { nbv with
        KubeletNodeLabels :=
          stringsJoin (loMapToSlice labelOrder a.kubeletLabels keyEqualsValue) (gs ",") }
      let nbv := { nbv with
        KubeletFlags :=
          stringsJoin (loMapToSlice flagOrder a.kubeletFlags keyEqualsValue) (gs " ") }
      { nbv := nbv, panic := none }

/-- The function `getCustomDataFromNodeBootstrapVars`. -/
def getCustomDataFromNodeBootstrapVars (files : EmbeddedFiles) (nbv : NodeBootstrapVariables) :
    Outcome GoString :=
  match files.customDataTemplate nbv with
  | .error e => .err (gs "error executing custom data template: " ++ e)
  | .ok text => .ok text

/-- The method `AKS.aksBootstrapScript`. -/
def AKS.aksBootstrapScript (a : AKS) (files : EmbeddedFiles) (labelOrder flagOrder : IterOrder) :
    Outcome GoString :=
  let nbv := staticNodeBootstrapVars files
  let run := a.applyOptions labelOrder flagOrder nbv
  match run.panic with
  | some p => .panic p
  | none =>
    match getCustomDataFromNodeBootstrapVars files run.nbv with
    | .err e => .err (gs "error getting custom data from node bootstrap variables: " ++ e)
    | .panic p => .panic p
    | .ok customData => .ok customData

/-- The method `AKS.Script`. -/
def AKS.Script (a : AKS) (files : EmbeddedFiles) (labelOrder flagOrder : IterOrder) :
    Outcome GoString :=
  match a.aksBootstrapScript files labelOrder flagOrder with
  | .err e => .err (gs "error getting AKS bootstrap script: " ++ e)
  | .panic p => .panic p
  | .ok bootstrapScript => .ok (base64StdEncodeToString bootstrapScript)

/-! ## The package-level variables as mutable state

A Go map value is a reference: `getAgentbakerGeneratedLabels` writes to the
map it is handed, and a write through one holder of a map is seen by all. The
definitions below run the synthesis on an explicit memory, in which every map
is a table at an address and the three package-level variables of
aksbootstrap.go are part of the state. -/

/-- The address of a map's table. -/
abbrev MapRef := Nat

/-- The memory a synthesis runs in: the tables of all maps made so far, and
the package-level variables `kubeletFlagsBase`, `kubeletNodeLabelsBase` (each a
reference to a table) and `staticNodeBootstrapVars` (a record held by value). -/
structure Memory where
  tables : List GoMap
  kubeletFlagsBase : MapRef
  kubeletNodeLabelsBase : MapRef
  staticNodeBootstrapVars : NodeBootstrapVariables

/-- The table a reference points to. -/
def Memory.table (mem : Memory) (r : MapRef) : GoMap := mem.tables.getD r GoMap.empty

/-- A new map with the given contents (`make`, a composite literal): its table
is placed at an address not used before. -/
def Memory.make (mem : Memory) (contents : GoMap) : Memory × MapRef :=
  ({ mem with tables := mem.tables ++ [contents] }, mem.tables.length)

/-- The assignment `m[k] = v` through the reference `m`. -/
def Memory.assign (mem : Memory) (m : MapRef) (k v : GoString) : Memory :=
  { mem with tables := mem.tables.set m ((mem.table m).set k v) }

/-- Every table of `before` is in `after` at its address with the contents it
had, and the three package-level variables are as they were. -/
def Memory.keeps (before after : Memory) : Prop :=
  before.tables.length ≤ after.tables.length ∧
    (∀ r, r < before.tables.length → after.table r = before.table r) ∧
    after.kubeletFlagsBase = before.kubeletFlagsBase ∧
    after.kubeletNodeLabelsBase = before.kubeletNodeLabelsBase ∧
    after.staticNodeBootstrapVars = before.staticNodeBootstrapVars

/-- The memory when the package has been initialised: the two composite
literals of the `var` block and the record. -/
def initialMemory (files : EmbeddedFiles) : Memory :=
  { tables := [kubeletFlagsBase, kubeletNodeLabelsBase]
    kubeletFlagsBase := 0
    kubeletNodeLabelsBase := 1
    staticNodeBootstrapVars := staticNodeBootstrapVars files }

/-- Library function `lo.Assign` in the memory: the entries read from the
given maps are put into a map made for the result. -/
def loAssignIn (mem : Memory) (maps : List GoMap) : Memory × MapRef :=
  mem.make (loAssign maps)

/-- The function `getAgentbakerGeneratedLabels` on the reference it is handed:
four assignments through it. -/
def getAgentbakerGeneratedLabelsIn (mem : Memory) (nodeResourceGroup apName : GoString)
    (nodeLabels : MapRef) : Memory :=
  let mem := mem.assign nodeLabels (gs "kubernetes.azure.com/role") (gs "agent")
  let mem := mem.assign nodeLabels (gs "agentpool") apName
  let mem := mem.assign nodeLabels (gs "kubernetes.azure.com/agentpool") apName
  mem.assign nodeLabels (gs "kubernetes.azure.com/cluster")
    (normalizeResourceGroupNameForLabel nodeResourceGroup)

/-- The "merge and stringify labels" statements of `applyOptions` up to the
call of `lo.MapToSlice`: the memory they leave and the reference held by the
local variable `kubeletLabels`. -/
def AKS.kubeletLabelsIn (a : AKS) (mem : Memory) : Memory × MapRef :=
  let (mem, kubeletLabels) := loAssignIn mem [mem.table mem.kubeletNodeLabelsBase, a.Labels]
  (getAgentbakerGeneratedLabelsIn mem a.ResourceGroup karpenterAgentPoolName kubeletLabels,
    kubeletLabels)

/-- The "merge and stringify taints" statements of `applyOptions` up to the
call of `lo.MapToSlice`: the memory they leave and the reference held by the
local variable `kubeletFlags`. -/
def AKS.kubeletFlagsIn (a : AKS) (mem : Memory) : Memory × MapRef :=
  let (mem, kubeletFlags) := loAssignIn mem [mem.table mem.kubeletFlagsBase]
  if a.Taints.length > 0 then
    let taintStrs := a.Taints.map (fun taint => taint.ToString)
    let (mem, literal) :=
      mem.make (GoMap.ofList [(gs "--register-with-taints", stringsJoin taintStrs (gs ","))])
    loAssignIn mem [mem.table kubeletFlags, mem.table literal]
  else (mem, kubeletFlags)

/-- The method `AKS.applyOptions` on the memory: the memory it leaves and the
run of the call (the contents of `*nbv` and the panic, if any). -/
def AKS.applyOptionsIn (a : AKS) (labelOrder flagOrder : IterOrder) (mem : Memory)
    (nbv : NodeBootstrapVariables) : Memory × ApplyRun :=
  match a.CABundle with
  | none => (mem, { nbv := nbv, panic := some GoPanic.nilPointerDereference })
  | some caBundle =>
    let nbv := { nbv with
      KubeCACrt := caBundle
      APIServerName := a.APIServerName
      TLSBootstrapToken := a.KubeletClientTLSBootstrapToken
      TenantID := a.TenantID
      SubscriptionID := a.SubscriptionID
      Location := a.Location
      ResourceGroup := a.ResourceGroup
      UserAssignedIdentityID := a.UserAssignedIdentityID
      NetworkPlugin := a.NetworkPlugin
      NetworkPolicy := a.NetworkPolicy
      KubernetesVersion := a.KubernetesVersion }
    match kubeBinaryURL a.KubernetesVersion with
    | .error p => (mem, { nbv := nbv, panic := some p })
    | .ok url =>
      let nbv := { nbv with KubeBinaryURL := url }
      let nbv := { nbv with
        EnsureNoDupePromiscuousBridge :=
          nbv.NeedsContainerd && nbv.NetworkPlugin == gs "kubenet" &&
            nbv.NetworkPolicy != gs "calico" }
      let nbv := { nbv with
        NetworkSecurityGroup := gs "aks-agentpool-" ++ a.ClusterID ++ gs "-nsg"
        VirtualNetwork := gs "aks-vnet-" ++ a.ClusterID
        RouteTable := gs "aks-agentpool-" ++ a.ClusterID ++ gs "-routetable" }
      let (mem, kubeletLabels) := a.kubeletLabelsIn mem
      let nbv := { nbv with
        KubeletNodeLabels :=
          stringsJoin (loMapToSlice labelOrder (mem.table kubeletLabels) keyEqualsValue)
            (gs ",") }
      let (mem, kubeletFlags) := a.kubeletFlagsIn mem
      let nbv := { nbv with
        KubeletFlags :=
          stringsJoin (loMapToSlice flagOrder (mem.table kubeletFlags) keyEqualsValue)
            (gs " ") }
      (mem, { nbv := nbv, panic := none })

/-- The method `AKS.aksBootstrapScript` on the memory: `nbv` is a copy of the
package-level record, and `applyOptions` writes to the copy. -/
def AKS.aksBootstrapScriptIn (a : AKS) (files : EmbeddedFiles) (labelOrder flagOrder : IterOrder)
    (mem : Memory) : Memory × Outcome GoString :=
  let nbv := mem.staticNodeBootstrapVars
  let (mem, run) := a.applyOptionsIn labelOrder flagOrder mem nbv
  match run.panic with
  | some p => (mem, .panic p)
  | none =>
    match getCustomDataFromNodeBootstrapVars files run.nbv with
    | .err e => (mem, .err (gs "error getting custom data from node bootstrap variables: " ++ e))
    | .panic p => (mem, .panic p)
    | .ok customData => (mem, .ok customData)

/-! ## Sample inputs -/

/-- The iteration order that visits the entries as the model lists them. -/
def listedOrder : IterOrder := ⟨id, fun l => List.Perm.refl l⟩

/-- The iteration order that visits the entries the other way round. -/
def reversedOrder : IterOrder := ⟨List.reverse, fun l => List.reverse_perm l⟩

/-- The iteration order that reverses the entries twice: another choice of the
runtime that visits every map as it is listed. -/
def twiceReversedOrder : IterOrder :=
  ⟨fun l => l.reverse.reverse, fun l => (List.reverse_perm _).trans (List.reverse_perm l)⟩

/-- Embedded files with a one-line template, which always executes. -/
def sampleFiles : EmbeddedFiles :=
  { customDataTemplate := fun nbv => .ok (gs "TENANT_ID=" ++ nbv.TenantID)
    sysctlContent := gs "vm.max_map_count=262144"
    kubenetTemplate := []
    containerdConfigContent := [] }

/-- An input all of whose identity fields are empty texts: the CA bundle points
to an empty text, and only the Kubernetes version is set. -/
def emptyIdentityAKS : AKS :=
  { CABundle := some [], KubernetesVersion := gs "1.27.1" }

/-- An input whose caller-supplied labels name the key `agentpool`. -/
def agentpoolLabelAKS : AKS :=
  { CABundle := some (gs "ca"), KubernetesVersion := gs "1.27.1", ResourceGroup := gs "rg",
    Labels := GoMap.ofList [(gs "agentpool", gs "mypool")] }

/-- An input whose caller-supplied labels name the baseline key
`kubernetes.azure.com/mode`. -/
def modeLabelAKS : AKS :=
  { CABundle := some (gs "ca"), KubernetesVersion := gs "1.27.1", ResourceGroup := gs "rg",
    Labels := GoMap.ofList [(gs "kubernetes.azure.com/mode", gs "user")] }

/-- An input that chooses the kubenet plugin and no network policy. -/
def kubenetAKS : AKS :=
  { CABundle := some (gs "ca"), KubernetesVersion := gs "1.25.0", NetworkPlugin := gs "kubenet",
    TenantID := gs "tenant", ResourceGroup := gs "rg", ClusterID := gs "c1" }

/-- An input that declares two taints. -/
def taintedAKS : AKS :=
  { CABundle := some (gs "ca"), KubernetesVersion := gs "1.26.0", ResourceGroup := gs "rg",
    Taints := [{ Key := gs "sku", Value := gs "gpu", Effect := gs "NoSchedule" },
               { Key := gs "dedicated", Value := [], Effect := gs "NoExecute" }] }

end AKSBootstrap

namespace GarbageCollection

open AKSBootstrap

/-! ## Time -/

/-- An instant (`time.Time`), in nanoseconds from Go's zero time. -/
abbrev Time := Int

/-- A `time.Duration`: nanoseconds in an int64. -/
abbrev Duration := Int

/-- The constant `time.Minute`. -/
def timeMinute : Duration := 60000000000

/-- Library method `Time.Sub`: the difference, held to the range of an int64. -/
def timeSub (t u : Time) : Duration :=
  if t - u > 9223372036854775807 then 9223372036854775807
  else if t - u < -9223372036854775808 then -9223372036854775808
  else t - u

/-- Library method `(*metav1.Time).IsZero`: a nil pointer or the zero time. -/
def isZeroTime (t : Option Time) : Bool :=
  match t with
  | none => true
  | some t => t == 0

/-! ## Library: knative.dev/pkg/apis, conditions -/

/-- The type `apis.Condition`; `CondType` is its field `Type`. `Type`, `Status`
and `Severity` are string types; the severity `Error` is the empty string. -/
structure Condition where
  CondType : GoString := []
  Status : GoString := []
  Severity : GoString := []
  LastTransitionTime : Time := 0
  Reason : GoString := []
  Message : GoString := []
  deriving DecidableEq

/-- The constant `apis.ConditionReady`. -/
def ConditionReady : GoString := gs "Ready"

/-- The constant `apis.ConditionSeverityError`. -/
def ConditionSeverityError : GoString := gs ""

/-- The constant `apis.ConditionSeverityInfo`. -/
def ConditionSeverityInfo : GoString := gs "Info"

/-- Library method `(*Condition).IsTrue`, which is false on a nil pointer. -/
def isTrue (c : Option Condition) : Bool :=
  match c with
  | none => false
  | some c => c.Status == gs "True"

/-- Library method `(*Condition).IsFalse`. -/
def isFalse (c : Option Condition) : Bool :=
  match c with
  | none => false
  | some c => c.Status == gs "False"

/-- Library method `(*Condition).IsUnknown`, which is true on a nil pointer. -/
def isUnknown (c : Option Condition) : Bool :=
  match c with
  | none => true
  | some c => c.Status == gs "Unknown"

/-- The type `apis.ConditionSet`: the happy condition and its dependents. -/
structure ConditionSet where
  happy : GoString
  dependents : List GoString
  deriving DecidableEq

/-- Library function `apis.NewLivingConditionSet`: the happy condition is
`Ready`; a dependent that is the happy condition or was named before is left
out. -/
def NewLivingConditionSet (d : List GoString) : ConditionSet :=
  { happy := ConditionReady
    dependents := d.foldl
      (fun deps t => if t == ConditionReady || deps.contains t then deps else deps ++ [t]) [] }

/-- Library method `GetCondition`: the first condition of the type, `none` for
the nil pointer. -/
def getCondition (conditions : List Condition) (t : GoString) : Option Condition :=
  conditions.find? (fun c => c.CondType == t)

/-- Library method `IsHappy`: the happy condition is true. -/
def isHappy (set : ConditionSet) (conditions : List Condition) : Bool :=
  isTrue (getCondition conditions set.happy)

/-- Library method `isTerminal`. -/
def isTerminal (set : ConditionSet) (t : GoString) : Bool :=
  set.dependents.contains t || t == set.happy

/-- Library method `severity`. -/
def severity (set : ConditionSet) (t : GoString) : GoString :=
  if isTerminal set t then ConditionSeverityError else ConditionSeverityInfo

/-- The order of Go strings under `<`: byte by byte. -/
def goStringLess : GoString → GoString → Bool
  | [], [] => false
  | [], _ :: _ => true
  | _ :: _, [] => false
  | a :: as, b :: bs => if a < b then true else if b < a then false else goStringLess as bs

/-- The call `sort.Slice(conditions, ...)` of `SetCondition`, by type name.
For the short lists at hand the library sorts by insertion, which keeps
conditions of one type in their order. -/
def sortByType (conditions : List Condition) : List Condition :=
  conditions.insertionSort (fun a b => ¬ goStringLess b.CondType a.CondType = true)

/-- The call `sort.Slice(conditions, ...)` of `findUnhappyDependent`: latest
transition first. -/
def sortByTimeDescending (conditions : List Condition) : List Condition :=
  conditions.insertionSort (fun a b => b.LastTransitionTime ≤ a.LastTransitionTime)

/-- Library method `SetCondition`, with `now` the reading of `time.Now()`. The
loop keeps the conditions of other types; when it meets a condition of the
type that equals the new one up to the transition time, the method returns
without a change. Otherwise the new condition gets the transition time `now`,
is appended, and the conditions are stored back sorted by type. -/
def setCondition (now : Time) (conditions : List Condition) (cond : Condition) :
    List Condition :=
  if conditions.any (fun c => c.CondType == cond.CondType &&
      decide ({ cond with LastTransitionTime := c.LastTransitionTime } = c)) then
    conditions
  else
    sortByType (conditions.filter (fun c => c.CondType != cond.CondType) ++
      [{ cond with LastTransitionTime := now }])

/-- Library method `findUnhappyDependent`: among the conditions of severity
`Error` other than the happy one, latest transition first, the first that is
false, else the first that is unknown, else an unknown condition when fewer
are set than there are dependents; `none` when all dependents are fine. -/
def findUnhappyDependent (set : ConditionSet) (conditions : List Condition) :
    Option Condition :=
  if set.dependents.length = 0 then none
  else
    let conditions := conditions.filter
      (fun c => c.Severity == ConditionSeverityError && c.CondType != set.happy)
    let conditions := sortByTimeDescending conditions
    match conditions.find? (fun c => isFalse (some c)) with
    | some c => some c
    | none =>
      match conditions.find? (fun c => isUnknown (some c)) with
      | some c => some c
      | none =>
        if set.dependents.length > conditions.length then some { Status := gs "Unknown" }
        else none

/-- Library method `recomputeHappiness`: an unhappy dependent passes its
status, reason and message to the happy condition; without one, the happy
condition is set to true unless it is the condition that was just marked. -/
def recomputeHappiness (set : ConditionSet) (now : Time) (conditions : List Condition)
    (t : GoString) : List Condition :=
  match findUnhappyDependent set conditions with
  | some c =>
    setCondition now conditions
      { CondType := set.happy, Status := c.Status, Reason := c.Reason, Message := c.Message,
        Severity := severity set set.happy }
  | none =>
    if t != set.happy then
      setCondition now conditions
        { CondType := set.happy, Status := gs "True", Severity := severity set set.happy }
    else conditions

/-- Library method `MarkTrue`: the condition is set to true and the happiness
is recomputed. `now` and `later` are the readings of `time.Now()` of the two
`SetCondition` calls. -/
def markTrue (set : ConditionSet) (now later : Time) (conditions : List Condition)
    (t : GoString) : List Condition :=
  let conditions := setCondition now conditions
    { CondType := t, Status := gs "True", Severity := severity set t }
  recomputeHappiness set later conditions t

/-- Library method `MarkFalse`: the condition, and after it the happy condition
once for each dependent equal to the type, is set to false with the reason and
message. -/
def markFalse (set : ConditionSet) (now : Time) (conditions : List Condition)
    (t reason message : GoString) : List Condition :=
  let types := [t] ++ (set.dependents.filter (fun cond => cond == t)).map (fun _ => set.happy)
  types.foldl (fun conditions t =>
    setCondition now conditions
      { CondType := t, Status := gs "False", Reason := reason, Message := message,
        Severity := severity set t }) conditions

/-- The status `findUnhappyDependent` reports, as a function of the conditions
it looks at in any order: `none` when all dependents are fine. -/
def unhappyStatus (set : ConditionSet) (conditions : List Condition) : Option GoString :=
  if set.dependents.length = 0 then none
  else
    let conditions := conditions.filter
      (fun c => c.Severity == ConditionSeverityError && c.CondType != set.happy)
    if conditions.any (fun c => c.Status == gs "False") then some (gs "False")
    else if conditions.any (fun c => c.Status == gs "Unknown") then some (gs "Unknown")
    else if set.dependents.length > conditions.length then some (gs "Unknown")
    else none

/-- A list of conditions holds at most one condition of the type. -/
def atMostOneOfType (t : GoString) (conditions : List Condition) : Prop :=
  (conditions.filter (fun c => c.CondType == t)).length ≤ 1

instance decidableAtMostOneOfType (t : GoString) (conditions : List Condition) :
    Decidable (atMostOneOfType t conditions) :=
  inferInstanceAs (Decidable (_ ≤ 1))

/-! ## Machines -/

/-- Modelled from the spec: the declaration of `v1alpha5.Machine` is not among
the sources. These are the parts of a desired-state record the reconciler reads
or writes, and the parts `instanceToMachine` fills in: name, labels and
annotations (`none` is a nil map), the deletion timestamp (`none` is a nil
pointer), and of the status the provider ID, the conditions, and the capacity
and allocatable resources (each a list of resource name and quantity, `none`
a nil map). -/
structure Machine where
  Name : GoString := []
  Labels : Option GoMap := none
  Annotations : Option GoMap := none
  DeletionTimestamp : Option Time := none
  ProviderID : GoString := []
  Conditions : List Condition := []
  Capacity : Option (List (GoString × Int)) := none
  Allocatable : Option (List (GoString × Int)) := none
  deriving DecidableEq

/-- The record without its annotations: what two records that differ in
annotations only have in common. -/
def Machine.withoutAnnotations (m : Machine) : Machine := { m with Annotations := none }

/-- The declarations of package `v1alpha5` the reconciler relies on are not
among the sources and are parameters of the embedding: the name of the launched
condition and the living conditions of a machine, from which
`Machine.StatusConditions` builds its condition set. -/
structure MachineAPI where
  MachineLaunched : GoString
  LivingConditions : List GoString

/-- The condition set behind `Machine.StatusConditions`. -/
def MachineAPI.conditionSet (api : MachineAPI) : ConditionSet :=
  NewLivingConditionSet api.LivingConditions

/-! ## The reconciler and its surroundings -/

/-- The constant `NodeHeartBeatAnnotationKey`. -/
def NodeHeartBeatAnnotationKey : GoString := gs "NodeHeartBeatTimeStamp"

/-- A non-nil `error` of the client: whether `apierrors.IsNotFound` holds of
it, and its message. -/
structure GoError where
  notFound : Bool
  message : GoString
  deriving DecidableEq

/-- Library function `client.IgnoreNotFound` on a non-nil error (`none` is the
nil error). -/
def IgnoreNotFound (err : GoError) : Option GoError :=
  if err.notFound then none else some err

/-- Library function `multierr.Combine`: the non-nil errors, in order. The
empty list stands for the nil error. -/
def multierrCombine (errs : List (Option GoError)) : List GoError :=
  errs.filterMap id

/-- A call the reconciler makes on the store. -/
inductive ClientCall where
  | patch (obj stored : Machine)
  | statusPatch (obj stored : Machine)
  | delete (obj : Machine)
  deriving DecidableEq

/-- The record a call acts on. -/
def ClientCall.object : ClientCall → Machine
  | .patch obj _ => obj
  | .statusPatch obj _ => obj
  | .delete obj => obj

/-- Everything outside the reconciler that one pass consults: the two
listings, the outcome of each call on the store (by the position of the record
in `hbMachines`, for `Delete` in `deletedMachines`; `none` is the nil error),
the readings of `time.Now()` (for the heartbeat and for the two `SetCondition`
calls) and of the controller's clock for each record, and the library's
rendering of a time as JSON. -/
structure World where
  api : MachineAPI
  listMachines : Except GoError (List Machine)
  listCloudProvider : Except GoError (List Machine)
  patch : Nat → Option GoError
  statusPatch : Nat → Option GoError
  delete : Nat → Option GoError
  wallHeartbeat : Nat → Time
  wallMark : Nat → Time
  wallRecompute : Nat → Time
  clockNow : Nat → Time
  marshalJSON : Time → GoString

/-- Lines 92 to 108 of `Reconcile`: the record `updated` for the `i`-th machine
of `hbMachines`. -/
def heartbeatUpdate (w : World) (cloudProviderProviderIDs : List GoString) (i : Nat)
    (m : Machine) : Machine :=
  let stored := m
  let updated := m
  if cloudProviderProviderIDs.contains stored.ProviderID then
    let annotations := match updated.Annotations with
      | none => GoMap.empty
      | some annotations => annotations
    let timeStr := w.marshalJSON (w.wallHeartbeat i)
    let updated := { updated with
      Annotations := some (annotations.set NodeHeartBeatAnnotationKey timeStr) }
    { updated with
      Conditions := markTrue w.api.conditionSet (w.wallMark i) (w.wallRecompute i)
        updated.Conditions (gs "Ready") }
  else
    { updated with
      Conditions := markFalse w.api.conditionSet (w.wallMark i) updated.Conditions
        (gs "Ready") (gs "NodeNotReady") (gs "Node status is NotReady") }

/-- What the work on one machine of `hbMachines` leaves: the calls made, the
entry of `hbErrs`, the record appended to `deletedMachines` if one was, and the
panic if one was raised. -/
structure PieceResult where
  calls : List ClientCall
  hbErr : Option GoError
  queued : Option Machine
  panic : Option GoPanic
  deriving DecidableEq

/-- The body of the first `workqueue.ParallelizeUntil` of `Reconcile`, for the
`i`-th machine of `hbMachines`. -/
def heartbeatPiece (w : World) (cloudProviderProviderIDs : List GoString) (i : Nat)
    (m : Machine) : PieceResult :=
  let stored := m
  let updated := heartbeatUpdate w cloudProviderProviderIDs i m
  let statusCopy := updated
  let updateCopy := updated
  match w.patch i with
  | some err =>
    { calls := [.patch updated stored], hbErr := IgnoreNotFound err, queued := none,
      panic := none }
  | none =>
    match w.statusPatch i with
    | some err =>
      { calls := [.patch updated stored, .statusPatch statusCopy stored],
        hbErr := IgnoreNotFound err, queued := none, panic := none }
    | none =>
      if !isHappy w.api.conditionSet updateCopy.Conditions then
        match getCondition updateCopy.Conditions (gs "Ready") with
        | none =>
          { calls := [.patch updated stored, .statusPatch statusCopy stored], hbErr := none,
            queued := none, panic := some GoPanic.nilPointerDereference }
        | some ready =>
          if timeSub (w.clockNow i) ready.LastTransitionTime > timeMinute * 6 then
            { calls := [.patch updated stored, .statusPatch statusCopy stored], hbErr := none,
              queued := some updateCopy, panic := none }
          else
            { calls := [.patch updated stored, .statusPatch statusCopy stored], hbErr := none,
              queued := none, panic := none }
      else
        { calls := [.patch updated stored, .statusPatch statusCopy stored], hbErr := none,
          queued := none, panic := none }

/-- The pieces of the first `workqueue.ParallelizeUntil`, taken in the order of
`hbMachines` from position `i` on. (The library runs them on up to twenty
workers; the embedding takes them one after the other and leaves a cancelled
context aside.) -/
def heartbeatPieces (w : World) (cloudProviderProviderIDs : List GoString) :
    Nat → List Machine → List PieceResult
  | _, [] => []
  | i, m :: rest =>
    heartbeatPiece w cloudProviderProviderIDs i m ::
      heartbeatPieces w cloudProviderProviderIDs (i + 1) rest

/-- The body of the second `workqueue.ParallelizeUntil`, for the machines of
`deletedMachines` from position `i` on: the `Delete` call and the entry of
`errs`. (Logging and the metrics counter are left out.) -/
def deletePieces (w : World) : Nat → List Machine → List (ClientCall × Option GoError)
  | _, [] => []
  | i, m :: rest =>
    (ClientCall.delete m,
      match w.delete i with
      | some err => IgnoreNotFound err
      | none => none) :: deletePieces w (i + 1) rest

/-- The type `reconcile.Result`. -/
structure Result where
  Requeue : Bool := false
  RequeueAfter : Duration := 0
  deriving DecidableEq

/-- A call of `Reconcile`: the result and error it returns (the empty list is
the nil error), the calls it made on the store in order, the final
`deletedMachines`, and the panic if one was raised. -/
structure ReconcileRun where
  result : Result
  err : List GoError
  calls : List ClientCall
  deletedMachines : List Machine
  panic : Option GoPanic
  deriving DecidableEq

/-- The machines `Reconcile` keeps in `hbMachines`: launched and not marked for
deletion. -/
def hbMachinesOf (w : World) (items : List Machine) : List Machine :=
  items.filter (fun m =>
    isTrue (getCondition m.Conditions w.api.MachineLaunched) && isZeroTime m.DeletionTimestamp)

/-- The provider IDs `Reconcile` collects in `cloudProviderProviderIDs`. -/
def cloudProviderProviderIDsOf (cloudProviderMachines : List Machine) : List GoString :=
  (cloudProviderMachines.filter (fun m => isZeroTime m.DeletionTimestamp)).map
    (fun m => m.ProviderID)

/-- The method `Controller.Reconcile`, in the runs in which the pieces of a
fan-out do not overlap: the first fan-out is taken piece after piece, so that
`deletedMachines` receives every record a piece queues. What the variable
holds when pieces overlap is `deletedMachinesUnder`. -/
def Reconcile (w : World) : ReconcileRun :=
  match w.listMachines with
  | .error err =>
    { result := {}, err := [err], calls := [], deletedMachines := [], panic := none }
  | .ok items =>
    match w.listCloudProvider with
    | .error err =>
      { result := {}, err := [err], calls := [], deletedMachines := [], panic := none }
    | .ok cloudProviderMachines =>
      let cloudProviderProviderIDs := cloudProviderProviderIDsOf cloudProviderMachines
      let hbMachines := hbMachinesOf w items
      let pieces := heartbeatPieces w cloudProviderProviderIDs 0 hbMachines
      let deletedMachines := pieces.filterMap (fun p => p.queued)
      let hbErrs := pieces.map (fun p => p.hbErr)
      let deletions := deletePieces w 0 deletedMachines
      let errs := deletions.map (fun d => d.2)
      let errs := errs ++ hbErrs
      { result := { RequeueAfter := timeMinute * 2 }
        err := multierrCombine errs
        calls := pieces.flatMap (fun p => p.calls) ++ deletions.map (fun d => d.1)
        deletedMachines := deletedMachines
        panic := pieces.findSome? (fun p => p.panic) }

/-! ## The workers of the first fan-out and the variables they share

`workqueue.ParallelizeUntil` runs the pieces on up to twenty goroutines, so two
pieces may run at the same time. The definitions below list what a piece does
to the variables of `Reconcile` that the closure captures, and run the one
statement that is a read followed by a write under a schedule. -/

/-- The variables of `Reconcile` that the closure of the first fan-out
captures: the elements of `hbMachines`, the set `cloudProviderProviderIDs`,
the counter `hbUpdated`, the elements of `hbErrs`, and the slice variable
`deletedMachines`. -/
inductive SharedVar where
  | hbMachines (i : Nat)
  | cloudProviderProviderIDs
  | hbUpdated
  | hbErrs (i : Nat)
  | deletedMachines
  deriving DecidableEq

/-- One access to a shared variable: a read or a write, plain or through
`sync/atomic`. -/
structure Access where
  var : SharedVar
  isWrite : Bool
  isAtomic : Bool := false
  deriving DecidableEq

/-- The accesses to shared variables that the body of the first
`workqueue.ParallelizeUntil` makes for the `i`-th machine of `hbMachines`, in
the order of the source: `hbMachines[i]` is read twice, the set is asked once,
`hbUpdated.Add(1)` is atomic, a failed patch writes `hbErrs[i]`, and
`deletedMachines = append(deletedMachines, updateCopy)` reads the variable and
writes it. -/
def heartbeatAccesses (w : World) (cloudProviderProviderIDs : List GoString) (i : Nat)
    (m : Machine) : List Access :=
  let stored := m
  let updated := heartbeatUpdate w cloudProviderProviderIDs i m
  let updateCopy := updated
  [{ var := .hbMachines i, isWrite := false }, { var := .hbMachines i, isWrite := false },
   { var := .cloudProviderProviderIDs, isWrite := false }] ++
  (if cloudProviderProviderIDs.contains stored.ProviderID then
    [{ var := .hbUpdated, isWrite := true, isAtomic := true }]
   else []) ++
  (match w.patch i with
   | some _ => [{ var := .hbErrs i, isWrite := true }]
   | none =>
     match w.statusPatch i with
     | some _ => [{ var := .hbErrs i, isWrite := true }]
     | none =>
       if !isHappy w.api.conditionSet updateCopy.Conditions then
         match getCondition updateCopy.Conditions (gs "Ready") with
         | none => []
         | some ready =>
           if timeSub (w.clockNow i) ready.LastTransitionTime > timeMinute * 6 then
             [{ var := .deletedMachines, isWrite := false },
              { var := .deletedMachines, isWrite := true }]
           else []
       else [])

/-- Two accesses conflict (Go memory model): they are to the same variable, at
least one is a write, and they are not both atomic. -/
def conflict (a b : Access) : Bool :=
  decide (a.var = b.var) && (a.isWrite || b.isWrite) && !(a.isAtomic && b.isAtomic)

/-- Two pieces run by different goroutines race when an access of one
conflicts with an access of the other: nothing orders the accesses of two
pieces of one fan-out. -/
def racing (accesses₁ accesses₂ : List Access) : Bool :=
  accesses₁.any (fun a => accesses₂.any (fun b => conflict a b))

/-- A worker that has reached `deletedMachines = append(deletedMachines,
updateCopy)`: its record, the slice it has read from the variable (`none`
before the read), and whether it has written the result back. -/
structure AppendWorker where
  record : Machine
  loaded : Option (List Machine) := none
  stored : Bool := false
  deriving DecidableEq

/-- The variable `deletedMachines` and the workers appending to it. -/
structure AppendPhase where
  deletedMachines : List Machine
  workers : List AppendWorker
  deriving DecidableEq

/-- One step of worker `i`: it reads the variable if it has not, and else
writes the slice it read, extended by its record, into the variable. -/
def AppendPhase.step (s : AppendPhase) (i : Nat) : AppendPhase :=
  match s.workers[i]? with
  | none => s
  | some worker =>
    if worker.stored then s
    else
      match worker.loaded with
      | none =>
        { s with workers := s.workers.set i { worker with loaded := some s.deletedMachines } }
      | some old =>
        { deletedMachines := old ++ [worker.record]
          workers := s.workers.set i { worker with stored := true } }

/-- The steps taken in the order of a schedule, given as the worker that moves
at each instant. -/
def AppendPhase.run (s : AppendPhase) (schedule : List Nat) : AppendPhase :=
  schedule.foldl AppendPhase.step s

/-- The phase when the workers that queue the given records start, with
`deletedMachines := []*v1alpha5.Machine{}`. -/
def appendPhaseOf (records : List Machine) : AppendPhase :=
  { deletedMachines := [], workers := records.map (fun r => { record := r }) }

/-- The schedule in which `n` workers append in turn, each reading and writing
before the next reads. -/
def inTurn (n : Nat) : List Nat := (List.range n).flatMap (fun i => [i, i])

/-- The variable `deletedMachines` at the end of the first fan-out of a pass
over the given listings, when the pieces that queue their record take their
steps on the variable in the order of the schedule. -/
def deletedMachinesUnder (w : World) (items cloud : List Machine) (schedule : List Nat) :
    List Machine :=
  let pieces := heartbeatPieces w (cloudProviderProviderIDsOf cloud) 0 (hbMachinesOf w items)
  ((appendPhaseOf (pieces.filterMap (fun p => p.queued))).run schedule).deletedMachines

/-! ## Sample records and passes -/

/-- The conditions of karpenter-core's `v1alpha5` machines: the launched
condition and the three living conditions. -/
def karpenterAPI : MachineAPI :=
  { MachineLaunched := gs "MachineLaunched"
    LivingConditions := [gs "MachineLaunched", gs "MachineRegistered", gs "MachineInitialized"] }

/-- A condition of severity `Error`, as `MarkTrue` and `MarkFalse` write them
for the living conditions. -/
def sampleCondition (t status reason : GoString) (at_ : Time) : Condition :=
  { CondType := t, Status := status, Reason := reason, LastTransitionTime := at_ }

/-- A machine that is launched, registered and initialized. -/
def healthyMachine : Machine :=
  { Name := gs "m-healthy", ProviderID := gs "azure:///vm-healthy"
    Conditions := [sampleCondition (gs "MachineInitialized") (gs "True") [] 100,
                   sampleCondition (gs "MachineLaunched") (gs "True") [] 100,
                   sampleCondition (gs "MachineRegistered") (gs "True") [] 100] }

/-- A machine that is launched but whose node has not registered. -/
def unregisteredMachine : Machine :=
  { Name := gs "m-unregistered", ProviderID := gs "azure:///vm-unregistered"
    Conditions := [sampleCondition (gs "MachineLaunched") (gs "True") [] 100,
                   sampleCondition (gs "MachineRegistered") (gs "False") (gs "NodeNotFound") 100] }

/-- A healthy machine that an earlier pass marked not ready at instant 1000. -/
def staleMachine : Machine :=
  { Name := gs "m-stale", ProviderID := gs "azure:///vm-gone"
    Annotations := some (GoMap.ofList [(gs "NodeHeartBeatTimeStamp", gs "old")])
    Conditions := [sampleCondition (gs "MachineInitialized") (gs "True") [] 100,
                   sampleCondition (gs "MachineLaunched") (gs "True") [] 100,
                   sampleCondition (gs "MachineRegistered") (gs "True") [] 100,
                   { CondType := gs "Ready", Status := gs "False", Reason := gs "NodeNotReady",
                     Message := gs "Node status is NotReady", LastTransitionTime := 1000 }] }

/-- A machine whose node has not registered, and whose `Ready` condition an
earlier pass set to false at instant 1000 with the reason of the unregistered
node. -/
def notFoundMachine : Machine :=
  { Name := gs "m-notfound", ProviderID := gs "azure:///vm-notfound"
    Conditions := [sampleCondition (gs "MachineLaunched") (gs "True") [] 100,
                   sampleCondition (gs "MachineRegistered") (gs "False") (gs "NodeNotFound") 100,
                   sampleCondition (gs "Ready") (gs "False") (gs "NodeNotFound") 1000] }

/-- A machine that has not been launched. -/
def pendingMachine : Machine :=
  { Name := gs "m-pending", ProviderID := gs "azure:///vm-healthy" }

/-- A pass at instant `now` on both clocks, every call on the store succeeding,
over the given records and cloud inventory. Times are rendered as `t` followed
by the instant, in place of the library's RFC 3339 text. -/
def samplePass (now : Time) (items cloud : List Machine) : World :=
  { api := karpenterAPI
    listMachines := .ok items
    listCloudProvider := .ok cloud
    patch := fun _ => none
    statusPatch := fun _ => none
    delete := fun _ => none
    wallHeartbeat := fun _ => now
    wallMark := fun _ => now
    wallRecompute := fun _ => now
    clockNow := fun _ => now
    marshalJSON := fun t => gs "t" ++ (Nat.toDigits 10 t.toNat).map (fun c => UInt8.ofNat c.toNat) }

/-- A pass late enough for the six minutes to have elapsed, over two records
that an earlier pass marked not ready and that are absent from the
inventory. -/
def twoStalePass : World :=
  samplePass 500000000000
    [{ staleMachine with Name := gs "m-stale-1" }, { staleMachine with Name := gs "m-stale-2" }]
    []

/-- A pass in which listing the desired-state records fails. -/
def failedListingPass : World :=
  { samplePass 5000 [] [] with listMachines := .error { notFound := false, message := gs "timeout" } }

/-- A pass over five healthy machines, all in the inventory, in which the
`Patch` of the second one fails. -/
def secondPatchFailsPass : World :=
  { samplePass 5000
      [{ healthyMachine with Name := gs "m1" }, { healthyMachine with Name := gs "m2" },
       { healthyMachine with Name := gs "m3" }, { healthyMachine with Name := gs "m4" },
       { healthyMachine with Name := gs "m5" }]
      [healthyMachine] with
    patch := fun i => if i = 1 then some { notFound := false, message := gs "conflict on m2" }
      else none }

/-- A pass over one machine that is in the inventory but has not registered,
in which the controller's clock is read seven minutes after the wall clock
that stamps the conditions (the two `Patch` calls of the record take that
long, or the injected clock runs ahead). -/
def skewedClockPass : World :=
  { samplePass 5000 [unregisteredMachine] [unregisteredMachine] with
    clockNow := fun _ => 5000 + timeMinute * 7 }

end GarbageCollection

namespace CloudProvider

open AKSBootstrap GarbageCollection

/-! ## utils.go: from a cloud instance to a machine -/

/-- The fields of `instance.Instance` that `instanceToMachine` reads, with the
types its uses of them fix (the declaration is not among the sources): three
`*string` (`none` is a nil pointer), the `map[string]string` of labels (`none`
is a nil map) and the `map[string]*string` of tags, as its entries. -/
structure Instance where
  Name : Option GoString := none
  ID : Option GoString := none
  CapacityType : Option GoString := none
  Labels : Option GoMap := none
  Tags : List (GoString × Option GoString) := []

/-- The type `cloudprovider.InstanceTypeOverhead` of karpenter-core: three
resource lists. A resource list is held as its entries, a resource quantity as
a number of base units. -/
structure InstanceTypeOverhead where
  KubeReserved : List (GoString × Int) := []
  SystemReserved : List (GoString × Int) := []
  EvictionThreshold : List (GoString × Int) := []

/-- The parts of a `cloudprovider.InstanceType` that `instanceToMachine` uses:
its capacity, its overhead (a pointer, `none` when nil), and the labels that
`utils.GetAllSingleValuedRequirementLabels` derives from it (that function is
not among the sources). -/
structure InstanceType where
  Name : GoString := []
  Capacity : List (GoString × Int) := []
  Overhead : Option InstanceTypeOverhead := none
  singleValuedRequirementLabels : GoMap := GoMap.empty

/-- The statements `current := result[name]; current.Add(quantity);
result[name] = current` of `resources.Merge`, on the entries of the result. -/
def addQuantity (name : GoString) (quantity : Int) :
    List (GoString × Int) → List (GoString × Int)
  | [] => [(name, quantity)]
  | e :: rest =>
    if e.1 = name then (name, e.2 + quantity) :: rest else e :: addQuantity name quantity rest

/-- Library function `resources.Merge`: the sum of the resource lists. -/
def resourcesMerge (resources : List (List (GoString × Int))) : List (GoString × Int) :=
  resources.foldl (fun result resourceList =>
    resourceList.foldl (fun result e => addQuantity e.1 e.2 result) result) []

/-- Library function `resources.Subtract`: the resources of `lhs`, each less
what `rhs` holds for it. -/
def resourcesSubtract (lhs rhs : List (GoString × Int)) : List (GoString × Int) :=
  lhs.map (fun e =>
    match rhs.lookup e.1 with
    | some rhsValue => (e.1, e.2 - rhsValue)
    | none => e)

/-- Library method `InstanceTypeOverhead.Total`. -/
def InstanceTypeOverhead.Total (o : InstanceTypeOverhead) : List (GoString × Int) :=
  resourcesMerge [o.KubeReserved, o.SystemReserved, o.EvictionThreshold]

/-- Library method `(*InstanceType).Allocatable`: the capacity less the total
overhead. `Total` has a value receiver, so the call dereferences the overhead
pointer and panics when it is nil. -/
def InstanceType.Allocatable (i : InstanceType) : Except GoPanic (List (GoString × Int)) :=
  match i.Overhead with
  | none => .error GoPanic.nilPointerDereference
  | some overhead => .ok (resourcesSubtract i.Capacity overhead.Total)

/-- The label and annotation keys of package `v1alpha5` that `instanceToMachine`
uses; their declarations are not among the sources, and they are parameters of
the embedding. -/
structure MachineKeys where
  LabelCapacityType : GoString
  ProvisionerNameLabelKey : GoString
  MachineManagedByAnnotationKey : GoString
  MachineLinkedAnnotationKey : GoString

/-- Library function `lo.FromPtr`: the value pointed to, the zero value for a
nil pointer. -/
def loFromPtr (p : Option GoString) : GoString :=
  match p with
  | some s => s
  | none => []

/-- The indirection `*p` of a `*string`. -/
def deref (p : Option GoString) : Except GoPanic GoString :=
  match p with
  | some s => .ok s
  | none => .error GoPanic.nilPointerDereference

/-- The assignment `m[k] = v` on a map variable that may hold nil. -/
def assignEntry (m : Option GoMap) (k v : GoString) : Except GoPanic (Option GoMap) :=
  match m with
  | some table => .ok (some (table.set k v))
  | none => .error GoPanic.assignmentToEntryInNilMap

/-- The lookup `v, ok := tags[k]` (`none`: not ok). -/
def tagLookup (tags : List (GoString × Option GoString)) (k : GoString) :
    Option (Option GoString) :=
  tags.lookup k

/-- Library function `functional.FilterMap` on a resource list. -/
def functionalFilterMap (m : List (GoString × Int)) (f : GoString → Int → Bool) :
    List (GoString × Int) :=
  m.filter (fun e => f e.1 e.2)

/-- Library function `resources.IsZero`. -/
def resourcesIsZero (q : Int) : Bool := q == 0

/-- The constant `v1.ResourceStorage`. -/
def ResourceStorage : GoString := gs "storage"

/-- The method `CloudProvider.instanceToMachine` of utils.go: the machine it
returns, or the panic that ends it. (The warning it logs for a nil ID is left
out.) The statements are taken in the order of the source; `instanceObj` is
dereferenced by the first of them, and the call of `Allocatable` may panic. -/
def instanceToMachine (keys : MachineKeys) (instanceObj : Option Instance)
    (instanceType : Option InstanceType) : Except GoPanic Machine :=
  let machine : Machine := {}
  match instanceObj with
  | none => .error GoPanic.nilPointerDereference
  | some inst =>
    let labels := inst.Labels
    let annotations := GoMap.empty
    let machine := { machine with Name := loFromPtr inst.Name }
    let afterInstanceType : Except GoPanic (Option GoMap × Machine) :=
      match instanceType with
      | some it =>
        let labels := some (loAssign [labels.getD GoMap.empty, it.singleValuedRequirementLabels])
        let machine := { machine with
          Capacity := some (functionalFilterMap it.Capacity (fun _ v => !resourcesIsZero v)) }
        match it.Allocatable with
        | .error p => .error p
        | .ok allocatable =>
          .ok (labels, { machine with
            Allocatable := some (functionalFilterMap allocatable
              (fun rName v => !resourcesIsZero v && rName != ResourceStorage)) })
      | none => .ok (labels, machine)
    match afterInstanceType with
    | .error p => .error p
    | .ok (labels, machine) =>
    let afterCapacityType : Except GoPanic (Option GoMap) :=
      match inst.CapacityType with
      | some capacityType => assignEntry labels keys.LabelCapacityType capacityType
      | none => .ok labels
    match afterCapacityType with
    | .error p => .error p
    | .ok labels =>
      let afterProvisioner : Except GoPanic (Option GoMap) :=
        match tagLookup inst.Tags keys.ProvisionerNameLabelKey with
        | some v =>
          match deref v with
          | .error p => .error p
          | .ok name => assignEntry labels keys.ProvisionerNameLabelKey name
        | none => .ok labels
      match afterProvisioner with
      | .error p => .error p
      | .ok labels =>
        let afterManagedBy : Except GoPanic GoMap :=
          match tagLookup inst.Tags keys.MachineManagedByAnnotationKey with
          | some v =>
            match deref v with
            | .error p => .error p
            | .ok managedBy =>
              .ok (annotations.set keys.MachineManagedByAnnotationKey managedBy)
          | none => .ok annotations
        match afterManagedBy with
        | .error p => .error p
        | .ok annotations =>
          let machine := { machine with Labels := labels }
          match inst.ID with
          | some id =>
            .ok { machine with
              ProviderID := id
              Annotations := some (annotations.set keys.MachineLinkedAnnotationKey id) }
          | none => .ok { machine with Annotations := some annotations }

/-! ## Sample instances -/

/-- The keys as karpenter-core declares them. -/
def karpenterKeys : MachineKeys :=
  { LabelCapacityType := gs "karpenter.sh/capacity-type"
    ProvisionerNameLabelKey := gs "karpenter.sh/provisioner-name"
    MachineManagedByAnnotationKey := gs "karpenter.sh/managed-by"
    MachineLinkedAnnotationKey := gs "karpenter.sh/linked" }

/-- An instance with a name and a capacity type, no ID, and a nil map of
labels. -/
def unlabelledInstance : Instance :=
  { Name := some (gs "vm-1"), CapacityType := some (gs "on-demand") }

/-- An instance with labels, whose provisioner-name tag holds a nil pointer. -/
def nilTagInstance : Instance :=
  { Name := some (gs "vm-2"), ID := some (gs "azure:///vm-2"), Labels := some GoMap.empty
    Tags := [(gs "karpenter.sh/provisioner-name", none)] }

/-- An instance with a nil map of labels and no capacity type, whose
provisioner-name tag is set. -/
def taggedUnlabelledInstance : Instance :=
  { Name := some (gs "vm-4")
    Tags := [(gs "karpenter.sh/provisioner-name", some (gs "default"))] }

/-- An instance with labels and tags and no ID. -/
def noIDInstance : Instance :=
  { Name := some (gs "vm-3"), CapacityType := some (gs "on-demand")
    Labels := some GoMap.empty
    Tags := [(gs "karpenter.sh/provisioner-name", some (gs "default"))] }

/-- The lookup `m[k]` on a map variable that may hold nil. -/
def lookupIn (m : Option GoMap) (k : GoString) : Option GoString :=
  match m with
  | some table => table.get k
  | none => none

/-- An instance without tags whose labels name a provisioner. -/
def labelledInstance : Instance :=
  { Name := some (gs "vm-5"), ID := some (gs "azure:///vm-5")
    Labels := some (GoMap.ofList [(gs "karpenter.sh/provisioner-name", gs "default")]) }

/-- An instance with a name, an ID, a capacity type, labels and both tags. -/
def fullInstance : Instance :=
  { Name := some (gs "vm-6"), ID := some (gs "azure:///vm-6")
    CapacityType := some (gs "on-demand")
    Labels := some (GoMap.ofList [(gs "kubernetes.io/os", gs "linux")])
    Tags := [(gs "karpenter.sh/provisioner-name", some (gs "default")),
             (gs "karpenter.sh/managed-by", some (gs "cluster-1"))] }

/-- The machine `instanceToMachine` returns for `fullInstance` without an
instance type. -/
def fullMachine : Machine :=
  { Name := gs "vm-6", ProviderID := gs "azure:///vm-6"
    Labels := some (((GoMap.ofList [(gs "kubernetes.io/os", gs "linux")]).set
      (gs "karpenter.sh/capacity-type") (gs "on-demand")).set
      (gs "karpenter.sh/provisioner-name") (gs "default"))
    Annotations := some ((GoMap.empty.set (gs "karpenter.sh/managed-by") (gs "cluster-1")).set
      (gs "karpenter.sh/linked") (gs "azure:///vm-6")) }

end CloudProvider

namespace OfferingSelection

open AKSBootstrap

/-! ## The offering selector

The selector is not among the sources: only its test, instance_test.go, is.
The definitions of this section follow the specification (its data model and
the contract of the Offering Selector). Prices are exact rational numbers,
which every finite `float64` is. -/

/-- Modelled from the spec: the capacity type of an offering,
`enum{Spot, Regular}`. -/
inductive CapacityType where
  | Spot
  | Regular
  deriving DecidableEq, Repr

/-- Modelled from the spec: an offering, the tuple
`{price, zone, capacityType, available}`. -/
structure Offering where
  price : ℚ
  zone : GoString
  capacityType : CapacityType
  available : Bool
  deriving DecidableEq

/-- Modelled from the spec: an SKU (instance type),
`{name, capacity, allocatable, offerings}`, the offerings in their order. A
resource quantity is held as a number of base units. -/
structure SKU where
  name : GoString
  capacity : List (GoString × Int) := []
  allocatable : List (GoString × Int) := []
  offerings : List Offering
  deriving DecidableEq

/-- Modelled from the spec: the optional constraints of a selection, "required
zone, required capacity-type, minimum resource thresholds". -/
structure Constraints where
  zone : Option GoString := none
  capacityType : Option CapacityType := none
  minResources : List (GoString × Int) := []

/-- Modelled from the spec: the quantity of a resource in a resource list, zero
when the resource is not listed. -/
def quantityOf (resources : List (GoString × Int)) (name : GoString) : Int :=
  match resources.lookup name with
  | some q => q
  | none => 0

/-- Modelled from the spec: an offering of an SKU is eligible when it is
available and satisfies the constraints, the thresholds being compared with
the capacity of the SKU. -/
def eligible (c : Constraints) (s : SKU) (o : Offering) : Bool :=
  o.available &&
    (match c.zone with
      | none => true
      | some z => o.zone == z) &&
    (match c.capacityType with
      | none => true
      | some t => o.capacityType == t) &&
    c.minResources.all (fun r => decide (r.2 ≤ quantityOf s.capacity r.1))

/-- Modelled from the spec: the eligible (SKU, offering) pairs of a catalog, in
catalog order and, within an SKU, in the order of its offering list. -/
def candidates (c : Constraints) (catalog : List SKU) : List (SKU × Offering) :=
  catalog.flatMap (fun s => (s.offerings.filter (eligible c s)).map (fun o => (s, o)))

/-- Modelled from the spec: the pair "with the lowest price; on tie, prefer the
first": a later pair replaces an earlier one only when it is strictly
cheaper. -/
def cheapestFirst : List (SKU × Offering) → Option (SKU × Offering)
  | [] => none
  | x :: rest =>
    match cheapestFirst rest with
    | none => some x
    | some best => if best.2.price < x.2.price then some best else some x

/-- Modelled from the spec: the Offering Selector. `none` is the "none
available" outcome (`NoOfferingAvailable`). -/
def selectOffering (c : Constraints) (catalog : List SKU) : Option (SKU × Offering) :=
  cheapestFirst (candidates c catalog)

/-- The catalog of the case "Selects First, Cheapest SKU" of
`TestGetPriorityCapacityAndInstanceType`. -/
def testCatalog : List SKU :=
  [{ name := gs "Standard_D2s_v3"
     offerings := [{ price := 0.1, zone := gs "westus-2", capacityType := .Regular,
                     available := true }] },
   { name := gs "Standard_NV16as_v4"
     offerings := [{ price := 0.1, zone := gs "westus-2", capacityType := .Regular,
                     available := true }] }]

/-- A catalog whose only offering is unavailable. -/
def unavailableCatalog : List SKU :=
  [{ name := gs "Standard_D2s_v3"
     offerings := [{ price := 0.1, zone := gs "westus-2", capacityType := .Regular,
                     available := false }] }]

end OfferingSelection

-- ═══ theorems ═══

namespace AKSBootstrap

/-! ## Facts about the library models -/

theorem gs_paren_open : gs "(" = [40] := by decide
theorem gs_paren_close : gs ")" = [41] := by decide
theorem gs_hyphen : gs "-" = [45] := by decide
theorem gs_underscore : gs "_" = [95] := by decide
theorem gs_dot : gs "." = [46] := by decide
theorem gs_z : gs "z" = [122] := by decide

/-- Replacing a one-byte pattern by one byte rewrites the text bytewise. -/
theorem stringsReplaceAll_byte (s : GoString) (c d : UInt8) :
    stringsReplaceAll s [c] [d] = s.map (fun b => if b = c then d else b) := by
  have h : ∀ t : GoString, replaceAllFrom [c] [d] 0 t = t.map (fun b => if b = c then d else b) := by
    intro t
    induction t with
    | nil => rfl
    | cons b rest ih =>
      by_cases hb : b = c
      · subst hb
        simp [replaceAllFrom, List.isPrefixOf, ih]
      · have hb2 : ¬ c = b := fun e => hb e.symm
        simp [replaceAllFrom, List.isPrefixOf, ih, hb, hb2]
  simp [stringsReplaceAll, h]

/-- A text has the one-byte suffix `c` exactly when `c` is its last byte. -/
theorem stringsHasSuffix_byte (s : GoString) (c : UInt8) :
    stringsHasSuffix s [c] = true ↔ s.getLast? = some c := by
  rcases List.eq_nil_or_concat s with h | ⟨l, b, h⟩
  · subst h; simp [stringsHasSuffix]
  · subst h
    simp [stringsHasSuffix, List.getLast?_concat]

/-! ## Name normalisation (C1, C2) -/

/-- The text `normalizeResourceGroupNameForLabel` works on after its two
replacements and the truncation. -/
theorem normalize_unfold (s : GoString) :
    normalizeResourceGroupNameForLabel s =
      (let t := (s.map (fun b => if b = 40 ∨ b = 41 then 45 else b)).take 63
       if t.getLast? = some 45 ∨ t.getLast? = some 95 ∨ t.getLast? = some 46 then
         (if t.length > 62 then t.take (t.length - 1) ++ [122] else t ++ [122])
       else t) := by
  have hmap : (List.map (fun b : UInt8 => if b = 41 then 45 else b)
      (List.map (fun b : UInt8 => if b = 40 then 45 else b) s))
      = s.map (fun b => if b = 40 ∨ b = 41 then 45 else b) := by
    rw [List.map_map]
    apply List.map_congr_left
    intro b _
    by_cases h1 : b = 40
    · subst h1; simp
    · by_cases h2 : b = 41
      · subst h2; simp
      · simp [h1, h2]
  have htake : ∀ t : GoString, (if t.length > 63 then t.take 63 else t) = t.take 63 := by
    intro t
    by_cases h : t.length > 63
    · simp [h]
    · simp only [h, if_false]
      exact (List.take_of_length_le (by omega)).symm
  unfold normalizeResourceGroupNameForLabel
  simp only [gs_paren_open, gs_paren_close, gs_hyphen, gs_underscore, gs_dot, gs_z,
    stringsReplaceAll_byte, hmap, List.drop_zero]
  simp only [htake]
  generalize (List.map (fun b : UInt8 => if b = 40 ∨ b = 41 then 45 else b) s).take 63 = t
  have e1 := stringsHasSuffix_byte t 45
  have e2 := stringsHasSuffix_byte t 95
  have e3 := stringsHasSuffix_byte t 46
  by_cases c1 : t.getLast? = some 45
  · simp [c1, e1.mpr c1]
  · by_cases c2 : t.getLast? = some 95
    · simp [c2, e2.mpr c2]
    · by_cases c3 : t.getLast? = some 46
      · simp [c3, e3.mpr c3]
      · have f1 : stringsHasSuffix t [45] = false := by
          cases h : stringsHasSuffix t [45] with
          | false => rfl
          | true => exact absurd (e1.mp h) c1
        have f2 : stringsHasSuffix t [95] = false := by
          cases h : stringsHasSuffix t [95] with
          | false => rfl
          | true => exact absurd (e2.mp h) c2
        have f3 : stringsHasSuffix t [46] = false := by
          cases h : stringsHasSuffix t [46] with
          | false => rfl
          | true => exact absurd (e3.mp h) c3
        simp [c1, c2, c3, f1, f2, f3]

/-- A text that ends in `z` has none of the one-byte suffixes `-`, `_`, `.`. -/
theorem no_bad_suffix_of_last (r : GoString)
    (h : r.getLast? ≠ some 45 ∧ r.getLast? ≠ some 95 ∧ r.getLast? ≠ some 46) :
    stringsHasSuffix r (gs "-") = false ∧ stringsHasSuffix r (gs "_") = false ∧
      stringsHasSuffix r (gs ".") = false := by
  rw [gs_hyphen, gs_underscore, gs_dot]
  refine ⟨?_, ?_, ?_⟩
  · cases e : stringsHasSuffix r [45] with
    | false => rfl
    | true => exact absurd ((stringsHasSuffix_byte r 45).mp e) h.1
  · cases e : stringsHasSuffix r [95] with
    | false => rfl
    | true => exact absurd ((stringsHasSuffix_byte r 95).mp e) h.2.1
  · cases e : stringsHasSuffix r [46] with
    | false => rfl
    | true => exact absurd ((stringsHasSuffix_byte r 46).mp e) h.2.2

/-- C1: for every input string the normalised name is at most 63 bytes long and
does not end in `-`, `_` or `.`. -/
theorem normalize_length_le_and_ending (s : GoString) :
    (normalizeResourceGroupNameForLabel s).length ≤ 63 ∧
      stringsHasSuffix (normalizeResourceGroupNameForLabel s) (gs "-") = false ∧
      stringsHasSuffix (normalizeResourceGroupNameForLabel s) (gs "_") = false ∧
      stringsHasSuffix (normalizeResourceGroupNameForLabel s) (gs ".") = false := by
  rw [normalize_unfold]
  have hlen : ((s.map (fun b => if b = 40 ∨ b = 41 then 45 else b)).take 63).length ≤ 63 := by
    simp
  generalize (List.map (fun b : UInt8 => if b = 40 ∨ b = 41 then 45 else b) s).take 63 = t at hlen
  dsimp only
  by_cases c : t.getLast? = some 45 ∨ t.getLast? = some 95 ∨ t.getLast? = some 46
  · rw [if_pos c]
    by_cases hl : t.length > 62
    · rw [if_pos hl]
      refine ⟨by simp; omega, no_bad_suffix_of_last _ ?_⟩
      simp [List.getLast?_concat]
    · rw [if_neg hl]
      refine ⟨by simp; omega, no_bad_suffix_of_last _ ?_⟩
      simp [List.getLast?_concat]
  · rw [if_neg c]
    refine ⟨hlen, no_bad_suffix_of_last _ ?_⟩
    exact ⟨fun h => c (Or.inl h), fun h => c (Or.inr (Or.inl h)), fun h => c (Or.inr (Or.inr h))⟩

/-- C2: `normalizeResourceGroupNameForLabel` agrees on every input with the
rule as the specification words it (`normalizeReference`), a character being a
byte of the Go string. -/
theorem normalize_eq_reference (s : GoString) :
    normalizeResourceGroupNameForLabel s = normalizeReference s := by
  rw [normalize_unfold]
  unfold normalizeReference
  dsimp only
  have hlen : ((s.map (fun b => if b = 40 ∨ b = 41 then 45 else b)).take 63).length ≤ 63 := by
    simp
  generalize (List.map (fun b : UInt8 => if b = 40 ∨ b = 41 then 45 else b) s).take 63 = t at hlen
  cases hlast : t.getLast? with
  | none => simp
  | some c =>
    have hdrop : t.take (t.length - 1) = t.dropLast := (List.dropLast_eq_take t).symm
    by_cases hc : c = 45 ∨ c = 95 ∨ c = 46
    · have hc2 : (some c = some (45 : UInt8) ∨ some c = some (95 : UInt8) ∨ some c = some (46 : UInt8)) := by
        rcases hc with h | h | h <;> simp [h]
      rw [if_pos hc2]
      simp only [hc, if_true]
      by_cases hl : t.length > 62
      · have : t.length = 63 := by omega
        rw [if_pos hl, if_pos this, hdrop]
      · have : ¬ t.length = 63 := by omega
        rw [if_neg hl, if_neg this]
    · have hc2 : ¬ (some c = some (45 : UInt8) ∨ some c = some (95 : UInt8) ∨ some c = some (46 : UInt8)) := by
        intro h
        apply hc
        rcases h with h | h | h
        · exact Or.inl (Option.some.inj h)
        · exact Or.inr (Or.inl (Option.some.inj h))
        · exact Or.inr (Or.inr (Option.some.inj h))
      rw [if_neg hc2]
      simp only [hc, if_false]

/-! ## Maps -/

theorem entriesGet_entriesSet (k v k' : GoString) (l : List (GoString × GoString)) :
    entriesGet k' (entriesSet k v l) = if k' = k then some v else entriesGet k' l := by
  induction l with
  | nil =>
    by_cases h : k' = k
    · simp [entriesSet, entriesGet, h]
    · have h2 : ¬ k = k' := fun e => h e.symm
      simp [entriesSet, entriesGet, h, h2]
  | cons e rest ih =>
    by_cases he : e.1 = k
    · by_cases h : k' = k
      · simp [entriesSet, entriesGet, he, h]
      · have h2 : ¬ k = k' := fun e => h e.symm
        simp [entriesSet, entriesGet, he, h, h2]
    · by_cases h : e.1 = k'
      · have h3 : ¬ k' = k := fun e2 => he (h.trans e2)
        simp [entriesSet, entriesGet, he, h, h3]
      · simp [entriesSet, entriesGet, he, h, ih]

theorem GoMap.get_set (m : GoMap) (k v k' : GoString) :
    (m.set k v).get k' = if k' = k then some v else m.get k' :=
  entriesGet_entriesSet k v k' m.entries

theorem entriesGet_none_of_not_mem (k : GoString) (l : List (GoString × GoString))
    (h : k ∉ l.map Prod.fst) : entriesGet k l = none := by
  induction l with
  | nil => rfl
  | cons e rest ih =>
    simp only [List.map_cons, List.mem_cons, not_or] at h
    have h1 : ¬ e.1 = k := fun e2 => h.1 e2.symm
    simp [entriesGet, h1, ih h.2]

/-- Writing the entries of a key-unique list into a map one after the other:
the list decides the keys it has, the map underneath the others. -/
theorem get_foldl_set (l : List (GoString × GoString)) (hl : (l.map Prod.fst).Nodup)
    (out : GoMap) (k : GoString) :
    (l.foldl (fun o e => o.set e.1 e.2) out).get k =
      match entriesGet k l with
      | some v => some v
      | none => out.get k := by
  induction l generalizing out with
  | nil => rfl
  | cons e rest ih =>
    rw [List.map_cons, List.nodup_cons] at hl
    rw [List.foldl_cons, ih hl.2]
    by_cases h : e.1 = k
    · have hnone : entriesGet k rest = none :=
        entriesGet_none_of_not_mem k rest (h ▸ hl.1)
      simp [entriesGet, h, hnone, GoMap.get_set]
    · have h2 : ¬ k = e.1 := fun e2 => h e2.symm
      simp [entriesGet, h, h2, GoMap.get_set]

/-- `lo.Assign` of two maps: the second map wins on the keys it has. -/
theorem get_loAssign_pair (m₁ m₂ : GoMap) (k : GoString) :
    (loAssign [m₁, m₂]).get k =
      match m₂.get k with
      | some v => some v
      | none => m₁.get k := by
  simp only [loAssign, List.foldl_cons, List.foldl_nil]
  rw [get_foldl_set m₂.entries m₂.nodupKeys, get_foldl_set m₁.entries m₁.nodupKeys]
  cases h₂ : entriesGet k m₂.entries with
  | some v => simp [GoMap.get, h₂]
  | none =>
    cases h₁ : entriesGet k m₁.entries with
    | some v => simp [GoMap.get, h₂, h₁]
    | none => simp [GoMap.get, h₂, h₁, GoMap.empty, entriesGet]

/-! ## Node labels (C3) -/

/-- C3, as stated, fails: the caller supplies `agentpool=mypool`, and the merged
label set maps `agentpool` to the generated value `nodepool1`. -/
theorem kubeletLabels_generated_overrides_caller :
    agentpoolLabelAKS.Labels.get (gs "agentpool") = some (gs "mypool") ∧
      agentpoolLabelAKS.kubeletLabels.get (gs "agentpool") = some (gs "nodepool1") := by
  decide

/-- C3, amended: for every key the caller supplies, the merged label set holds
the generated value when the key is one of the four generated keys, and the
caller's value otherwise; in particular the caller wins over the baseline. -/
theorem kubeletLabels_get_of_caller (a : AKS) (k v : GoString)
    (h : a.Labels.get k = some v) :
    a.kubeletLabels.get k =
      if k = gs "kubernetes.azure.com/cluster" then
        some (normalizeResourceGroupNameForLabel a.ResourceGroup)
      else if k = gs "kubernetes.azure.com/agentpool" then some (gs "nodepool1")
      else if k = gs "agentpool" then some (gs "nodepool1")
      else if k = gs "kubernetes.azure.com/role" then some (gs "agent")
      else some v := by
  simp only [AKS.kubeletLabels, getAgentbakerGeneratedLabels, GoMap.get_set,
    get_loAssign_pair, h, karpenterAgentPoolName]

/-- Witness for C3: the caller's `kubernetes.azure.com/mode=user` replaces the
baseline's `system`. -/
theorem kubeletLabels_get_of_caller_witness :
    kubeletNodeLabelsBase.get (gs "kubernetes.azure.com/mode") = some (gs "system") ∧
      modeLabelAKS.kubeletLabels.get (gs "kubernetes.azure.com/mode") = some (gs "user") :=
  ⟨by decide,
   (kubeletLabels_get_of_caller modeLabelAKS (gs "kubernetes.azure.com/mode") (gs "user")
      (by decide)).trans (by decide)⟩

/-! ## The version-to-URL table (C4, C5) -/

/-- C4, at the failing inputs: for the empty version text and for a text that is
not a version, `semver.NewVersion` returns a nil pointer, and `kubeBinaryURL`
panics on it instead of returning the generic URL. -/
theorem kubeBinaryURL_panics_on_unparseable :
    semverNewVersion (gs "") = none ∧
      kubeBinaryURL (gs "") = .error GoPanic.nilPointerDereference ∧
      kubeBinaryURL (gs "latest") = .error GoPanic.nilPointerDereference ∧
      kubeBinaryURL (gs "1.27.x") = .error GoPanic.nilPointerDereference :=
  ⟨by decide, rfl, rfl, rfl⟩

/-- The URL `kubeBinaryURL` builds for a version that parsed. -/
theorem kubeBinaryURL_of_parsed (s : GoString) (v : Version)
    (h : semverNewVersion s = some v) :
    kubeBinaryURL s = .ok (gs "https://acs-mirror.azureedge.net/kubernetes/v" ++
      (if v.minor = 24 then gs "1.24.10-hotfix.20230509"
       else if v.minor = 25 then gs "1.25.6-hotfix.20230509"
       else if v.minor = 26 then gs "1.26.3-hotfix.20230509"
       else gs "1.27.1") ++ gs "/binaries/kubernetes-node-linux-amd64.tar.gz") := by
  simp only [kubeBinaryURL, h]

/-- C5: for every text that `semver.NewVersion` accepts, `kubeBinaryURL`
returns the pinned URL of minor version 24, 25 or 26 and the 1.27.1 URL for
every other minor version; two accepted texts with the same minor version get
the same URL. -/
theorem kubeBinaryURL_table (s : GoString) (v : Version) (h : semverNewVersion s = some v) :
    (v.minor = 24 → kubeBinaryURL s = .ok (gs
      "https://acs-mirror.azureedge.net/kubernetes/v1.24.10-hotfix.20230509/binaries/kubernetes-node-linux-amd64.tar.gz")) ∧
    (v.minor = 25 → kubeBinaryURL s = .ok (gs
      "https://acs-mirror.azureedge.net/kubernetes/v1.25.6-hotfix.20230509/binaries/kubernetes-node-linux-amd64.tar.gz")) ∧
    (v.minor = 26 → kubeBinaryURL s = .ok (gs
      "https://acs-mirror.azureedge.net/kubernetes/v1.26.3-hotfix.20230509/binaries/kubernetes-node-linux-amd64.tar.gz")) ∧
    (v.minor ≠ 24 → v.minor ≠ 25 → v.minor ≠ 26 → kubeBinaryURL s = .ok (gs
      "https://acs-mirror.azureedge.net/kubernetes/v1.27.1/binaries/kubernetes-node-linux-amd64.tar.gz")) ∧
    (∀ (s' : GoString) (v' : Version), semverNewVersion s' = some v' → v'.minor = v.minor →
      kubeBinaryURL s' = kubeBinaryURL s) := by
  refine ⟨?_, ?_, ?_, ?_, ?_⟩
  · intro hm
    rw [kubeBinaryURL_of_parsed s v h, if_pos hm]
    exact congrArg Except.ok (by decide)
  · intro hm
    have h24 : ¬ v.minor = 24 := by rw [hm]; decide
    rw [kubeBinaryURL_of_parsed s v h, if_neg h24, if_pos hm]
    exact congrArg Except.ok (by decide)
  · intro hm
    have h24 : ¬ v.minor = 24 := by rw [hm]; decide
    have h25 : ¬ v.minor = 25 := by rw [hm]; decide
    rw [kubeBinaryURL_of_parsed s v h, if_neg h24, if_neg h25, if_pos hm]
    exact congrArg Except.ok (by decide)
  · intro h24 h25 h26
    rw [kubeBinaryURL_of_parsed s v h, if_neg h24, if_neg h25, if_neg h26]
    exact congrArg Except.ok (by decide)
  · intro s' v' h' hm
    rw [kubeBinaryURL_of_parsed s v h, kubeBinaryURL_of_parsed s' v' h', hm]

/-- Witness for C5: `1.24.3` parses with minor version 24 and gets the pinned
1.24.10 URL, and so does `v2.24` (another major, no patch). -/
theorem kubeBinaryURL_table_witness :
    semverNewVersion (gs "1.24.3") =
        some { major := 1, minor := 24, patch := 3, pre := [], metadata := [],
               original := gs "1.24.3" } ∧
      kubeBinaryURL (gs "1.24.3") = .ok (gs
        "https://acs-mirror.azureedge.net/kubernetes/v1.24.10-hotfix.20230509/binaries/kubernetes-node-linux-amd64.tar.gz") ∧
      kubeBinaryURL (gs "v2.24-rc.1") = kubeBinaryURL (gs "1.24.3") :=
  ⟨by decide,
   (kubeBinaryURL_table (gs "1.24.3")
      { major := 1, minor := 24, patch := 3, pre := [], metadata := [], original := gs "1.24.3" }
      (by decide)).1 (by decide),
   (kubeBinaryURL_table (gs "1.24.3")
      { major := 1, minor := 24, patch := 3, pre := [], metadata := [], original := gs "1.24.3" }
      (by decide)).2.2.2.2 (gs "v2.24-rc.1")
      { major := 2, minor := 24, patch := 0, pre := gs "rc.1", metadata := [],
        original := gs "v2.24-rc.1" } (by decide) (by decide)⟩

/-! ## The synthesised record (C6, C7, C8) -/

/-- With a nil CA bundle pointer `applyOptions` panics at its first statement
and leaves the record as it was. -/
theorem applyOptions_nil_caBundle (a : AKS) (lo fo : IterOrder) (nbv : NodeBootstrapVariables)
    (hca : a.CABundle = none) :
    a.applyOptions lo fo nbv = { nbv := nbv, panic := some GoPanic.nilPointerDereference } := by
  simp only [AKS.applyOptions, hca]

/-- With a CA bundle and a version that parses `applyOptions` returns, and the
record it leaves is the one its assignments build. -/
theorem applyOptions_returns (a : AKS) (lo fo : IterOrder) (nbv : NodeBootstrapVariables)
    (ca : GoString) (v : Version) (hca : a.CABundle = some ca)
    (hv : semverNewVersion a.KubernetesVersion = some v) :
    ∃ url, kubeBinaryURL a.KubernetesVersion = .ok url ∧
      a.applyOptions lo fo nbv =
        { nbv := { nbv with
            KubeCACrt := ca
            APIServerName := a.APIServerName
            TLSBootstrapToken := a.KubeletClientTLSBootstrapToken
            TenantID := a.TenantID
            SubscriptionID := a.SubscriptionID
            Location := a.Location
            ResourceGroup := a.ResourceGroup
            UserAssignedIdentityID := a.UserAssignedIdentityID
            NetworkPlugin := a.NetworkPlugin
            NetworkPolicy := a.NetworkPolicy
            KubernetesVersion := a.KubernetesVersion
            KubeBinaryURL := url
            EnsureNoDupePromiscuousBridge :=
              nbv.NeedsContainerd && a.NetworkPlugin == gs "kubenet" &&
                a.NetworkPolicy != gs "calico"
            NetworkSecurityGroup := gs "aks-agentpool-" ++ a.ClusterID ++ gs "-nsg"
            VirtualNetwork := gs "aks-vnet-" ++ a.ClusterID
            RouteTable := gs "aks-agentpool-" ++ a.ClusterID ++ gs "-routetable"
            KubeletNodeLabels :=
              stringsJoin (loMapToSlice lo a.kubeletLabels keyEqualsValue) (gs ",")
            KubeletFlags :=
              stringsJoin (loMapToSlice fo a.kubeletFlags keyEqualsValue) (gs " ") },
          panic := none } := by
  refine ⟨_, kubeBinaryURL_of_parsed _ _ hv, ?_⟩
  simp only [AKS.applyOptions, hca, kubeBinaryURL_of_parsed _ _ hv]

/-- What `AKS.Script` comes to once `applyOptions` has returned: the outcome of
executing the template on the record, encoded or wrapped. -/
theorem script_of_returned (a : AKS) (files : EmbeddedFiles) (lo fo : IterOrder)
    (h : (a.applyOptions lo fo (staticNodeBootstrapVars files)).panic = none) :
    a.Script files lo fo =
      match files.customDataTemplate (a.applyOptions lo fo (staticNodeBootstrapVars files)).nbv with
      | .ok text => .ok (base64StdEncodeToString text)
      | .error e => .err (gs "error getting AKS bootstrap script: " ++
          (gs "error getting custom data from node bootstrap variables: " ++
            (gs "error executing custom data template: " ++ e))) := by
  simp only [AKS.Script, AKS.aksBootstrapScript, h, getCustomDataFromNodeBootstrapVars]
  cases files.customDataTemplate (a.applyOptions lo fo (staticNodeBootstrapVars files)).nbv <;> rfl

/-- C6, as stated, fails: with the CA bundle, API-server name, bootstrap token,
tenant, subscription, location, resource group and cluster ID all empty,
`applyOptions` returns, and `AKS.Script` returns a payload, not an error. -/
theorem script_accepts_empty_required_inputs :
    emptyIdentityAKS.CABundle = some [] ∧ emptyIdentityAKS.APIServerName = [] ∧
      emptyIdentityAKS.KubeletClientTLSBootstrapToken = [] ∧ emptyIdentityAKS.TenantID = [] ∧
      emptyIdentityAKS.SubscriptionID = [] ∧ emptyIdentityAKS.Location = [] ∧
      emptyIdentityAKS.ResourceGroup = [] ∧ emptyIdentityAKS.ClusterID = [] ∧
      (emptyIdentityAKS.applyOptions listedOrder listedOrder
        (staticNodeBootstrapVars sampleFiles)).panic = none ∧
      emptyIdentityAKS.Script sampleFiles listedOrder listedOrder =
        .ok (base64StdEncodeToString (gs "TENANT_ID=")) :=
  ⟨rfl, rfl, rfl, rfl, rfl, rfl, rfl, rfl, rfl, rfl⟩

/-- C6, amended: synthesis does not validate its inputs. Whenever the CA bundle
pointer is not nil and the Kubernetes version parses, `applyOptions` returns a
record that carries the CA bundle, API-server name, bootstrap token, tenant,
subscription, location and resource group as given and the three names derived
from the cluster ID, empty or not; `AKS.Script` then returns the encoded script,
or the wrapped error of the template execution when that fails. -/
theorem script_without_validation (a : AKS) (files : EmbeddedFiles) (lo fo : IterOrder)
    (ca : GoString) (v : Version) (hca : a.CABundle = some ca)
    (hv : semverNewVersion a.KubernetesVersion = some v) :
    (a.applyOptions lo fo (staticNodeBootstrapVars files)).panic = none ∧
    (a.applyOptions lo fo (staticNodeBootstrapVars files)).nbv.KubeCACrt = ca ∧
    (a.applyOptions lo fo (staticNodeBootstrapVars files)).nbv.APIServerName = a.APIServerName ∧
    (a.applyOptions lo fo (staticNodeBootstrapVars files)).nbv.TLSBootstrapToken =
      a.KubeletClientTLSBootstrapToken ∧
    (a.applyOptions lo fo (staticNodeBootstrapVars files)).nbv.TenantID = a.TenantID ∧
    (a.applyOptions lo fo (staticNodeBootstrapVars files)).nbv.SubscriptionID = a.SubscriptionID ∧
    (a.applyOptions lo fo (staticNodeBootstrapVars files)).nbv.Location = a.Location ∧
    (a.applyOptions lo fo (staticNodeBootstrapVars files)).nbv.ResourceGroup = a.ResourceGroup ∧
    (a.applyOptions lo fo (staticNodeBootstrapVars files)).nbv.NetworkSecurityGroup =
      gs "aks-agentpool-" ++ a.ClusterID ++ gs "-nsg" ∧
    (a.applyOptions lo fo (staticNodeBootstrapVars files)).nbv.VirtualNetwork =
      gs "aks-vnet-" ++ a.ClusterID ∧
    (a.applyOptions lo fo (staticNodeBootstrapVars files)).nbv.RouteTable =
      gs "aks-agentpool-" ++ a.ClusterID ++ gs "-routetable" ∧
    a.Script files lo fo =
      match files.customDataTemplate (a.applyOptions lo fo (staticNodeBootstrapVars files)).nbv with
      | .ok text => .ok (base64StdEncodeToString text)
      | .error e => .err (gs "error getting AKS bootstrap script: " ++
          (gs "error getting custom data from node bootstrap variables: " ++
            (gs "error executing custom data template: " ++ e))) := by
  obtain ⟨url, _, hrun⟩ := applyOptions_returns a lo fo (staticNodeBootstrapVars files) ca v hca hv
  have hp : (a.applyOptions lo fo (staticNodeBootstrapVars files)).panic = none := by rw [hrun]
  refine ⟨hp, ?_, ?_, ?_, ?_, ?_, ?_, ?_, ?_, ?_, ?_, script_of_returned a files lo fo hp⟩ <;>
    rw [hrun]

/-- Witness for C6: for the input with a tenant, no subscription and no
location, synthesis returns and the script is produced. -/
theorem script_without_validation_witness :
    kubenetAKS.CABundle = some (gs "ca") ∧
      semverNewVersion kubenetAKS.KubernetesVersion =
        some { major := 1, minor := 25, patch := 0, pre := [], metadata := [],
               original := gs "1.25.0" } ∧
      kubenetAKS.SubscriptionID = [] ∧
      kubenetAKS.Script sampleFiles listedOrder reversedOrder =
        .ok (base64StdEncodeToString (gs "TENANT_ID=tenant")) :=
  ⟨rfl, by decide, rfl,
   (script_without_validation kubenetAKS sampleFiles listedOrder reversedOrder (gs "ca")
      { major := 1, minor := 25, patch := 0, pre := [], metadata := [], original := gs "1.25.0" }
      rfl (by decide)).2.2.2.2.2.2.2.2.2.2.2.trans rfl⟩

/-- C7: on every input for which synthesis completes (CA bundle not nil,
version parsed) the record's `EnsureNoDupePromiscuousBridge` is true exactly
when its `NeedsContainerd` is true, its `NetworkPlugin` is `kubenet` and its
`NetworkPolicy` is not `calico`; started from the static baseline, exactly when
the input's plugin is `kubenet` and its policy is not `calico`. -/
theorem ensureNoDupePromiscuousBridge_iff (a : AKS) (files : EmbeddedFiles) (lo fo : IterOrder)
    (nbv : NodeBootstrapVariables) (ca : GoString) (v : Version)
    (hca : a.CABundle = some ca) (hv : semverNewVersion a.KubernetesVersion = some v) :
    (a.applyOptions lo fo nbv).panic = none ∧
    ((a.applyOptions lo fo nbv).nbv.EnsureNoDupePromiscuousBridge = true ↔
      (a.applyOptions lo fo nbv).nbv.NeedsContainerd = true ∧
      (a.applyOptions lo fo nbv).nbv.NetworkPlugin = gs "kubenet" ∧
      (a.applyOptions lo fo nbv).nbv.NetworkPolicy ≠ gs "calico") ∧
    (staticNodeBootstrapVars files).NeedsContainerd = true ∧
    ((a.applyOptions lo fo (staticNodeBootstrapVars files)).nbv.EnsureNoDupePromiscuousBridge
        = true ↔
      a.NetworkPlugin = gs "kubenet" ∧ a.NetworkPolicy ≠ gs "calico") := by
  obtain ⟨url, _, hrun⟩ := applyOptions_returns a lo fo nbv ca v hca hv
  obtain ⟨url', _, hrun'⟩ :=
    applyOptions_returns a lo fo (staticNodeBootstrapVars files) ca v hca hv
  refine ⟨by rw [hrun], ?_, rfl, ?_⟩
  · rw [hrun]
    simp only [Bool.and_eq_true, beq_iff_eq, bne_iff_ne, ne_eq, and_assoc]
  · rw [hrun']
    have hs : (staticNodeBootstrapVars files).NeedsContainerd = true := rfl
    simp only [hs, Bool.true_and, Bool.and_eq_true, beq_iff_eq, bne_iff_ne, ne_eq]

/-- Witness for C7: kubenet without a network policy sets the flag. -/
theorem ensureNoDupePromiscuousBridge_iff_witness :
    kubenetAKS.CABundle = some (gs "ca") ∧
      (kubenetAKS.applyOptions listedOrder listedOrder
        (staticNodeBootstrapVars sampleFiles)).nbv.EnsureNoDupePromiscuousBridge = true :=
  ⟨rfl,
   (ensureNoDupePromiscuousBridge_iff kubenetAKS sampleFiles listedOrder listedOrder
      (staticNodeBootstrapVars sampleFiles) (gs "ca")
      { major := 1, minor := 25, patch := 0, pre := [], metadata := [], original := gs "1.25.0" }
      rfl (by decide)).2.2.2.mpr ⟨by decide, by decide⟩⟩

/-- C8: for every input with a CA bundle and every starting record, the record
`applyOptions` leaves holds the input's tenant, subscription, location, resource
group, identity, API-server name, bootstrap token, network plugin and policy,
Kubernetes version and CA bundle, whatever the record held before. The eleven
assignments come before the call of `kubeBinaryURL`, so this is so also when
that call panics; when the version parses, `applyOptions` returns. -/
theorem applyOptions_overrides (a : AKS) (lo fo : IterOrder) (nbv : NodeBootstrapVariables)
    (ca : GoString) (hca : a.CABundle = some ca) :
    (a.applyOptions lo fo nbv).nbv.TenantID = a.TenantID ∧
    (a.applyOptions lo fo nbv).nbv.SubscriptionID = a.SubscriptionID ∧
    (a.applyOptions lo fo nbv).nbv.Location = a.Location ∧
    (a.applyOptions lo fo nbv).nbv.ResourceGroup = a.ResourceGroup ∧
    (a.applyOptions lo fo nbv).nbv.UserAssignedIdentityID = a.UserAssignedIdentityID ∧
    (a.applyOptions lo fo nbv).nbv.APIServerName = a.APIServerName ∧
    (a.applyOptions lo fo nbv).nbv.TLSBootstrapToken = a.KubeletClientTLSBootstrapToken ∧
    (a.applyOptions lo fo nbv).nbv.NetworkPlugin = a.NetworkPlugin ∧
    (a.applyOptions lo fo nbv).nbv.NetworkPolicy = a.NetworkPolicy ∧
    (a.applyOptions lo fo nbv).nbv.KubernetesVersion = a.KubernetesVersion ∧
    (a.applyOptions lo fo nbv).nbv.KubeCACrt = ca ∧
    (∀ v, semverNewVersion a.KubernetesVersion = some v →
      (a.applyOptions lo fo nbv).panic = none) := by
  have hlast : ∀ v, semverNewVersion a.KubernetesVersion = some v →
      (a.applyOptions lo fo nbv).panic = none := by
    intro v hv
    obtain ⟨url, _, hrun⟩ := applyOptions_returns a lo fo nbv ca v hca hv
    rw [hrun]
  refine ⟨?_, ?_, ?_, ?_, ?_, ?_, ?_, ?_, ?_, ?_, ?_, hlast⟩
  all_goals
    simp only [AKS.applyOptions, hca]
    cases kubeBinaryURL a.KubernetesVersion <;> rfl

/-- Witness for C8: the tenant of the input replaces the one the record held. -/
theorem applyOptions_overrides_witness :
    kubenetAKS.CABundle = some (gs "ca") ∧
      (kubenetAKS.applyOptions listedOrder listedOrder
        { staticNodeBootstrapVars sampleFiles with TenantID := gs "old" }).nbv.TenantID =
        gs "tenant" :=
  ⟨rfl,
   (applyOptions_overrides kubenetAKS listedOrder listedOrder
      { staticNodeBootstrapVars sampleFiles with TenantID := gs "old" } (gs "ca") rfl).1⟩

/-! ## Kubelet flags (C9) -/

/-- The copy `lo.Assign(kubeletFlagsBase)` has the entries of the base map. -/
theorem loAssign_kubeletFlagsBase :
    (loAssign [kubeletFlagsBase]).entries = kubeletFlagsBase.entries := by
  decide

/-- Assigning the taints flag over the copy adds one entry to it. -/
theorem loAssign_taints_flag (joined : GoString) :
    (loAssign [loAssign [kubeletFlagsBase],
        GoMap.ofList [(gs "--register-with-taints", joined)]]).entries =
      kubeletFlagsBase.entries ++ [(gs "--register-with-taints", joined)] :=
  rfl

/-- C9: `kubeletFlagsBase` has no `--register-with-taints` entry. With taints
declared, the flag set `applyOptions` turns into text is made of the entries of
`kubeletFlagsBase` and the one entry `--register-with-taints` whose value is the
taints' texts joined by `,` in the order they are declared; with none declared
it is `kubeletFlagsBase` and has no such entry. The text `KubeletFlags` joins
the `key=value` forms of that set by a blank, in the order of the iteration. -/
theorem kubeletFlags_with_taints (a : AKS) :
    kubeletFlagsBase.get (gs "--register-with-taints") = none ∧
    (a.Taints ≠ [] →
      a.kubeletFlags.entries.Perm (kubeletFlagsBase.entries ++
        [(gs "--register-with-taints",
          stringsJoin (a.Taints.map (fun taint => taint.ToString)) (gs ","))])) ∧
    (a.Taints = [] →
      a.kubeletFlags.entries.Perm kubeletFlagsBase.entries ∧
      a.kubeletFlags.get (gs "--register-with-taints") = none) ∧
    (∀ (lo fo : IterOrder) (nbv : NodeBootstrapVariables) (ca : GoString) (v : Version),
      a.CABundle = some ca → semverNewVersion a.KubernetesVersion = some v →
      (a.applyOptions lo fo nbv).nbv.KubeletFlags =
        stringsJoin ((fo.arrange a.kubeletFlags.entries).map
          (fun e => e.1 ++ gs "=" ++ e.2)) (gs " ")) := by
  have hbase : kubeletFlagsBase.get (gs "--register-with-taints") = none := by decide
  refine ⟨hbase, ?_, ?_, ?_⟩
  · intro ht
    have hlen : a.Taints.length > 0 := List.length_pos.mpr ht
    simp only [AKS.kubeletFlags, hlen, if_true]
    rw [loAssign_taints_flag]
  · intro ht
    have hflags : a.kubeletFlags = loAssign [kubeletFlagsBase] := by
      simp [AKS.kubeletFlags, ht]
    rw [hflags]
    refine ⟨by rw [loAssign_kubeletFlagsBase], ?_⟩
    unfold GoMap.get
    rw [loAssign_kubeletFlagsBase]
    exact hbase
  · intro lo fo nbv ca v hca hv
    obtain ⟨url, _, hrun⟩ := applyOptions_returns a lo fo nbv ca v hca hv
    rw [hrun]
    rfl

/-- Witness for C9: two declared taints give the one flag
`--register-with-taints=sku=gpu:NoSchedule,dedicated:NoExecute`. -/
theorem kubeletFlags_with_taints_witness :
    taintedAKS.kubeletFlags.get (gs "--register-with-taints") =
        some (gs "sku=gpu:NoSchedule,dedicated:NoExecute") ∧
      taintedAKS.kubeletFlags.entries.Perm (kubeletFlagsBase.entries ++
        [(gs "--register-with-taints", gs "sku=gpu:NoSchedule,dedicated:NoExecute")]) :=
  ⟨by decide,
   ((kubeletFlags_with_taints taintedAKS).2.1 (by decide)).trans
     (List.Perm.of_eq (by decide))⟩

/-! ## Determinism (C10) -/

/-- C10, as stated, fails: two calls of `applyOptions` on the static baseline
with the same input, whose loops over the label map run in different orders,
leave different texts in `KubeletNodeLabels`. -/
theorem applyOptions_depends_on_iteration_order :
    (kubenetAKS.applyOptions listedOrder listedOrder
        (staticNodeBootstrapVars sampleFiles)).nbv.KubeletNodeLabels =
      gs "kubernetes.azure.com/mode=system,kubernetes.azure.com/role=agent,agentpool=nodepool1,kubernetes.azure.com/agentpool=nodepool1,kubernetes.azure.com/cluster=rg" ∧
    (kubenetAKS.applyOptions reversedOrder listedOrder
        (staticNodeBootstrapVars sampleFiles)).nbv.KubeletNodeLabels =
      gs "kubernetes.azure.com/cluster=rg,kubernetes.azure.com/agentpool=nodepool1,agentpool=nodepool1,kubernetes.azure.com/role=agent,kubernetes.azure.com/mode=system" ∧
    (kubenetAKS.applyOptions listedOrder listedOrder
        (staticNodeBootstrapVars sampleFiles)).nbv.KubeletNodeLabels ≠
      (kubenetAKS.applyOptions reversedOrder listedOrder
        (staticNodeBootstrapVars sampleFiles)).nbv.KubeletNodeLabels := by
  refine ⟨by decide, by decide, by decide⟩

/-- C10, amended: the iteration order of the two maps is the only thing two
calls with the same input can differ by. They return or panic alike, and their
records agree on every field but `KubeletNodeLabels` and `KubeletFlags`; when
they return, these two texts join rearrangements of the same `key=value`
entries. When the two calls visit both maps in the same order, the records are
equal in every field and `AKS.Script` gives the same outcome. -/
theorem applyOptions_deterministic_up_to_order (a : AKS) (files : EmbeddedFiles)
    (lo₁ fo₁ lo₂ fo₂ : IterOrder) (nbv : NodeBootstrapVariables) :
    (a.applyOptions lo₁ fo₁ nbv).panic = (a.applyOptions lo₂ fo₂ nbv).panic ∧
    (a.applyOptions lo₁ fo₁ nbv).nbv =
      { (a.applyOptions lo₂ fo₂ nbv).nbv with
        KubeletNodeLabels := (a.applyOptions lo₁ fo₁ nbv).nbv.KubeletNodeLabels
        KubeletFlags := (a.applyOptions lo₁ fo₁ nbv).nbv.KubeletFlags } ∧
    ((a.applyOptions lo₁ fo₁ nbv).panic = none →
      (a.applyOptions lo₁ fo₁ nbv).nbv.KubeletNodeLabels =
        stringsJoin ((lo₁.arrange a.kubeletLabels.entries).map
          (fun e => keyEqualsValue e.1 e.2)) (gs ",") ∧
      (a.applyOptions lo₂ fo₂ nbv).nbv.KubeletNodeLabels =
        stringsJoin ((lo₂.arrange a.kubeletLabels.entries).map
          (fun e => keyEqualsValue e.1 e.2)) (gs ",") ∧
      (lo₁.arrange a.kubeletLabels.entries).Perm (lo₂.arrange a.kubeletLabels.entries) ∧
      (a.applyOptions lo₁ fo₁ nbv).nbv.KubeletFlags =
        stringsJoin ((fo₁.arrange a.kubeletFlags.entries).map
          (fun e => keyEqualsValue e.1 e.2)) (gs " ") ∧
      (a.applyOptions lo₂ fo₂ nbv).nbv.KubeletFlags =
        stringsJoin ((fo₂.arrange a.kubeletFlags.entries).map
          (fun e => keyEqualsValue e.1 e.2)) (gs " ") ∧
      (fo₁.arrange a.kubeletFlags.entries).Perm (fo₂.arrange a.kubeletFlags.entries)) ∧
    (lo₁.arrange a.kubeletLabels.entries = lo₂.arrange a.kubeletLabels.entries →
      fo₁.arrange a.kubeletFlags.entries = fo₂.arrange a.kubeletFlags.entries →
      (a.applyOptions lo₁ fo₁ nbv).nbv = (a.applyOptions lo₂ fo₂ nbv).nbv ∧
      a.Script files lo₁ fo₁ = a.Script files lo₂ fo₂) := by
  have hperm₁ : (lo₁.arrange a.kubeletLabels.entries).Perm (lo₂.arrange a.kubeletLabels.entries) :=
    (lo₁.isPerm _).trans (lo₂.isPerm _).symm
  have hperm₂ : (fo₁.arrange a.kubeletFlags.entries).Perm (fo₂.arrange a.kubeletFlags.entries) :=
    (fo₁.isPerm _).trans (fo₂.isPerm _).symm
  have hsame : lo₁.arrange a.kubeletLabels.entries = lo₂.arrange a.kubeletLabels.entries →
      fo₁.arrange a.kubeletFlags.entries = fo₂.arrange a.kubeletFlags.entries →
      ∀ start, a.applyOptions lo₁ fo₁ start = a.applyOptions lo₂ fo₂ start := by
    intro h₁ h₂ start
    simp only [AKS.applyOptions, loMapToSlice, h₁, h₂]
  have hscript : lo₁.arrange a.kubeletLabels.entries = lo₂.arrange a.kubeletLabels.entries →
      fo₁.arrange a.kubeletFlags.entries = fo₂.arrange a.kubeletFlags.entries →
      a.Script files lo₁ fo₁ = a.Script files lo₂ fo₂ := by
    intro h₁ h₂
    simp only [AKS.Script, AKS.aksBootstrapScript, hsame h₁ h₂]
  cases hca : a.CABundle with
  | none =>
    rw [applyOptions_nil_caBundle a lo₁ fo₁ nbv hca, applyOptions_nil_caBundle a lo₂ fo₂ nbv hca]
    refine ⟨rfl, rfl, fun h => ?_, fun h₁ h₂ => ⟨rfl, hscript h₁ h₂⟩⟩
    exact absurd h (by simp)
  | some ca =>
    cases hurl : kubeBinaryURL a.KubernetesVersion with
    | error p =>
      have e₁ : ∀ lo fo, a.applyOptions lo fo nbv =
          a.applyOptions lo₁ fo₁ nbv := by
        intro lo fo
        simp only [AKS.applyOptions, hca, hurl]
      have hp : (a.applyOptions lo₁ fo₁ nbv).panic = some p := by
        simp only [AKS.applyOptions, hca, hurl]
      rw [e₁ lo₂ fo₂]
      refine ⟨rfl, rfl, fun h => ?_, fun h₁ h₂ => ⟨rfl, hscript h₁ h₂⟩⟩
      rw [hp] at h
      exact absurd h (by simp)
    | ok url =>
      refine ⟨?_, ?_, fun _ => ⟨?_, ?_, hperm₁, ?_, ?_, hperm₂⟩,
        fun h₁ h₂ => ⟨by rw [hsame h₁ h₂ nbv], hscript h₁ h₂⟩⟩ <;>
        simp only [AKS.applyOptions, hca, hurl, loMapToSlice]

/-- Witness for C10: two calls whose iteration orders visit both maps alike
give the same record and the same payload. -/
theorem applyOptions_deterministic_up_to_order_witness :
    (kubenetAKS.applyOptions listedOrder listedOrder (staticNodeBootstrapVars sampleFiles)).nbv =
        (kubenetAKS.applyOptions twiceReversedOrder twiceReversedOrder
          (staticNodeBootstrapVars sampleFiles)).nbv ∧
      kubenetAKS.Script sampleFiles listedOrder listedOrder =
        kubenetAKS.Script sampleFiles twiceReversedOrder twiceReversedOrder :=
  (applyOptions_deterministic_up_to_order kubenetAKS sampleFiles listedOrder listedOrder
    twiceReversedOrder twiceReversedOrder (staticNodeBootstrapVars sampleFiles)).2.2.2
    (List.reverse_reverse _).symm (List.reverse_reverse _).symm

/-! ## Derived names and the payload encoding (C19, C20) -/

theorem base64Value_digit : ∀ n : Fin 64, base64Value (base64Digit n.val) = some n.val := by
  decide

theorem base64Digit_ne_pad : ∀ n : Fin 64, (base64Digit n.val == 61) = false := by
  decide

theorem base64Value_digit_lt (n : Nat) (h : n < 64) : base64Value (base64Digit n) = some n :=
  base64Value_digit ⟨n, h⟩

theorem base64Digit_ne_pad_lt (n : Nat) (h : n < 64) : (base64Digit n == 61) = false :=
  base64Digit_ne_pad ⟨n, h⟩

theorem uint8_ofNat_toNat (a : UInt8) : UInt8.ofNat a.toNat = a := by
  cases a with
  | mk v =>
    apply UInt8.ext
    simp [UInt8.ofNat, UInt8.toNat, Fin.ofNat]

/-- Decoding undoes encoding, for every byte string. -/
theorem base64_roundtrip (s : GoString) :
    base64StdDecodeString (base64StdEncodeToString s) = some s := by
  induction s using base64StdEncodeToString.induct with
  | case1 a b c rest ih =>
    have ha : a.toNat < 256 := a.val.isLt
    have hb : b.toNat < 256 := b.val.isLt
    have hc : c.toNat < 256 := c.val.isLt
    simp only [base64StdEncodeToString, List.cons_append, List.nil_append]
    generalize hn : a.toNat * 65536 + b.toNat * 256 + c.toNat = n
    have h1 : n / 262144 < 64 := by omega
    have h2 : n / 4096 % 64 < 64 := by omega
    have h3 : n / 64 % 64 < 64 := by omega
    have h4 : n % 64 < 64 := by omega
    have e : n / 262144 * 262144 + n / 4096 % 64 * 4096 + n / 64 % 64 * 64 + n % 64 = n := by omega
    have e1 : n / 65536 = a.toNat := by omega
    have e2 : n / 256 % 256 = b.toNat := by omega
    have e3 : n % 256 = c.toNat := by omega
    simp only [base64StdDecodeString,
      base64Value_digit_lt _ h1, base64Value_digit_lt _ h2, base64Value_digit_lt _ h3,
      base64Value_digit_lt _ h4, base64Digit_ne_pad_lt _ h3, base64Digit_ne_pad_lt _ h4, ih,
      Bool.and_false, Bool.false_eq_true, if_false, e, e1, e2, e3, uint8_ofNat_toNat]
  | case2 a b =>
    have ha : a.toNat < 256 := a.val.isLt
    have hb : b.toNat < 256 := b.val.isLt
    simp only [base64StdEncodeToString]
    generalize hn : a.toNat * 65536 + b.toNat * 256 = n
    have h1 : n / 262144 < 64 := by omega
    have h2 : n / 4096 % 64 < 64 := by omega
    have h3 : n / 64 % 64 < 64 := by omega
    have e : n / 262144 * 262144 + n / 4096 % 64 * 4096 + n / 64 % 64 * 64 = n := by omega
    have e1 : n / 65536 = a.toNat := by omega
    have e2 : n / 256 % 256 = b.toNat := by omega
    simp only [base64StdDecodeString,
      base64Value_digit_lt _ h1, base64Value_digit_lt _ h2, base64Value_digit_lt _ h3,
      base64Digit_ne_pad_lt _ h3, List.isEmpty_nil, beq_self_eq_true,
      Bool.and_false, Bool.and_true, Bool.false_eq_true, if_false, if_true, Bool.true_and,
      e, e1, e2, uint8_ofNat_toNat]
  | case3 a =>
    have ha : a.toNat < 256 := a.val.isLt
    simp only [base64StdEncodeToString]
    generalize hn : a.toNat * 65536 = n
    have h1 : n / 262144 < 64 := by omega
    have h2 : n / 4096 % 64 < 64 := by omega
    have e : n / 262144 * 262144 + n / 4096 % 64 * 4096 = n := by omega
    have e1 : n / 65536 = a.toNat := by omega
    simp only [base64StdDecodeString,
      base64Value_digit_lt _ h1, base64Value_digit_lt _ h2,
      List.isEmpty_nil, beq_self_eq_true, Bool.and_true, Bool.and_self, if_true,
      e, e1, uint8_ofNat_toNat]
  | case4 => rfl

/-- C19: on every input for which synthesis completes, whatever the cluster ID
and the starting record, the record has the network security group
`aks-agentpool-<clusterID>-nsg`, the virtual network `aks-vnet-<clusterID>` and
the route table `aks-agentpool-<clusterID>-routetable`. -/
theorem derived_network_names (a : AKS) (lo fo : IterOrder) (nbv : NodeBootstrapVariables)
    (ca : GoString) (v : Version) (hca : a.CABundle = some ca)
    (hv : semverNewVersion a.KubernetesVersion = some v) :
    (a.applyOptions lo fo nbv).panic = none ∧
    (a.applyOptions lo fo nbv).nbv.NetworkSecurityGroup =
      gs "aks-agentpool-" ++ a.ClusterID ++ gs "-nsg" ∧
    (a.applyOptions lo fo nbv).nbv.VirtualNetwork = gs "aks-vnet-" ++ a.ClusterID ∧
    (a.applyOptions lo fo nbv).nbv.RouteTable =
      gs "aks-agentpool-" ++ a.ClusterID ++ gs "-routetable" := by
  obtain ⟨url, _, hrun⟩ := applyOptions_returns a lo fo nbv ca v hca hv
  refine ⟨?_, ?_, ?_, ?_⟩ <;> rw [hrun]

/-- Witness for C19: the cluster ID `c1`. -/
theorem derived_network_names_witness :
    kubenetAKS.ClusterID = gs "c1" ∧
      (kubenetAKS.applyOptions listedOrder listedOrder
        (staticNodeBootstrapVars sampleFiles)).nbv.NetworkSecurityGroup =
        gs "aks-agentpool-c1-nsg" ∧
      (kubenetAKS.applyOptions listedOrder listedOrder
        (staticNodeBootstrapVars sampleFiles)).nbv.VirtualNetwork = gs "aks-vnet-c1" ∧
      (kubenetAKS.applyOptions listedOrder listedOrder
        (staticNodeBootstrapVars sampleFiles)).nbv.RouteTable =
        gs "aks-agentpool-c1-routetable" :=
  ⟨rfl,
   (derived_network_names kubenetAKS listedOrder listedOrder
      (staticNodeBootstrapVars sampleFiles) (gs "ca")
      { major := 1, minor := 25, patch := 0, pre := [], metadata := [], original := gs "1.25.0" }
      rfl (by decide)).2.1.trans (by decide),
   (derived_network_names kubenetAKS listedOrder listedOrder
      (staticNodeBootstrapVars sampleFiles) (gs "ca")
      { major := 1, minor := 25, patch := 0, pre := [], metadata := [], original := gs "1.25.0" }
      rfl (by decide)).2.2.1.trans (by decide),
   (derived_network_names kubenetAKS listedOrder listedOrder
      (staticNodeBootstrapVars sampleFiles) (gs "ca")
      { major := 1, minor := 25, patch := 0, pre := [], metadata := [], original := gs "1.25.0" }
      rfl (by decide)).2.2.2.trans (by decide)⟩

/-- C20: when `applyOptions` has returned and the template executes to a text,
`aksBootstrapScript` gives that text and `AKS.Script` its standard base64
encoding, which decodes back to exactly that text; `AKS.Script` returns an
error exactly when the template execution returns one. -/
theorem script_payload_reversible (a : AKS) (files : EmbeddedFiles) (lo fo : IterOrder) :
    (∀ text,
      (a.applyOptions lo fo (staticNodeBootstrapVars files)).panic = none →
      files.customDataTemplate (a.applyOptions lo fo (staticNodeBootstrapVars files)).nbv =
        .ok text →
      a.aksBootstrapScript files lo fo = .ok text ∧
      a.Script files lo fo = .ok (base64StdEncodeToString text) ∧
      base64StdDecodeString (base64StdEncodeToString text) = some text) ∧
    ((∃ msg, a.Script files lo fo = .err msg) ↔
      ((a.applyOptions lo fo (staticNodeBootstrapVars files)).panic = none ∧
        ∃ e, files.customDataTemplate
          (a.applyOptions lo fo (staticNodeBootstrapVars files)).nbv = .error e)) := by
  constructor
  · intro text hp ht
    refine ⟨?_, ?_, base64_roundtrip text⟩
    · simp only [AKS.aksBootstrapScript, hp, getCustomDataFromNodeBootstrapVars, ht]
    · simp only [AKS.Script, AKS.aksBootstrapScript, hp, getCustomDataFromNodeBootstrapVars, ht]
  · cases hp : (a.applyOptions lo fo (staticNodeBootstrapVars files)).panic with
    | some p =>
      simp only [AKS.Script, AKS.aksBootstrapScript, hp]
      constructor
      · rintro ⟨msg, h⟩
        cases h
      · rintro ⟨h, _⟩
        cases h
    | none =>
      cases ht : files.customDataTemplate
          (a.applyOptions lo fo (staticNodeBootstrapVars files)).nbv with
      | error e =>
        simp only [AKS.Script, AKS.aksBootstrapScript, hp, getCustomDataFromNodeBootstrapVars, ht]
        exact ⟨fun _ => ⟨trivial, e, rfl⟩, fun _ => ⟨_, rfl⟩⟩
      | ok text =>
        simp only [AKS.Script, AKS.aksBootstrapScript, hp, getCustomDataFromNodeBootstrapVars, ht]
        constructor
        · rintro ⟨msg, h⟩
          cases h
        · rintro ⟨_, e, h⟩
          cases h

/-- Witness for C20: the payload of the sample input decodes to the rendered
script. -/
theorem script_payload_reversible_witness :
    kubenetAKS.Script sampleFiles listedOrder listedOrder =
        .ok (base64StdEncodeToString (gs "TENANT_ID=tenant")) ∧
      base64StdDecodeString (base64StdEncodeToString (gs "TENANT_ID=tenant")) =
        some (gs "TENANT_ID=tenant") :=
  ⟨((script_payload_reversible kubenetAKS sampleFiles listedOrder listedOrder).1
      (gs "TENANT_ID=tenant") rfl rfl).2.1,
   ((script_payload_reversible kubenetAKS sampleFiles listedOrder listedOrder).1
      (gs "TENANT_ID=tenant") rfl rfl).2.2⟩

/-! ## The baseline is not written to (C27) -/

theorem Memory.keeps_refl (mem : Memory) : mem.keeps mem :=
  ⟨le_refl _, fun _ _ => rfl, rfl, rfl, rfl⟩

theorem Memory.keeps_trans {m₁ m₂ m₃ : Memory} (h₁ : m₁.keeps m₂) (h₂ : m₂.keeps m₃) :
    m₁.keeps m₃ := by
  obtain ⟨a1, a2, a3, a4, a5⟩ := h₁
  obtain ⟨b1, b2, b3, b4, b5⟩ := h₂
  refine ⟨le_trans a1 b1, fun r hr => ?_, b3.trans a3, b4.trans a4, b5.trans a5⟩
  rw [b2 r (lt_of_lt_of_le hr a1), a2 r hr]

/-- Making a map leaves every existing table alone. -/
theorem Memory.keeps_make (mem : Memory) (contents : GoMap) : mem.keeps (mem.make contents).1 := by
  refine ⟨by simp [Memory.make], fun r hr => ?_, rfl, rfl, rfl⟩
  simp [Memory.make, Memory.table, List.getD_eq_getElem?_getD, List.getElem?_append_left hr]

/-- The map just made has the contents it was made with. -/
theorem Memory.table_make (mem : Memory) (contents : GoMap) :
    (mem.make contents).1.table (mem.make contents).2 = contents := by
  simp [Memory.make, Memory.table]

theorem Memory.length_make (mem : Memory) (contents : GoMap) :
    (mem.make contents).1.tables.length = mem.tables.length + 1 := by
  simp [Memory.make]

theorem Memory.length_assign (mem : Memory) (m : Nat) (k v : GoString) :
    (mem.assign m k v).tables.length = mem.tables.length := by
  simp [Memory.assign]

/-- An assignment through a reference changes the table at that address. -/
theorem Memory.table_assign_self (mem : Memory) (m : Nat) (k v : GoString)
    (h : m < mem.tables.length) : (mem.assign m k v).table m = (mem.table m).set k v := by
  simp [Memory.assign, Memory.table, List.getD_eq_getElem?_getD, h]

/-- An assignment through a reference changes no table at another address. -/
theorem Memory.table_assign_ne (mem : Memory) (m r : Nat) (k v : GoString) (h : r ≠ m) :
    (mem.assign m k v).table r = mem.table r := by
  simp [Memory.assign, Memory.table, List.getD_eq_getElem?_getD, List.getElem?_set_ne h.symm]

/-- An assignment through a reference made later than `before` keeps `before`. -/
theorem Memory.keeps_assign {before mem : Memory} (h : before.keeps mem) (m : Nat)
    (k v : GoString) (hm : before.tables.length ≤ m) : before.keeps (mem.assign m k v) := by
  obtain ⟨a1, a2, a3, a4, a5⟩ := h
  refine ⟨by rw [Memory.length_assign]; exact a1, fun r hr => ?_, a3, a4, a5⟩
  rw [Memory.table_assign_ne mem m r k v (Nat.ne_of_lt (lt_of_lt_of_le hr hm)), a2 r hr]

/-- The label statements of `applyOptions` write to a map of their own: the
memory before them is kept, and the map `kubeletLabels` refers to holds the
merge of the baseline table, the caller's labels and the generated labels. -/
theorem kubeletLabelsIn_spec (a : AKS) (mem : Memory) :
    mem.keeps (a.kubeletLabelsIn mem).1 ∧
      (a.kubeletLabelsIn mem).1.table (a.kubeletLabelsIn mem).2 =
        getAgentbakerGeneratedLabels a.ResourceGroup karpenterAgentPoolName
          (loAssign [mem.table mem.kubeletNodeLabelsBase, a.Labels]) := by
  simp only [AKS.kubeletLabelsIn, loAssignIn, getAgentbakerGeneratedLabelsIn,
    getAgentbakerGeneratedLabels]
  generalize loAssign [mem.table mem.kubeletNodeLabelsBase, a.Labels] = merged
  have h0 := Memory.keeps_make mem merged
  have ht := Memory.table_make mem merged
  have hlen := Memory.length_make mem merged
  have hr : (mem.make merged).2 = mem.tables.length := rfl
  rw [hr] at ht ⊢
  generalize (mem.make merged).1 = m1 at h0 ht hlen
  have hlt : mem.tables.length < m1.tables.length := by rw [hlen]; exact Nat.lt_succ_self _
  constructor
  · exact Memory.keeps_assign (Memory.keeps_assign (Memory.keeps_assign
      (Memory.keeps_assign h0 _ _ _ (le_refl _)) _ _ _ (le_refl _)) _ _ _ (le_refl _))
      _ _ _ (le_refl _)
  · rw [Memory.table_assign_self _ _ _ _ (by simp only [Memory.length_assign]; exact hlt),
      Memory.table_assign_self _ _ _ _ (by simp only [Memory.length_assign]; exact hlt),
      Memory.table_assign_self _ _ _ _ (by simp only [Memory.length_assign]; exact hlt),
      Memory.table_assign_self _ _ _ _ hlt, ht]

/-- The taint statements of `applyOptions` write to maps of their own: the
memory before them is kept, and the map `kubeletFlags` refers to holds the merge
of the baseline table and, when there are taints, the one flag made of them. -/
theorem kubeletFlagsIn_spec (a : AKS) (mem : Memory) :
    mem.keeps (a.kubeletFlagsIn mem).1 ∧
      (a.kubeletFlagsIn mem).1.table (a.kubeletFlagsIn mem).2 =
        (if a.Taints.length > 0 then
          loAssign [loAssign [mem.table mem.kubeletFlagsBase],
            GoMap.ofList [(gs "--register-with-taints",
              stringsJoin (a.Taints.map (fun taint => taint.ToString)) (gs ","))]]
        else loAssign [mem.table mem.kubeletFlagsBase]) := by
  simp only [AKS.kubeletFlagsIn, loAssignIn]
  generalize loAssign [mem.table mem.kubeletFlagsBase] = merged
  by_cases ht : a.Taints.length > 0
  · simp only [if_pos ht]
    generalize GoMap.ofList [(gs "--register-with-taints",
      stringsJoin (a.Taints.map (fun taint => taint.ToString)) (gs ","))] = literal
    have h1 := Memory.keeps_make mem merged
    have t1 := Memory.table_make mem merged
    have h2 := Memory.keeps_make (mem.make merged).1 literal
    have t2 := Memory.table_make (mem.make merged).1 literal
    have l1 := Memory.length_make mem merged
    have e1 : ((mem.make merged).1.make literal).1.table (mem.make merged).2 = merged := by
      rw [h2.2.1 _ (by rw [l1]; exact Nat.lt_succ_self _)]
      exact t1
    refine ⟨Memory.keeps_trans (Memory.keeps_trans h1 h2) (Memory.keeps_make _ _), ?_⟩
    rw [Memory.table_make, e1, t2]
  · simp only [if_neg ht]
    exact ⟨Memory.keeps_make mem merged, Memory.table_make mem merged⟩

/-- What `applyOptions` does on the memory, in terms of the two baseline tables
it reads: it keeps the memory it started in, and when it returns, the two
texts it writes last are made from the merge of the table of
`kubeletNodeLabelsBase` with the labels, and of the table of `kubeletFlagsBase`
with the taints; every other field, and the run that ends in a panic, are as
in `AKS.applyOptions`. -/
theorem applyOptionsIn_spec (a : AKS) (lo fo : IterOrder) (mem : Memory)
    (nbv : NodeBootstrapVariables) (hf : mem.kubeletFlagsBase < mem.tables.length) :
    mem.keeps (a.applyOptionsIn lo fo mem nbv).1 ∧
      (a.applyOptionsIn lo fo mem nbv).2 =
        (match (a.applyOptions lo fo nbv).panic with
         | some _ => a.applyOptions lo fo nbv
         | none =>
           { nbv := { (a.applyOptions lo fo nbv).nbv with
               KubeletNodeLabels :=
                 stringsJoin (loMapToSlice lo
                   (getAgentbakerGeneratedLabels a.ResourceGroup karpenterAgentPoolName
                     (loAssign [mem.table mem.kubeletNodeLabelsBase, a.Labels]))
                   keyEqualsValue) (gs ",")
               KubeletFlags :=
                 stringsJoin (loMapToSlice fo
                   (if a.Taints.length > 0 then
                     loAssign [loAssign [mem.table mem.kubeletFlagsBase],
                       GoMap.ofList [(gs "--register-with-taints",
                         stringsJoin (a.Taints.map (fun taint => taint.ToString)) (gs ","))]]
                   else loAssign [mem.table mem.kubeletFlagsBase])
                   keyEqualsValue) (gs " ") }
             panic := none }) := by
  cases hca : a.CABundle with
  | none =>
    simp only [AKS.applyOptionsIn, AKS.applyOptions, hca]
    exact ⟨Memory.keeps_refl mem, trivial⟩
  | some ca =>
    cases hurl : kubeBinaryURL a.KubernetesVersion with
    | error p =>
      simp only [AKS.applyOptionsIn, AKS.applyOptions, hca, hurl]
      exact ⟨Memory.keeps_refl mem, trivial⟩
    | ok url =>
      obtain ⟨k1, t1⟩ := kubeletLabelsIn_spec a mem
      obtain ⟨k2, t2⟩ := kubeletFlagsIn_spec a (a.kubeletLabelsIn mem).1
      have hbase : (a.kubeletLabelsIn mem).1.table (a.kubeletLabelsIn mem).1.kubeletFlagsBase =
          mem.table mem.kubeletFlagsBase := by
        rw [k1.2.2.1, k1.2.1 _ hf]
      rw [hbase] at t2
      simp only [AKS.applyOptionsIn, AKS.applyOptions, hca, hurl]
      refine ⟨Memory.keeps_trans k1 k2, ?_⟩
      rw [t1, t2]

/-- While the two baseline tables hold what the `var` block put there, the run
of `applyOptions` on the memory is the run of `AKS.applyOptions`. -/
theorem applyOptionsIn_eq_applyOptions (a : AKS) (lo fo : IterOrder) (mem : Memory)
    (nbv : NodeBootstrapVariables) (hf : mem.kubeletFlagsBase < mem.tables.length)
    (h1 : mem.table mem.kubeletFlagsBase = kubeletFlagsBase)
    (h2 : mem.table mem.kubeletNodeLabelsBase = kubeletNodeLabelsBase) :
    (a.applyOptionsIn lo fo mem nbv).2 = a.applyOptions lo fo nbv := by
  rw [(applyOptionsIn_spec a lo fo mem nbv hf).2, h1, h2]
  cases hca : a.CABundle with
  | none => simp only [AKS.applyOptions, hca]
  | some ca =>
    cases hurl : kubeBinaryURL a.KubernetesVersion with
    | error p => simp only [AKS.applyOptions, hca, hurl]
    | ok url =>
      simp only [AKS.applyOptions, hca, hurl]
      rfl

/-- The memory `aksBootstrapScript` leaves is the one its call of
`applyOptions` leaves. -/
theorem aksBootstrapScriptIn_fst (a : AKS) (files : EmbeddedFiles) (lo fo : IterOrder)
    (mem : Memory) :
    (a.aksBootstrapScriptIn files lo fo mem).1 =
      (a.applyOptionsIn lo fo mem mem.staticNodeBootstrapVars).1 := by
  simp only [AKS.aksBootstrapScriptIn]
  cases (a.applyOptionsIn lo fo mem mem.staticNodeBootstrapVars).2.panic with
  | some p => rfl
  | none =>
    dsimp only
    cases getCustomDataFromNodeBootstrapVars files
      (a.applyOptionsIn lo fo mem mem.staticNodeBootstrapVars).2.nbv <;> rfl

/-- The outcome of `aksBootstrapScript` is decided by the run of its call of
`applyOptions`. -/
theorem aksBootstrapScriptIn_snd (a : AKS) (files : EmbeddedFiles) (lo fo : IterOrder)
    (mem : Memory) :
    (a.aksBootstrapScriptIn files lo fo mem).2 =
      (match (a.applyOptionsIn lo fo mem mem.staticNodeBootstrapVars).2.panic with
       | some p => .panic p
       | none =>
         match getCustomDataFromNodeBootstrapVars files
           (a.applyOptionsIn lo fo mem mem.staticNodeBootstrapVars).2.nbv with
         | .err e => .err (gs "error getting custom data from node bootstrap variables: " ++ e)
         | .panic p => .panic p
         | .ok customData => .ok customData) := by
  simp only [AKS.aksBootstrapScriptIn]
  cases (a.applyOptionsIn lo fo mem mem.staticNodeBootstrapVars).2.panic with
  | some p => rfl
  | none =>
    dsimp only
    cases getCustomDataFromNodeBootstrapVars files
      (a.applyOptionsIn lo fo mem mem.staticNodeBootstrapVars).2.nbv <;> rfl

/-- In the memory the package starts in, `aksBootstrapScript` has the outcome
of `AKS.aksBootstrapScript`: the embedding by values, which the other theorems
are about, is the run on the memory. -/
theorem aksBootstrapScriptIn_initialMemory (a : AKS) (files : EmbeddedFiles) (lo fo : IterOrder) :
    (a.aksBootstrapScriptIn files lo fo (initialMemory files)).2 =
      a.aksBootstrapScript files lo fo := by
  rw [aksBootstrapScriptIn_snd,
    applyOptionsIn_eq_applyOptions a lo fo (initialMemory files) _
      (by show (0 : Nat) < 2; decide) rfl rfl]
  rfl

/-- C27: synthesis does not write to the shared baseline. In every memory in
which the two baseline references are valid, after `applyOptions` (on any
record) and after `aksBootstrapScript` the tables of `kubeletFlagsBase` and
`kubeletNodeLabelsBase` hold what they held before, the two variables refer to
the same tables, and the record `staticNodeBootstrapVars` is as before; no
table that existed before is changed. A second synthesis, with any input, run
in the memory the first one left has the outcome it has in the memory before
the first. -/
theorem synthesis_keeps_baseline (a : AKS) (files : EmbeddedFiles) (lo fo : IterOrder)
    (mem : Memory) (hf : mem.kubeletFlagsBase < mem.tables.length)
    (hl : mem.kubeletNodeLabelsBase < mem.tables.length) :
    (∀ nbv : NodeBootstrapVariables,
      (a.applyOptionsIn lo fo mem nbv).1.kubeletFlagsBase = mem.kubeletFlagsBase ∧
      (a.applyOptionsIn lo fo mem nbv).1.kubeletNodeLabelsBase = mem.kubeletNodeLabelsBase ∧
      (a.applyOptionsIn lo fo mem nbv).1.table mem.kubeletFlagsBase =
        mem.table mem.kubeletFlagsBase ∧
      (a.applyOptionsIn lo fo mem nbv).1.table mem.kubeletNodeLabelsBase =
        mem.table mem.kubeletNodeLabelsBase ∧
      (a.applyOptionsIn lo fo mem nbv).1.staticNodeBootstrapVars = mem.staticNodeBootstrapVars ∧
      ∀ r, r < mem.tables.length → (a.applyOptionsIn lo fo mem nbv).1.table r = mem.table r) ∧
    ((a.aksBootstrapScriptIn files lo fo mem).1.kubeletFlagsBase = mem.kubeletFlagsBase ∧
      (a.aksBootstrapScriptIn files lo fo mem).1.kubeletNodeLabelsBase =
        mem.kubeletNodeLabelsBase ∧
      (a.aksBootstrapScriptIn files lo fo mem).1.table mem.kubeletFlagsBase =
        mem.table mem.kubeletFlagsBase ∧
      (a.aksBootstrapScriptIn files lo fo mem).1.table mem.kubeletNodeLabelsBase =
        mem.table mem.kubeletNodeLabelsBase ∧
      (a.aksBootstrapScriptIn files lo fo mem).1.staticNodeBootstrapVars =
        mem.staticNodeBootstrapVars) ∧
    (∀ (b : AKS) (lo2 fo2 : IterOrder),
      (b.aksBootstrapScriptIn files lo2 fo2 (a.aksBootstrapScriptIn files lo fo mem).1).2 =
        (b.aksBootstrapScriptIn files lo2 fo2 mem).2) := by
  have keep : ∀ nbv, mem.keeps (a.applyOptionsIn lo fo mem nbv).1 :=
    fun nbv => (applyOptionsIn_spec a lo fo mem nbv hf).1
  refine ⟨fun nbv => ?_, ?_, fun b lo2 fo2 => ?_⟩
  · obtain ⟨_, k2, k3, k4, k5⟩ := keep nbv
    exact ⟨k3, k4, k2 _ hf, k2 _ hl, k5, k2⟩
  · rw [aksBootstrapScriptIn_fst]
    obtain ⟨_, k2, k3, k4, k5⟩ := keep mem.staticNodeBootstrapVars
    exact ⟨k3, k4, k2 _ hf, k2 _ hl, k5⟩
  · obtain ⟨k1, k2, k3, k4, k5⟩ := keep mem.staticNodeBootstrapVars
    rw [aksBootstrapScriptIn_snd, aksBootstrapScriptIn_snd, aksBootstrapScriptIn_fst]
    generalize (a.applyOptionsIn lo fo mem mem.staticNodeBootstrapVars).1 = after
      at k1 k2 k3 k4 k5
    have hf2 : after.kubeletFlagsBase < after.tables.length := by
      rw [k3]; exact lt_of_lt_of_le hf k1
    have e : (b.applyOptionsIn lo2 fo2 after after.staticNodeBootstrapVars).2 =
        (b.applyOptionsIn lo2 fo2 mem mem.staticNodeBootstrapVars).2 := by
      rw [(applyOptionsIn_spec b lo2 fo2 after _ hf2).2,
        (applyOptionsIn_spec b lo2 fo2 mem _ hf).2, k5, k3, k4, k2 _ hf, k2 _ hl]
    rw [e]

/-- Witness for C27: in the memory the package starts in, a synthesis with a
taint leaves the two baseline tables as the `var` block made them, and a
second synthesis after it has the outcome it has without the first. -/
theorem synthesis_keeps_baseline_witness :
    (taintedAKS.aksBootstrapScriptIn sampleFiles listedOrder listedOrder
        (initialMemory sampleFiles)).1.table 0 = kubeletFlagsBase ∧
      (taintedAKS.aksBootstrapScriptIn sampleFiles listedOrder listedOrder
        (initialMemory sampleFiles)).1.table 1 = kubeletNodeLabelsBase ∧
      (kubenetAKS.aksBootstrapScriptIn sampleFiles listedOrder listedOrder
        (taintedAKS.aksBootstrapScriptIn sampleFiles listedOrder listedOrder
          (initialMemory sampleFiles)).1).2 =
        (kubenetAKS.aksBootstrapScriptIn sampleFiles listedOrder listedOrder
          (initialMemory sampleFiles)).2 :=
  have h := synthesis_keeps_baseline taintedAKS sampleFiles listedOrder listedOrder
    (initialMemory sampleFiles) (by decide) (by decide)
  ⟨h.2.1.2.2.1, h.2.1.2.2.2.1, h.2.2 kubenetAKS listedOrder listedOrder⟩

/-! ## Idempotence of the normalisation (C28) -/

/-- On a text without parentheses, of at most 63 bytes, whose last byte is none
of `-`, `_`, `.`, the normalisation changes nothing. -/
theorem normalize_of_clean (s : GoString) (hp : ∀ b ∈ s, ¬ (b = 40 ∨ b = 41))
    (hl : s.length ≤ 63)
    (he : ¬ (s.getLast? = some 45 ∨ s.getLast? = some 95 ∨ s.getLast? = some 46)) :
    normalizeResourceGroupNameForLabel s = s := by
  rw [normalize_unfold]
  have hmap : s.map (fun b => if b = 40 ∨ b = 41 then 45 else b) = s := by
    conv_rhs => rw [← List.map_id s]
    apply List.map_congr_left
    intro b hb
    simp [hp b hb]
  rw [hmap, List.take_of_length_le hl]
  simp only [if_neg he]

/-- The normalised name has no parenthesis, at most 63 bytes, and a last byte
that is none of `-`, `_`, `.`. -/
theorem normalize_is_clean (s : GoString) :
    (∀ b ∈ normalizeResourceGroupNameForLabel s, ¬ (b = 40 ∨ b = 41)) ∧
      (normalizeResourceGroupNameForLabel s).length ≤ 63 ∧
      ¬ ((normalizeResourceGroupNameForLabel s).getLast? = some 45 ∨
          (normalizeResourceGroupNameForLabel s).getLast? = some 95 ∨
          (normalizeResourceGroupNameForLabel s).getLast? = some 46) := by
  rw [normalize_unfold]
  have hlen : ((s.map (fun b => if b = 40 ∨ b = 41 then 45 else b)).take 63).length ≤ 63 := by
    simp
  have hmem : ∀ b ∈ (s.map (fun b => if b = 40 ∨ b = 41 then 45 else b)).take 63,
      ¬ (b = 40 ∨ b = 41) := by
    intro b hb
    have hb2 := List.mem_of_mem_take hb
    rw [List.mem_map] at hb2
    obtain ⟨c, _, hc⟩ := hb2
    by_cases h : c = 40 ∨ c = 41
    · rw [if_pos h] at hc
      subst hc
      decide
    · rw [if_neg h] at hc
      subst hc
      exact h
  generalize (List.map (fun b : UInt8 => if b = 40 ∨ b = 41 then 45 else b) s).take 63 = t
    at hlen hmem
  dsimp only
  by_cases c : t.getLast? = some 45 ∨ t.getLast? = some 95 ∨ t.getLast? = some 46
  · rw [if_pos c]
    by_cases hl : t.length > 62
    · rw [if_pos hl]
      refine ⟨?_, by simp; omega, by simp [List.getLast?_concat]⟩
      intro b hb
      rw [List.mem_append] at hb
      rcases hb with hb | hb
      · exact hmem b (List.mem_of_mem_take hb)
      · rw [List.mem_singleton] at hb
        subst hb
        decide
    · rw [if_neg hl]
      refine ⟨?_, by simp; omega, by simp [List.getLast?_concat]⟩
      intro b hb
      rw [List.mem_append] at hb
      rcases hb with hb | hb
      · exact hmem b hb
      · rw [List.mem_singleton] at hb
        subst hb
        decide
  · rw [if_neg c]
    exact ⟨hmem, hlen, c⟩

/-- C28: `normalizeResourceGroupNameForLabel` is idempotent, and it returns its
argument unchanged when the argument has no `(` (byte 40) and no `)` (byte 41),
is at most 63 bytes long and does not end in `-`, `_` or `.`. -/
theorem normalize_idempotent_and_identity (s : GoString) :
    normalizeResourceGroupNameForLabel (normalizeResourceGroupNameForLabel s) =
        normalizeResourceGroupNameForLabel s ∧
      ((40 : UInt8) ∉ s → (41 : UInt8) ∉ s → s.length ≤ 63 →
        stringsHasSuffix s (gs "-") = false → stringsHasSuffix s (gs "_") = false →
        stringsHasSuffix s (gs ".") = false →
        normalizeResourceGroupNameForLabel s = s) := by
  constructor
  · obtain ⟨h1, h2, h3⟩ := normalize_is_clean s
    exact normalize_of_clean _ h1 h2 h3
  · intro h40 h41 hl e1 e2 e3
    rw [gs_hyphen] at e1
    rw [gs_underscore] at e2
    rw [gs_dot] at e3
    apply normalize_of_clean s _ hl
    · rintro (h | h | h)
      · rw [(stringsHasSuffix_byte s 45).mpr h] at e1; cases e1
      · rw [(stringsHasSuffix_byte s 95).mpr h] at e2; cases e2
      · rw [(stringsHasSuffix_byte s 46).mpr h] at e3; cases e3
    · rintro b hb (h | h)
      · exact h40 (h ▸ hb)
      · exact h41 (h ▸ hb)

/-- Witness for C28: a name that is short, without parentheses and ends in a
letter is returned unchanged; a name that ends in `_` gets a `z`, and
normalising the result again changes nothing. -/
theorem normalize_idempotent_and_identity_witness :
    normalizeResourceGroupNameForLabel (gs "MC_rg-1") = gs "MC_rg-1" ∧
      normalizeResourceGroupNameForLabel (gs "rg(1)_") = gs "rg-1-_z" ∧
      normalizeResourceGroupNameForLabel (normalizeResourceGroupNameForLabel (gs "rg(1)_")) =
        normalizeResourceGroupNameForLabel (gs "rg(1)_") :=
  ⟨(normalize_idempotent_and_identity (gs "MC_rg-1")).2 (by decide) (by decide) (by decide)
      (by decide) (by decide) (by decide),
   by decide,
   (normalize_idempotent_and_identity (gs "rg(1)_")).1⟩

/-! ## The merged label set in full (C29) -/

/-- The baseline label map has the one key `kubernetes.azure.com/mode`. -/
theorem get_kubeletNodeLabelsBase (k : GoString) :
    kubeletNodeLabelsBase.get k =
      if k = gs "kubernetes.azure.com/mode" then some (gs "system") else none := by
  have h : kubeletNodeLabelsBase.entries = [(gs "kubernetes.azure.com/mode", gs "system")] := by
    decide
  rw [GoMap.get, h]
  by_cases hk : k = gs "kubernetes.azure.com/mode"
  · subst hk; simp [entriesGet]
  · have hk2 : ¬ gs "kubernetes.azure.com/mode" = k := fun e => hk e.symm
    simp [entriesGet, hk, hk2]

/-- C29: the merged kubelet label set, key by key. The four generated keys hold
the generated values whatever the caller supplies; any other key the caller
supplies holds the caller's value; `kubernetes.azure.com/mode` holds `system`
when the caller does not supply it; no other key is present. -/
theorem kubeletLabels_get (a : AKS) (k : GoString) :
    a.kubeletLabels.get k =
      if k = gs "kubernetes.azure.com/cluster" then
        some (normalizeResourceGroupNameForLabel a.ResourceGroup)
      else if k = gs "kubernetes.azure.com/agentpool" then some (gs "nodepool1")
      else if k = gs "agentpool" then some (gs "nodepool1")
      else if k = gs "kubernetes.azure.com/role" then some (gs "agent")
      else
        match a.Labels.get k with
        | some v => some v
        | none => if k = gs "kubernetes.azure.com/mode" then some (gs "system") else none := by
  simp only [AKS.kubeletLabels, getAgentbakerGeneratedLabels, GoMap.get_set,
    get_loAssign_pair, karpenterAgentPoolName, get_kubeletNodeLabelsBase]

/-- Witness for C29: for the input that supplies `agentpool=mypool`, the merged
set holds the generated `agentpool=nodepool1`, the baseline's `system` mode,
and no key `other`. -/
theorem kubeletLabels_get_witness :
    agentpoolLabelAKS.kubeletLabels.get (gs "agentpool") = some (gs "nodepool1") ∧
      agentpoolLabelAKS.kubeletLabels.get (gs "kubernetes.azure.com/mode") =
        some (gs "system") ∧
      agentpoolLabelAKS.kubeletLabels.get (gs "other") = none :=
  ⟨(kubeletLabels_get agentpoolLabelAKS (gs "agentpool")).trans (by decide),
   (kubeletLabels_get agentpoolLabelAKS (gs "kubernetes.azure.com/mode")).trans (by decide),
   (kubeletLabels_get agentpoolLabelAKS (gs "other")).trans (by decide)⟩

/-! ## The fields `applyOptions` leaves alone (C31) -/

/-- C31: `applyOptions` changes at most the eighteen fields it assigns: the
record it leaves is the record it was given with these fields replaced,
whatever the input and whether or not the call panics. So in the record
synthesised from `staticNodeBootstrapVars` every other field has its static
value, for example `AdminUsername`, `ContainerRuntime`, `NeedsContainerd`,
`VMType`, `Subnet` and `MaximumLoadbalancerRuleCount`. -/
theorem unassigned_fields_keep_static (a : AKS) (lo fo : IterOrder)
    (nbv : NodeBootstrapVariables) :
    (a.applyOptions lo fo nbv).nbv =
      { nbv with
        KubeCACrt := (a.applyOptions lo fo nbv).nbv.KubeCACrt
        APIServerName := (a.applyOptions lo fo nbv).nbv.APIServerName
        TLSBootstrapToken := (a.applyOptions lo fo nbv).nbv.TLSBootstrapToken
        TenantID := (a.applyOptions lo fo nbv).nbv.TenantID
        SubscriptionID := (a.applyOptions lo fo nbv).nbv.SubscriptionID
        Location := (a.applyOptions lo fo nbv).nbv.Location
        ResourceGroup := (a.applyOptions lo fo nbv).nbv.ResourceGroup
        UserAssignedIdentityID := (a.applyOptions lo fo nbv).nbv.UserAssignedIdentityID
        NetworkPlugin := (a.applyOptions lo fo nbv).nbv.NetworkPlugin
        NetworkPolicy := (a.applyOptions lo fo nbv).nbv.NetworkPolicy
        KubernetesVersion := (a.applyOptions lo fo nbv).nbv.KubernetesVersion
        KubeBinaryURL := (a.applyOptions lo fo nbv).nbv.KubeBinaryURL
        EnsureNoDupePromiscuousBridge :=
          (a.applyOptions lo fo nbv).nbv.EnsureNoDupePromiscuousBridge
        NetworkSecurityGroup := (a.applyOptions lo fo nbv).nbv.NetworkSecurityGroup
        VirtualNetwork := (a.applyOptions lo fo nbv).nbv.VirtualNetwork
        RouteTable := (a.applyOptions lo fo nbv).nbv.RouteTable
        KubeletNodeLabels := (a.applyOptions lo fo nbv).nbv.KubeletNodeLabels
        KubeletFlags := (a.applyOptions lo fo nbv).nbv.KubeletFlags } ∧
    ∀ files : EmbeddedFiles,
      (a.applyOptions lo fo (staticNodeBootstrapVars files)).nbv.AdminUsername =
        gs "azureuser" ∧
      (a.applyOptions lo fo (staticNodeBootstrapVars files)).nbv.ContainerRuntime =
        gs "containerd" ∧
      (a.applyOptions lo fo (staticNodeBootstrapVars files)).nbv.NeedsContainerd = true ∧
      (a.applyOptions lo fo (staticNodeBootstrapVars files)).nbv.VMType = gs "vmss" ∧
      (a.applyOptions lo fo (staticNodeBootstrapVars files)).nbv.Subnet = gs "aks-subnet" ∧
      (a.applyOptions lo fo (staticNodeBootstrapVars files)).nbv.MaximumLoadbalancerRuleCount =
        250 := by
  constructor
  · cases hca : a.CABundle with
    | none => simp only [AKS.applyOptions, hca]
    | some ca =>
      cases hurl : kubeBinaryURL a.KubernetesVersion with
      | error p => simp only [AKS.applyOptions, hca, hurl]
      | ok url => simp only [AKS.applyOptions, hca, hurl]
  · intro files
    cases hca : a.CABundle with
    | none =>
      simp only [AKS.applyOptions, hca]
      exact ⟨rfl, rfl, rfl, rfl, rfl, rfl⟩
    | some ca =>
      cases hurl : kubeBinaryURL a.KubernetesVersion with
      | error p =>
        simp only [AKS.applyOptions, hca, hurl]
        exact ⟨rfl, rfl, rfl, rfl, rfl, rfl⟩
      | ok url =>
        simp only [AKS.applyOptions, hca, hurl]
        exact ⟨rfl, rfl, rfl, rfl, rfl, rfl⟩

/-- Witness for C31: the record synthesised for the kubenet input has the
input's tenant and the static administrator name and rule count. -/
theorem unassigned_fields_keep_static_witness :
    (kubenetAKS.applyOptions listedOrder listedOrder
        (staticNodeBootstrapVars sampleFiles)).nbv.TenantID = gs "tenant" ∧
      (kubenetAKS.applyOptions listedOrder listedOrder
        (staticNodeBootstrapVars sampleFiles)).nbv.AdminUsername = gs "azureuser" ∧
      (kubenetAKS.applyOptions listedOrder listedOrder
        (staticNodeBootstrapVars sampleFiles)).nbv.MaximumLoadbalancerRuleCount = 250 :=
  ⟨by decide,
   ((unassigned_fields_keep_static kubenetAKS listedOrder listedOrder
      (staticNodeBootstrapVars sampleFiles)).2 sampleFiles).1,
   ((unassigned_fields_keep_static kubenetAKS listedOrder listedOrder
      (staticNodeBootstrapVars sampleFiles)).2 sampleFiles).2.2.2.2.2⟩

end AKSBootstrap

namespace GarbageCollection

open AKSBootstrap

/-! ## Conditions -/

theorem find?_eq_some_of_unique {α : Type} (p : α → Bool) (l : List α) (a : α)
    (ha : a ∈ l) (hp : p a = true) (huniq : ∀ x ∈ l, p x = true → x = a) :
    l.find? p = some a := by
  cases h : l.find? p with
  | none =>
    have := List.find?_eq_none.mp h a ha
    exact absurd hp this
  | some y =>
    have hy : p y = true := List.find?_some h
    have hmem : y ∈ l := List.mem_of_find?_eq_some h
    rw [huniq y hmem hy]

theorem mem_sortByType (c : Condition) (l : List Condition) : c ∈ sortByType l ↔ c ∈ l :=
  (List.perm_insertionSort _ l).mem_iff

theorem eq_of_atMostOneOfType (t : GoString) (cs : List Condition) (h : atMostOneOfType t cs)
    (x y : Condition) (hx : x ∈ cs) (hy : y ∈ cs) (hxt : x.CondType = t) (hyt : y.CondType = t) :
    x = y := by
  have hx' : x ∈ cs.filter (fun c => c.CondType == t) := by simp [List.mem_filter, hx, hxt]
  have hy' : y ∈ cs.filter (fun c => c.CondType == t) := by simp [List.mem_filter, hy, hyt]
  unfold atMostOneOfType at h
  generalize cs.filter (fun c => c.CondType == t) = l at h hx' hy'
  match l, h, hx', hy' with
  | [a], _, hx', hy' =>
    rw [List.mem_singleton] at hx' hy'
    rw [hx', hy']
  | _ :: _ :: _, h, _, _ => simp at h

/-- The two ways `SetCondition` can go. -/
theorem setCondition_cases (now : Time) (cs : List Condition) (cond : Condition) :
    (setCondition now cs cond = cs ∧
      ∃ c ∈ cs, c.CondType = cond.CondType ∧
        { cond with LastTransitionTime := c.LastTransitionTime } = c) ∨
    (setCondition now cs cond =
        sortByType (cs.filter (fun c => c.CondType != cond.CondType) ++
          [{ cond with LastTransitionTime := now }]) ∧
      ¬ ∃ c ∈ cs, c.CondType = cond.CondType ∧
        { cond with LastTransitionTime := c.LastTransitionTime } = c) := by
  by_cases h : cs.any (fun c => c.CondType == cond.CondType &&
      decide ({ cond with LastTransitionTime := c.LastTransitionTime } = c)) = true
  · left
    refine ⟨by simp only [setCondition, h, if_true], ?_⟩
    rw [List.any_eq_true] at h
    obtain ⟨c, hc, hp⟩ := h
    simp only [Bool.and_eq_true, beq_iff_eq, decide_eq_true_eq] at hp
    exact ⟨c, hc, hp.1, hp.2⟩
  · right
    refine ⟨by simp only [setCondition, h, if_false]; rfl, ?_⟩
    rintro ⟨c, hc, h1, h2⟩
    apply h
    rw [List.any_eq_true]
    exact ⟨c, hc, by simp only [Bool.and_eq_true, beq_iff_eq, decide_eq_true_eq]; exact ⟨h1, h2⟩⟩

/-- After `SetCondition` the condition of the type is the one that was set, up
to its transition time, which is `now` unless that condition was there
before. -/
theorem getCondition_setCondition (now : Time) (cs : List Condition) (cond : Condition)
    (huniq : atMostOneOfType cond.CondType cs) :
    ∃ c, getCondition (setCondition now cs cond) cond.CondType = some c ∧
      c = { cond with LastTransitionTime := c.LastTransitionTime } ∧
      (c.LastTransitionTime = now ∨ (c ∈ cs ∧ setCondition now cs cond = cs)) ∧
      ((¬ ∃ x ∈ cs, x.CondType = cond.CondType ∧
          { cond with LastTransitionTime := x.LastTransitionTime } = x) →
        c.LastTransitionTime = now) := by
  rcases setCondition_cases now cs cond with ⟨heq, c, hc, ht, hsame⟩ | ⟨heq, hno⟩
  · refine ⟨c, ?_, hsame.symm, Or.inr ⟨hc, heq⟩, fun h => absurd ⟨c, hc, ht, hsame⟩ h⟩
    rw [heq]
    apply find?_eq_some_of_unique _ _ _ hc (by simp [ht])
    intro x hx hxt
    simp only [beq_iff_eq] at hxt
    exact eq_of_atMostOneOfType _ _ huniq x c hx hc hxt ht
  · refine ⟨{ cond with LastTransitionTime := now }, ?_, rfl, Or.inl rfl, fun _ => rfl⟩
    rw [heq]
    apply find?_eq_some_of_unique
    · rw [mem_sortByType]; simp
    · simp
    · intro x hx hxt
      rw [mem_sortByType, List.mem_append, List.mem_filter, List.mem_singleton] at hx
      simp only [beq_iff_eq] at hxt
      rcases hx with ⟨_, hne⟩ | hx
      · simp [hxt] at hne
      · exact hx

/-- `SetCondition` leaves a condition of the type it set. -/
theorem getCondition_setCondition_isSome (now : Time) (cs : List Condition) (cond : Condition) :
    (getCondition (setCondition now cs cond) cond.CondType).isSome = true := by
  rw [getCondition, List.find?_isSome]
  rcases setCondition_cases now cs cond with ⟨heq, c, hc, ht, _⟩ | ⟨heq, _⟩
  · rw [heq]; exact ⟨c, hc, by simp [ht]⟩
  · rw [heq]
    exact ⟨{ cond with LastTransitionTime := now }, by rw [mem_sortByType]; simp, by simp⟩

/-- `SetCondition` keeps the conditions of a type at most one. -/
theorem atMostOneOfType_setCondition (now : Time) (cs : List Condition) (cond : Condition)
    (t : GoString) (h : atMostOneOfType t cs) :
    atMostOneOfType t (setCondition now cs cond) := by
  rcases setCondition_cases now cs cond with ⟨heq, _⟩ | ⟨heq, _⟩
  · rw [heq]; exact h
  · rw [heq]
    unfold atMostOneOfType at h ⊢
    have hperm : (sortByType (cs.filter (fun c => c.CondType != cond.CondType) ++
        [{ cond with LastTransitionTime := now }])).Perm
        (cs.filter (fun c => c.CondType != cond.CondType) ++
          [{ cond with LastTransitionTime := now }]) := List.perm_insertionSort _ _
    rw [(hperm.filter _).length_eq, List.filter_append, List.length_append, List.filter_filter]
    by_cases ht : cond.CondType = t
    · have : cs.filter (fun a => (a.CondType == t) && (a.CondType != cond.CondType)) = [] := by
        rw [List.filter_eq_nil_iff]
        intro a _
        simp [ht]
      rw [this]
      simp [List.filter_cons]
      split <;> simp
    · have h2 : ([{ cond with LastTransitionTime := now }] : List Condition).filter
          (fun c => c.CondType == t) = [] := by
        simp [List.filter_cons, ht]
      rw [h2]
      have hle : (cs.filter (fun a => (a.CondType == t) && (a.CondType != cond.CondType))).length ≤
          (cs.filter (fun c => c.CondType == t)).length := by
        apply List.Sublist.length_le
        apply List.monotone_filter_right
        intro a ha
        simp only [Bool.and_eq_true] at ha
        exact ha.1
      simp only [List.length_nil, Nat.add_zero]
      omega

theorem any_congr_perm {α : Type} (p : α → Bool) {l₁ l₂ : List α} (h : l₁.Perm l₂) :
    l₁.any p = l₂.any p := by
  rw [Bool.eq_iff_iff, List.any_eq_true, List.any_eq_true]
  exact ⟨fun ⟨x, hx, hp⟩ => ⟨x, h.mem_iff.mp hx, hp⟩, fun ⟨x, hx, hp⟩ => ⟨x, h.mem_iff.mpr hx, hp⟩⟩

theorem find?_eq_none_of_any_false {α : Type} (p : α → Bool) (l : List α)
    (h : l.any p = false) : l.find? p = none := by
  rw [List.find?_eq_none]
  intro x hx hp
  have : l.any p = true := List.any_eq_true.mpr ⟨x, hx, hp⟩
  rw [h] at this
  exact absurd this (by decide)

/-- The status of what `findUnhappyDependent` returns is `unhappyStatus`. -/
theorem findUnhappyDependent_status (set : ConditionSet) (cs : List Condition) :
    (findUnhappyDependent set cs).map (fun c => c.Status) = unhappyStatus set cs := by
  unfold findUnhappyDependent unhappyStatus
  by_cases hd : set.dependents.length = 0
  · simp only [hd, if_true, Option.map_none']
  · simp only [hd, if_false]
    generalize cs.filter
      (fun c => c.Severity == ConditionSeverityError && c.CondType != set.happy) = T
    have hperm : (sortByTimeDescending T).Perm T := List.perm_insertionSort _ T
    have hlen : (sortByTimeDescending T).length = T.length := hperm.length_eq
    have hF : (sortByTimeDescending T).any (fun c => c.Status == gs "False") =
        T.any (fun c => c.Status == gs "False") := any_congr_perm _ hperm
    have hU : (sortByTimeDescending T).any (fun c => c.Status == gs "Unknown") =
        T.any (fun c => c.Status == gs "Unknown") := any_congr_perm _ hperm
    rw [← hF, ← hU, ← hlen]
    generalize sortByTimeDescending T = S
    have e1 : (fun c : Condition => isFalse (some c)) = (fun c => c.Status == gs "False") := rfl
    have e2 : (fun c : Condition => isUnknown (some c)) = (fun c => c.Status == gs "Unknown") :=
      rfl
    rw [e1, e2]
    cases h1 : S.find? (fun c => c.Status == gs "False") with
    | some c =>
      have hc : (c.Status == gs "False") = true :=
        List.find?_some (p := fun c : Condition => c.Status == gs "False") h1
      have hany : S.any (fun c => c.Status == gs "False") = true :=
        List.any_eq_true.mpr ⟨c, List.mem_of_find?_eq_some h1, hc⟩
      simp only [hany, if_true, Option.map_some', beq_iff_eq.mp hc]
    | none =>
      have hany : S.any (fun c => c.Status == gs "False") = false := by
        cases h : S.any (fun c => c.Status == gs "False") with
        | false => rfl
        | true =>
          obtain ⟨x, hx, hp⟩ := List.any_eq_true.mp h
          exact absurd hp (List.find?_eq_none.mp h1 x hx)
      simp only [hany, Bool.false_eq_true, if_false]
      cases h2 : S.find? (fun c => c.Status == gs "Unknown") with
      | some c =>
        have hc : (c.Status == gs "Unknown") = true :=
          List.find?_some (p := fun c : Condition => c.Status == gs "Unknown") h2
        have hany2 : S.any (fun c => c.Status == gs "Unknown") = true :=
          List.any_eq_true.mpr ⟨c, List.mem_of_find?_eq_some h2, hc⟩
        simp only [hany2, if_true, Option.map_some', beq_iff_eq.mp hc]
      | none =>
        have hany2 : S.any (fun c => c.Status == gs "Unknown") = false := by
          cases h : S.any (fun c => c.Status == gs "Unknown") with
          | false => rfl
          | true =>
            obtain ⟨x, hx, hp⟩ := List.any_eq_true.mp h
            exact absurd hp (List.find?_eq_none.mp h2 x hx)
        simp only [hany2, Bool.false_eq_true, if_false]
        by_cases hl : set.dependents.length > S.length
        · simp only [hl, if_true, Option.map_some']
        · simp only [hl, if_false, Option.map_none']

/-- An unhappy dependent is false or unknown, never true. -/
theorem unhappyStatus_ne_true (set : ConditionSet) (cs : List Condition) (s : GoString)
    (h : unhappyStatus set cs = some s) : s = gs "False" ∨ s = gs "Unknown" := by
  unfold unhappyStatus at h
  by_cases hd : set.dependents.length = 0
  · simp [hd] at h
  · simp only [hd, if_false] at h
    split at h
    · exact Or.inl (Option.some.inj h).symm
    · split at h
      · exact Or.inr (Option.some.inj h).symm
      · split at h
        · exact Or.inr (Option.some.inj h).symm
        · cases h

/-- Setting the happy condition does not change which dependent is unhappy. -/
theorem unhappyStatus_setCondition_happy (set : ConditionSet) (now : Time)
    (cs : List Condition) (cond : Condition) (ht : cond.CondType = set.happy) :
    unhappyStatus set (setCondition now cs cond) = unhappyStatus set cs := by
  rcases setCondition_cases now cs cond with ⟨heq, _⟩ | ⟨heq, _⟩
  · rw [heq]
  · rw [heq]
    have hperm : ((sortByType (cs.filter (fun c => c.CondType != cond.CondType) ++
        [{ cond with LastTransitionTime := now }])).filter
          (fun c => c.Severity == ConditionSeverityError && c.CondType != set.happy)).Perm
        (cs.filter (fun c => c.Severity == ConditionSeverityError && c.CondType != set.happy)) := by
      refine ((List.perm_insertionSort _ _).filter _).trans ?_
      rw [List.filter_append, List.filter_filter]
      have h1 : ([{ cond with LastTransitionTime := now }] : List Condition).filter
          (fun c => c.Severity == ConditionSeverityError && c.CondType != set.happy) = [] := by
        simp [List.filter_cons, ht]
      rw [h1, List.append_nil, ht]
      apply List.Perm.of_eq
      apply List.filter_congr
      intro x _
      by_cases hx : x.CondType = set.happy <;> simp [hx]
    unfold unhappyStatus
    by_cases hd : set.dependents.length = 0
    · simp only [hd, if_true]
    · simp only [hd, if_false]
      rw [any_congr_perm _ hperm, any_congr_perm _ hperm, hperm.length_eq]

theorem gs_true_ne_false : gs "True" ≠ gs "False" := by decide
theorem gs_true_ne_unknown : gs "True" ≠ gs "Unknown" := by decide

/-- The happy condition of a living condition set is `Ready`. -/
theorem happy_newLivingConditionSet (d : List GoString) :
    (NewLivingConditionSet d).happy = gs "Ready" := rfl

/-- `Ready` is never among the dependents of a living condition set. -/
theorem ready_not_dependent (d : List GoString) :
    gs "Ready" ∉ (NewLivingConditionSet d).dependents := by
  have key : ∀ (l acc : List GoString), gs "Ready" ∉ acc →
      gs "Ready" ∉ l.foldl
        (fun deps t => if t == ConditionReady || deps.contains t then deps else deps ++ [t])
        acc := by
    intro l
    induction l with
    | nil => intro acc h; exact h
    | cons t rest ih =>
      intro acc h
      rw [List.foldl_cons]
      apply ih
      by_cases hc : (t == ConditionReady || acc.contains t) = true
      · rw [if_pos hc]; exact h
      · rw [if_neg hc]
        simp only [Bool.or_eq_true, beq_iff_eq, not_or] at hc
        rw [List.mem_append, List.mem_singleton]
        rintro (h1 | h1)
        · exact h h1
        · exact hc.1 h1.symm
  exact key d [] (List.not_mem_nil _)

/-- `MarkFalse("Ready", ...)` on a machine is one `SetCondition`. -/
theorem markFalse_ready (d : List GoString) (now : Time) (cs : List Condition)
    (reason message : GoString) :
    markFalse (NewLivingConditionSet d) now cs (gs "Ready") reason message =
      setCondition now cs
        { CondType := gs "Ready", Status := gs "False", Reason := reason, Message := message,
          Severity := severity (NewLivingConditionSet d) (gs "Ready") } := by
  have hnone : (NewLivingConditionSet d).dependents.filter (fun cond => cond == gs "Ready") = [] := by
    rw [List.filter_eq_nil_iff]
    intro a ha heq
    rw [beq_iff_eq] at heq
    exact ready_not_dependent d (heq ▸ ha)
  simp only [markFalse, hnone, List.map_nil, List.append_nil, List.foldl_cons, List.foldl_nil]

/-- What `MarkTrue("Ready")` leaves in the `Ready` condition of a condition set
whose happy condition is `Ready`: true when no dependent is unhappy, and
otherwise the status of the unhappy dependent, with a fresh transition time. -/
theorem getCondition_markTrue_ready (set : ConditionSet) (hh : set.happy = gs "Ready")
    (now later : Time) (cs : List Condition) (huniq : atMostOneOfType (gs "Ready") cs) :
    ∃ r, getCondition (markTrue set now later cs (gs "Ready")) (gs "Ready") = some r ∧
      (unhappyStatus set cs = none → r.Status = gs "True") ∧
      (∀ s, unhappyStatus set cs = some s → r.Status = s ∧ r.LastTransitionTime = later) := by
  obtain ⟨happy, deps⟩ := set
  simp only at hh
  subst hh
  obtain ⟨c1, hget1, hc1, _, _⟩ := getCondition_setCondition now cs
    { CondType := gs "Ready", Status := gs "True",
      Severity := severity ⟨gs "Ready", deps⟩ (gs "Ready") } huniq
  have huniq1 := atMostOneOfType_setCondition now cs
    { CondType := gs "Ready", Status := gs "True",
      Severity := severity ⟨gs "Ready", deps⟩ (gs "Ready") } (gs "Ready") huniq
  have hstat := unhappyStatus_setCondition_happy ⟨gs "Ready", deps⟩ now cs
    { CondType := gs "Ready", Status := gs "True",
      Severity := severity ⟨gs "Ready", deps⟩ (gs "Ready") } rfl
  have hfud := findUnhappyDependent_status ⟨gs "Ready", deps⟩ (setCondition now cs
    { CondType := gs "Ready", Status := gs "True",
      Severity := severity ⟨gs "Ready", deps⟩ (gs "Ready") })
  rw [hstat] at hfud
  simp only [markTrue, recomputeHappiness]
  generalize setCondition now cs
    { CondType := gs "Ready", Status := gs "True",
      Severity := severity ⟨gs "Ready", deps⟩ (gs "Ready") } = cs1 at hget1 huniq1 hfud
  have hc1s : c1.Status = gs "True" := by rw [hc1]
  have hc1t : c1.CondType = gs "Ready" := by rw [hc1]
  have hc1mem : c1 ∈ cs1 := List.mem_of_find?_eq_some hget1
  cases hf : findUnhappyDependent ⟨gs "Ready", deps⟩ cs1 with
  | none =>
    rw [hf] at hfud
    simp only [bne_self_eq_false, Bool.false_eq_true, if_false]
    refine ⟨c1, hget1, fun _ => hc1s, fun s hs => ?_⟩
    rw [← hfud] at hs
    cases hs
  | some c =>
    rw [hf] at hfud
    simp only [Option.map_some'] at hfud
    have hne : c.Status ≠ gs "True" := by
      rcases unhappyStatus_ne_true _ _ _ hfud.symm with h | h
      · rw [h]; exact gs_true_ne_false.symm
      · rw [h]; exact gs_true_ne_unknown.symm
    obtain ⟨r, hget, hr, _, hnow⟩ := getCondition_setCondition later cs1
      { CondType := gs "Ready", Status := c.Status, Reason := c.Reason, Message := c.Message,
        Severity := severity ⟨gs "Ready", deps⟩ (gs "Ready") } huniq1
    have hlater : r.LastTransitionTime = later := by
      apply hnow
      rintro ⟨x, hx, hxt, hxe⟩
      have hx1 : x = c1 := eq_of_atMostOneOfType _ _ huniq1 x c1 hx hc1mem hxt hc1t
      have : x.Status = c.Status := by rw [← hxe]
      rw [hx1, hc1s] at this
      exact hne this.symm
    have hrs : r.Status = c.Status := by rw [hr]
    refine ⟨r, hget, fun h => ?_, fun s hs => ?_⟩
    · rw [← hfud] at h
      cases h
    · rw [← hfud] at hs
      rw [← Option.some.inj hs]
      exact ⟨hrs, hlater⟩

/-- `MarkTrue("Ready")` always leaves a `Ready` condition. -/
theorem getCondition_markTrue_ready_isSome (set : ConditionSet) (hh : set.happy = gs "Ready")
    (now later : Time) (cs : List Condition) :
    (getCondition (markTrue set now later cs (gs "Ready")) (gs "Ready")).isSome = true := by
  obtain ⟨happy, deps⟩ := set
  simp only at hh
  subst hh
  simp only [markTrue, recomputeHappiness]
  cases findUnhappyDependent ⟨gs "Ready", deps⟩ (setCondition now cs
      { CondType := gs "Ready", Status := gs "True",
        Severity := severity ⟨gs "Ready", deps⟩ (gs "Ready") }) with
  | none =>
    simp only [bne_self_eq_false, Bool.false_eq_true, if_false]
    exact getCondition_setCondition_isSome now cs
      { CondType := gs "Ready", Status := gs "True",
        Severity := severity ⟨gs "Ready", deps⟩ (gs "Ready") }
  | some c =>
    exact getCondition_setCondition_isSome later _
      { CondType := gs "Ready", Status := c.Status, Reason := c.Reason, Message := c.Message,
        Severity := severity ⟨gs "Ready", deps⟩ (gs "Ready") }

/-! ## One pass of the reconciler -/

theorem heartbeatUpdate_present (w : World) (ids : List GoString) (i : Nat) (m : Machine)
    (h : ids.contains m.ProviderID = true) :
    heartbeatUpdate w ids i m =
      { m with
        Annotations := some ((match m.Annotations with
          | none => GoMap.empty
          | some annotations => annotations).set NodeHeartBeatAnnotationKey
            (w.marshalJSON (w.wallHeartbeat i)))
        Conditions := markTrue w.api.conditionSet (w.wallMark i) (w.wallRecompute i)
          m.Conditions (gs "Ready") } := by
  simp only [heartbeatUpdate, h, if_true]

theorem heartbeatUpdate_absent (w : World) (ids : List GoString) (i : Nat) (m : Machine)
    (h : ids.contains m.ProviderID = false) :
    heartbeatUpdate w ids i m =
      { m with
        Conditions := markFalse w.api.conditionSet (w.wallMark i) m.Conditions
          (gs "Ready") (gs "NodeNotReady") (gs "Node status is NotReady") } := by
  simp only [heartbeatUpdate, h, Bool.false_eq_true, if_false]

/-- The update keeps the identity of the record. -/
theorem heartbeatUpdate_identity (w : World) (ids : List GoString) (i : Nat) (m : Machine) :
    (heartbeatUpdate w ids i m).Name = m.Name ∧
      (heartbeatUpdate w ids i m).ProviderID = m.ProviderID ∧
      (heartbeatUpdate w ids i m).DeletionTimestamp = m.DeletionTimestamp ∧
      (heartbeatUpdate w ids i m).Labels = m.Labels := by
  cases h : ids.contains m.ProviderID with
  | true => rw [heartbeatUpdate_present w ids i m h]; exact ⟨rfl, rfl, rfl, rfl⟩
  | false => rw [heartbeatUpdate_absent w ids i m h]; exact ⟨rfl, rfl, rfl, rfl⟩

/-- The updated record always has a `Ready` condition. -/
theorem heartbeatUpdate_ready_isSome (w : World) (ids : List GoString) (i : Nat) (m : Machine) :
    (getCondition (heartbeatUpdate w ids i m).Conditions (gs "Ready")).isSome = true := by
  cases h : ids.contains m.ProviderID with
  | true =>
    rw [heartbeatUpdate_present w ids i m h]
    exact getCondition_markTrue_ready_isSome _ (happy_newLivingConditionSet _) _ _ _
  | false =>
    rw [heartbeatUpdate_absent w ids i m h]
    simp only [MachineAPI.conditionSet, markFalse_ready]
    exact getCondition_setCondition_isSome _ _ _

/-- The work on one record never panics: the `Ready` condition it reads was
written just before. -/
theorem heartbeatPiece_panic (w : World) (ids : List GoString) (i : Nat) (m : Machine) :
    (heartbeatPiece w ids i m).panic = none := by
  have hready := heartbeatUpdate_ready_isSome w ids i m
  unfold heartbeatPiece
  cases w.patch i with
  | some err => rfl
  | none =>
    cases w.statusPatch i with
    | some err => rfl
    | none =>
      dsimp only
      cases hget : getCondition (heartbeatUpdate w ids i m).Conditions (gs "Ready") with
      | none => rw [hget] at hready; cases hready
      | some ready =>
        split
        · dsimp only
          split <;> rfl
        · rfl

/-- The calls of the work on one record: `Patch` always, the status `Patch`
when `Patch` succeeded. -/
theorem heartbeatPiece_calls (w : World) (ids : List GoString) (i : Nat) (m : Machine) :
    (heartbeatPiece w ids i m).calls =
      if (w.patch i).isSome then [ClientCall.patch (heartbeatUpdate w ids i m) m]
      else [ClientCall.patch (heartbeatUpdate w ids i m) m,
            ClientCall.statusPatch (heartbeatUpdate w ids i m) m] := by
  unfold heartbeatPiece
  cases w.patch i with
  | some err => rfl
  | none =>
    cases w.statusPatch i with
    | some err => rfl
    | none =>
      dsimp only
      split
      · split
        · rfl
        · split <;> rfl
      · rfl

/-- The record queued by the work on one record, if any, is the updated
record, and then both patches succeeded. -/
theorem heartbeatPiece_queued (w : World) (ids : List GoString) (i : Nat) (m d : Machine)
    (h : (heartbeatPiece w ids i m).queued = some d) :
    d = heartbeatUpdate w ids i m ∧ w.patch i = none ∧ w.statusPatch i = none := by
  unfold heartbeatPiece at h
  cases hp : w.patch i with
  | some err => rw [hp] at h; cases h
  | none =>
    cases hs : w.statusPatch i with
    | some err => rw [hp, hs] at h; cases h
    | none =>
      rw [hp, hs] at h
      dsimp only at h
      split at h
      · split at h
        · cases h
        · split at h
          · exact ⟨(Option.some.inj h).symm, rfl, rfl⟩
          · cases h
      · cases h

/-- The entry of `hbErrs` for one record: the first failure among `Patch` and
the status `Patch`, unless it is a not-found error. -/
theorem heartbeatPiece_hbErr (w : World) (ids : List GoString) (i : Nat) (m : Machine)
    (e : GoError) :
    (heartbeatPiece w ids i m).hbErr = some e ↔
      e.notFound = false ∧
        (w.patch i = some e ∨ (w.patch i = none ∧ w.statusPatch i = some e)) := by
  have hig : ∀ err : GoError, IgnoreNotFound err = some e ↔ e.notFound = false ∧ err = e := by
    intro err
    unfold IgnoreNotFound
    cases hn : err.notFound with
    | true =>
      simp only [if_true]
      constructor
      · intro h; cases h
      · rintro ⟨h1, h2⟩
        rw [h2, h1] at hn
        cases hn
    | false =>
      simp only [Bool.false_eq_true, if_false]
      constructor
      · intro h
        have := Option.some.inj h
        exact ⟨this ▸ hn, this⟩
      · rintro ⟨_, h2⟩
        rw [h2]
  unfold heartbeatPiece
  cases hp : w.patch i with
  | some err =>
    dsimp only
    rw [hig]
    constructor
    · rintro ⟨h1, h2⟩
      exact ⟨h1, Or.inl (by rw [h2])⟩
    · rintro ⟨h1, h2 | ⟨h2, _⟩⟩
      · exact ⟨h1, Option.some.inj h2⟩
      · cases h2
  | none =>
    cases hs : w.statusPatch i with
    | some err =>
      dsimp only
      rw [hig]
      constructor
      · rintro ⟨h1, h2⟩
        exact ⟨h1, Or.inr ⟨rfl, by rw [h2]⟩⟩
      · rintro ⟨h1, h2 | ⟨_, h2⟩⟩
        · cases h2
        · exact ⟨h1, Option.some.inj h2⟩
    | none =>
      have hnone : (if (!isHappy w.api.conditionSet (heartbeatUpdate w ids i m).Conditions) = true then
          match getCondition (heartbeatUpdate w ids i m).Conditions (gs "Ready") with
          | none =>
            ({ calls := [.patch (heartbeatUpdate w ids i m) m,
                  .statusPatch (heartbeatUpdate w ids i m) m], hbErr := none,
                queued := none, panic := some GoPanic.nilPointerDereference } : PieceResult)
          | some ready =>
            if timeSub (w.clockNow i) ready.LastTransitionTime > timeMinute * 6 then
              { calls := [.patch (heartbeatUpdate w ids i m) m,
                  .statusPatch (heartbeatUpdate w ids i m) m], hbErr := none,
                queued := some (heartbeatUpdate w ids i m), panic := none }
            else
              { calls := [.patch (heartbeatUpdate w ids i m) m,
                  .statusPatch (heartbeatUpdate w ids i m) m], hbErr := none,
                queued := none, panic := none }
        else
          { calls := [.patch (heartbeatUpdate w ids i m) m,
              .statusPatch (heartbeatUpdate w ids i m) m], hbErr := none,
            queued := none, panic := none }).hbErr = none := by
        split
        · split
          · rfl
          · split <;> rfl
        · rfl
      dsimp only
      rw [hnone]
      constructor
      · intro h; cases h
      · rintro ⟨_, h | ⟨_, h⟩⟩ <;> cases h

/-- The pieces of the first fan-out, by position. -/
theorem mem_heartbeatPieces (w : World) (ids : List GoString) (l : List Machine) (k : Nat)
    (p : PieceResult) :
    p ∈ heartbeatPieces w ids k l ↔
      ∃ j m, l[j]? = some m ∧ p = heartbeatPiece w ids (k + j) m := by
  induction l generalizing k with
  | nil => simp [heartbeatPieces]
  | cons a rest ih =>
    simp only [heartbeatPieces, List.mem_cons, ih]
    constructor
    · rintro (h | ⟨j, m, hj, hp⟩)
      · exact ⟨0, a, by simp, by simpa using h⟩
      · exact ⟨j + 1, m, by simpa using hj, by rw [hp]; congr 1; omega⟩
    · rintro ⟨j, m, hj, hp⟩
      cases j with
      | zero =>
        left
        simp only [List.getElem?_cons_zero, Option.some.injEq] at hj
        rw [hp, hj]; rfl
      | succ j =>
        right
        exact ⟨j, m, by simpa using hj, by rw [hp]; congr 1; omega⟩

/-- The pieces of the second fan-out, by position. -/
theorem mem_deletePieces (w : World) (l : List Machine) (k : Nat)
    (x : ClientCall × Option GoError) :
    x ∈ deletePieces w k l ↔
      ∃ j m, l[j]? = some m ∧
        x = (ClientCall.delete m,
          match w.delete (k + j) with
          | some err => IgnoreNotFound err
          | none => none) := by
  induction l generalizing k with
  | nil => simp [deletePieces]
  | cons a rest ih =>
    simp only [deletePieces, List.mem_cons, ih]
    constructor
    · rintro (h | ⟨j, m, hj, hp⟩)
      · exact ⟨0, a, by simp, by simpa using h⟩
      · refine ⟨j + 1, m, by simpa using hj, ?_⟩
        rw [hp]
        have : k + 1 + j = k + (j + 1) := by omega
        rw [this]
    · rintro ⟨j, m, hj, hp⟩
      cases j with
      | zero =>
        left
        simp only [List.getElem?_cons_zero, Option.some.injEq] at hj
        rw [hp, hj]; rfl
      | succ j =>
        right
        refine ⟨j, m, by simpa using hj, ?_⟩
        rw [hp]
        have : k + 1 + j = k + (j + 1) := by omega
        rw [this]

/-- A pass in which both listings succeed, spelled out. -/
theorem reconcile_listed (w : World) (items cloud : List Machine)
    (hl : w.listMachines = .ok items) (hc : w.listCloudProvider = .ok cloud) :
    Reconcile w =
      { result := { RequeueAfter := timeMinute * 2 }
        err := multierrCombine
          ((deletePieces w 0 ((heartbeatPieces w (cloudProviderProviderIDsOf cloud) 0
              (hbMachinesOf w items)).filterMap (fun p => p.queued))).map (fun d => d.2) ++
            (heartbeatPieces w (cloudProviderProviderIDsOf cloud) 0
              (hbMachinesOf w items)).map (fun p => p.hbErr))
        calls := (heartbeatPieces w (cloudProviderProviderIDsOf cloud) 0
            (hbMachinesOf w items)).flatMap (fun p => p.calls) ++
          (deletePieces w 0 ((heartbeatPieces w (cloudProviderProviderIDsOf cloud) 0
              (hbMachinesOf w items)).filterMap (fun p => p.queued))).map (fun d => d.1)
        deletedMachines := (heartbeatPieces w (cloudProviderProviderIDsOf cloud) 0
            (hbMachinesOf w items)).filterMap (fun p => p.queued)
        panic := (heartbeatPieces w (cloudProviderProviderIDsOf cloud) 0
            (hbMachinesOf w items)).findSome? (fun p => p.panic) } := by
  simp only [Reconcile, hl, hc]

/-- `Reconcile` never panics. -/
theorem reconcile_panic (w : World) : (Reconcile w).panic = none := by
  unfold Reconcile
  cases w.listMachines with
  | error e => rfl
  | ok items =>
    cases w.listCloudProvider with
    | error e => rfl
    | ok cloud =>
      dsimp only
      rw [List.findSome?_eq_none_iff]
      intro p hp
      obtain ⟨j, m, _, hpm⟩ := (mem_heartbeatPieces _ _ _ _ _).mp hp
      rw [hpm]
      exact heartbeatPiece_panic _ _ _ _

theorem getElem?_heartbeatPieces (w : World) (ids : List GoString) (l : List Machine)
    (k j : Nat) :
    (heartbeatPieces w ids k l)[j]? = (l[j]?).map (heartbeatPiece w ids (k + j)) := by
  induction l generalizing k j with
  | nil => simp [heartbeatPieces]
  | cons a rest ih =>
    cases j with
    | zero => simp [heartbeatPieces]
    | succ j =>
      simp only [heartbeatPieces, List.getElem?_cons_succ, ih]
      have : k + 1 + j = k + (j + 1) := by omega
      rw [this]

theorem length_heartbeatPieces (w : World) (ids : List GoString) (l : List Machine) (k : Nat) :
    (heartbeatPieces w ids k l).length = l.length := by
  induction l generalizing k with
  | nil => rfl
  | cons a rest ih => simp [heartbeatPieces, ih]

/-- The aggregate status of a machine is the status of its `Ready` condition. -/
theorem isHappy_machine (api : MachineAPI) (cs : List Condition) :
    isHappy api.conditionSet cs = isTrue (getCondition cs (gs "Ready")) := rfl

/-! ## The garbage-collection rule of one piece -/

/-- The rule by which the work on one record decides to queue it: in a pass
where both listings succeed, the piece of an eligible record whose `Patch` and
status `Patch` succeed reaches the append of the updated record exactly when
its `Ready` condition, which is its aggregate status, is not true and the time
the controller's clock gives since that condition's last transition is more
than six minutes; at exactly six minutes it does not. In the runs `Reconcile`
stands for, where pieces do not overlap, the deletion set is what the pieces
queued. -/
theorem queued_iff_unhappy_and_overdue (w : World) (items cloud : List Machine)
    (hl : w.listMachines = .ok items) (hc : w.listCloudProvider = .ok cloud)
    (i : Nat) (m : Machine) (hm : (hbMachinesOf w items)[i]? = some m)
    (hp : w.patch i = none) (hs : w.statusPatch i = none) :
    (Reconcile w).deletedMachines =
      (heartbeatPieces w (cloudProviderProviderIDsOf cloud) 0
        (hbMachinesOf w items)).filterMap (fun p => p.queued) ∧
    (heartbeatPieces w (cloudProviderProviderIDsOf cloud) 0 (hbMachinesOf w items))[i]? =
      some (heartbeatPiece w (cloudProviderProviderIDsOf cloud) i m) ∧
    ∃ ready,
      getCondition (heartbeatUpdate w (cloudProviderProviderIDsOf cloud) i m).Conditions
        (gs "Ready") = some ready ∧
      isHappy w.api.conditionSet
        (heartbeatUpdate w (cloudProviderProviderIDsOf cloud) i m).Conditions =
        (ready.Status == gs "True") ∧
      ((heartbeatPiece w (cloudProviderProviderIDsOf cloud) i m).queued =
          some (heartbeatUpdate w (cloudProviderProviderIDsOf cloud) i m) ↔
        ready.Status ≠ gs "True" ∧
          timeSub (w.clockNow i) ready.LastTransitionTime > timeMinute * 6) ∧
      ((heartbeatPiece w (cloudProviderProviderIDsOf cloud) i m).queued = none ↔
        ¬ (ready.Status ≠ gs "True" ∧
          timeSub (w.clockNow i) ready.LastTransitionTime > timeMinute * 6)) ∧
      (timeSub (w.clockNow i) ready.LastTransitionTime = timeMinute * 6 →
        (heartbeatPiece w (cloudProviderProviderIDsOf cloud) i m).queued = none) := by
  refine ⟨by rw [reconcile_listed w items cloud hl hc], ?_, ?_⟩
  · rw [getElem?_heartbeatPieces, hm, Option.map_some', Nat.zero_add]
  · generalize cloudProviderProviderIDsOf cloud = ids
    have hsome := heartbeatUpdate_ready_isSome w ids i m
    cases hget : getCondition (heartbeatUpdate w ids i m).Conditions (gs "Ready") with
    | none => rw [hget] at hsome; cases hsome
    | some ready =>
      have hhappy : isHappy w.api.conditionSet (heartbeatUpdate w ids i m).Conditions =
          (ready.Status == gs "True") := by
        rw [isHappy_machine, hget]; rfl
      have hq : (heartbeatPiece w ids i m).queued =
          if ready.Status ≠ gs "True" ∧
              timeSub (w.clockNow i) ready.LastTransitionTime > timeMinute * 6 then
            some (heartbeatUpdate w ids i m) else none := by
        unfold heartbeatPiece
        simp only [hp, hs, hhappy, hget]
        by_cases h1 : ready.Status = gs "True"
        · simp [h1]
        · by_cases h2 : timeSub (w.clockNow i) ready.LastTransitionTime > timeMinute * 6
          · simp [h1, h2]
          · simp [h1, h2]
      refine ⟨ready, rfl, hhappy, ?_, ?_, ?_⟩
      · rw [hq]
        by_cases hcnd : ready.Status ≠ gs "True" ∧
            timeSub (w.clockNow i) ready.LastTransitionTime > timeMinute * 6
        · rw [if_pos hcnd]
          exact ⟨fun _ => hcnd, fun _ => rfl⟩
        · rw [if_neg hcnd]
          exact ⟨fun h => (by cases h), fun h => absurd h hcnd⟩
      · rw [hq]
        by_cases hcnd : ready.Status ≠ gs "True" ∧
            timeSub (w.clockNow i) ready.LastTransitionTime > timeMinute * 6
        · rw [if_pos hcnd]
          exact ⟨fun h => (by cases h), fun h => absurd hcnd h⟩
        · rw [if_neg hcnd]
          exact ⟨fun _ => hcnd, fun _ => rfl⟩
      · intro h6
        rw [hq, if_neg]
        rintro ⟨_, h2⟩
        rw [h6] at h2
        exact absurd h2 (lt_irrefl _)

/-- An instance of the rule: a record marked not ready at instant 1000 and
absent from the inventory is not queued by the pass at six minutes past 1000
and is queued by the pass one nanosecond later. -/
theorem queued_iff_unhappy_and_overdue_witness :
    (Reconcile (samplePass (1000 + timeMinute * 6) [staleMachine] [])).deletedMachines = [] ∧
      ((Reconcile (samplePass (1001 + timeMinute * 6) [staleMachine] [])).deletedMachines.map
        (fun d => d.Name)) = [gs "m-stale"] :=
  ⟨((queued_iff_unhappy_and_overdue (samplePass (1000 + timeMinute * 6) [staleMachine] [])
      [staleMachine] [] rfl rfl 0 staleMachine (by decide) rfl rfl).1).trans (by decide),
   by decide⟩

/-! ## The heartbeat and the readiness condition (C12, C13, C18) -/

/-- C12, at the failing input: a launched machine whose node has not registered
is eligible and in the inventory, and after the update, which the source
comments with "If the machine was not ready, it becomes ready after getting
the heartbeat", its `Ready` condition is false, with the reason of the
unregistered dependent. -/
theorem heartbeat_leaves_ready_false :
    unregisteredMachine ∈
        hbMachinesOf (samplePass 5000 [unregisteredMachine] [unregisteredMachine])
          [unregisteredMachine] ∧
      (cloudProviderProviderIDsOf [unregisteredMachine]).contains
        unregisteredMachine.ProviderID = true ∧
      (getCondition (heartbeatUpdate
          (samplePass 5000 [unregisteredMachine] [unregisteredMachine])
          (cloudProviderProviderIDsOf [unregisteredMachine]) 0
          unregisteredMachine).Conditions (gs "Ready")).map (fun c => (c.Status, c.Reason)) =
        some (gs "False", gs "NodeNotFound") := by
  decide

/-- What the update does to a record in the inventory: for every record with
at most one `Ready` condition whose
provider ID is in the inventory set, the updated record has the annotations of
the stored record (an empty map if it had none) with `NodeHeartBeatTimeStamp`
set to the rendering of the current wall-clock time, whatever its conditions
were; its `Ready` condition is true when no dependent condition is unhappy,
and otherwise has the status of the unhappy dependent, which is not true. -/
theorem heartbeat_of_present (w : World) (ids : List GoString) (i : Nat) (m : Machine)
    (hin : ids.contains m.ProviderID = true)
    (huniq : atMostOneOfType (gs "Ready") m.Conditions) :
    (∃ a, (heartbeatUpdate w ids i m).Annotations = some a ∧
      a.get NodeHeartBeatAnnotationKey = some (w.marshalJSON (w.wallHeartbeat i)) ∧
      ∀ k, k ≠ NodeHeartBeatAnnotationKey →
        a.get k = (match m.Annotations with
          | none => none
          | some stored => stored.get k)) ∧
    ∃ ready,
      getCondition (heartbeatUpdate w ids i m).Conditions (gs "Ready") = some ready ∧
      (findUnhappyDependent w.api.conditionSet m.Conditions = none →
        ready.Status = gs "True") ∧
      (∀ c, findUnhappyDependent w.api.conditionSet m.Conditions = some c →
        ready.Status = c.Status ∧ ready.Status ≠ gs "True") := by
  rw [heartbeatUpdate_present w ids i m hin]
  constructor
  · refine ⟨_, rfl, ?_, ?_⟩
    · rw [GoMap.get_set, if_pos rfl]
    · intro k hk
      rw [GoMap.get_set, if_neg hk]
      cases m.Annotations with
      | none => rfl
      | some stored => rfl
  · obtain ⟨r, hget, hnone, hsome⟩ := getCondition_markTrue_ready w.api.conditionSet
      (happy_newLivingConditionSet _) (w.wallMark i) (w.wallRecompute i) m.Conditions huniq
    have hstat := findUnhappyDependent_status w.api.conditionSet m.Conditions
    refine ⟨r, hget, fun h => hnone ?_, fun c h => ?_⟩
    · rw [← hstat, h]; rfl
    · have hs : unhappyStatus w.api.conditionSet m.Conditions = some c.Status := by
        rw [← hstat, h]; rfl
      refine ⟨(hsome _ hs).1, ?_⟩
      rw [(hsome _ hs).1]
      rcases unhappyStatus_ne_true _ _ _ hs with h1 | h1
      · rw [h1]; exact gs_true_ne_false.symm
      · rw [h1]; exact gs_true_ne_unknown.symm

/-- An instance: the healthy machine gets the heartbeat and ends ready. -/
theorem heartbeat_of_present_witness :
    ([gs "azure:///vm-healthy"].contains healthyMachine.ProviderID = true ∧
        atMostOneOfType (gs "Ready") healthyMachine.Conditions ∧
        findUnhappyDependent karpenterAPI.conditionSet healthyMachine.Conditions = none) ∧
      ∃ ready,
        getCondition (heartbeatUpdate (samplePass 5000 [] []) [gs "azure:///vm-healthy"] 0
          healthyMachine).Conditions (gs "Ready") = some ready ∧
        ready.Status = gs "True" :=
  ⟨by decide,
   match (heartbeat_of_present (samplePass 5000 [] []) [gs "azure:///vm-healthy"] 0
      healthyMachine (by decide) (by decide)).2 with
   | ⟨ready, hget, hnone, _⟩ => ⟨ready, hget, hnone (by decide)⟩⟩

/-- C13: for every record with at most one `Ready` condition whose provider ID
is not in the inventory set, the updated record differs from the stored one in
its conditions only, so its annotations, the heartbeat among them, are those of
the stored record, and its `Ready` condition is false with the reason
`NodeNotReady`. -/
theorem notReady_of_absent (w : World) (ids : List GoString) (i : Nat) (m : Machine)
    (hout : ids.contains m.ProviderID = false)
    (huniq : atMostOneOfType (gs "Ready") m.Conditions) :
    heartbeatUpdate w ids i m =
      { m with Conditions := (heartbeatUpdate w ids i m).Conditions } ∧
    (heartbeatUpdate w ids i m).Annotations = m.Annotations ∧
    ∃ ready,
      getCondition (heartbeatUpdate w ids i m).Conditions (gs "Ready") = some ready ∧
      ready.Status = gs "False" ∧ ready.Reason = gs "NodeNotReady" ∧
      ready.Message = gs "Node status is NotReady" := by
  rw [heartbeatUpdate_absent w ids i m hout]
  refine ⟨rfl, rfl, ?_⟩
  simp only [MachineAPI.conditionSet, markFalse_ready]
  obtain ⟨c, hget, hc, _, _⟩ := getCondition_setCondition (w.wallMark i) m.Conditions
    { CondType := gs "Ready", Status := gs "False", Reason := gs "NodeNotReady",
      Message := gs "Node status is NotReady",
      Severity := severity (NewLivingConditionSet w.api.LivingConditions) (gs "Ready") } huniq
  exact ⟨c, hget, by rw [hc], by rw [hc], by rw [hc]⟩

/-- Witness for C13: the record marked not ready before keeps its old heartbeat
annotation, and its `Ready` condition stays false with its transition time. -/
theorem notReady_of_absent_witness :
    (heartbeatUpdate (samplePass 5000 [] []) [] 0 staleMachine).Annotations =
        some (GoMap.ofList [(gs "NodeHeartBeatTimeStamp", gs "old")]) ∧
      (getCondition (heartbeatUpdate (samplePass 5000 [] []) [] 0 staleMachine).Conditions
        (gs "Ready")).map (fun c => (c.Status, c.Reason, c.LastTransitionTime)) =
        some (gs "False", gs "NodeNotReady", 1000) :=
  ⟨(notReady_of_absent (samplePass 5000 [] []) [] 0 staleMachine (by decide) (by decide)).2.1,
   by decide⟩

/-- C18, at the failing input: the machine is in the inventory, its node has
not registered, and the controller's clock is read seven minutes after the
wall clock that stamped the `Ready` condition in this pass; the pass puts the
machine in the deletion set, though its cloud instance is there. -/
theorem present_record_deleted_under_clock_skew :
    (cloudProviderProviderIDsOf [unregisteredMachine]).contains
        unregisteredMachine.ProviderID = true ∧
      (Reconcile skewedClockPass).deletedMachines.map (fun d => d.Name) =
        [gs "m-unregistered"] := by
  decide

/-- When a record in the inventory can be queued: a record with at most one
`Ready` condition whose provider ID
is in the inventory set is queued for deletion only if one of its dependent
conditions is unhappy and the controller's clock is more than six minutes past
the wall-clock time at which the pass wrote its `Ready` condition. So it is
never queued when no dependent is unhappy, however old its `Ready` condition
was, and never when the two clocks are within six minutes. -/
theorem present_record_queued_only_if (w : World) (ids : List GoString) (i : Nat) (m : Machine)
    (hin : ids.contains m.ProviderID = true)
    (huniq : atMostOneOfType (gs "Ready") m.Conditions) :
    ((heartbeatPiece w ids i m).queued ≠ none →
      findUnhappyDependent w.api.conditionSet m.Conditions ≠ none ∧
        timeSub (w.clockNow i) (w.wallRecompute i) > timeMinute * 6) ∧
    (findUnhappyDependent w.api.conditionSet m.Conditions = none →
      (heartbeatPiece w ids i m).queued = none) ∧
    (timeSub (w.clockNow i) (w.wallRecompute i) ≤ timeMinute * 6 →
      (heartbeatPiece w ids i m).queued = none) := by
  have key : (heartbeatPiece w ids i m).queued ≠ none →
      findUnhappyDependent w.api.conditionSet m.Conditions ≠ none ∧
        timeSub (w.clockNow i) (w.wallRecompute i) > timeMinute * 6 := by
    intro hq
    obtain ⟨r, hget, hnone, hsome⟩ := getCondition_markTrue_ready w.api.conditionSet
      (happy_newLivingConditionSet _) (w.wallMark i) (w.wallRecompute i) m.Conditions huniq
    have hstat := findUnhappyDependent_status w.api.conditionSet m.Conditions
    have hupd : (heartbeatUpdate w ids i m).Conditions =
        markTrue w.api.conditionSet (w.wallMark i) (w.wallRecompute i) m.Conditions
          (gs "Ready") := by
      rw [heartbeatUpdate_present w ids i m hin]
    unfold heartbeatPiece at hq
    cases hp : w.patch i with
    | some err => rw [hp] at hq; exact absurd rfl hq
    | none =>
      cases hs : w.statusPatch i with
      | some err => rw [hp, hs] at hq; exact absurd rfl hq
      | none =>
        rw [hp, hs] at hq
        simp only [isHappy_machine, hupd, hget] at hq
        cases hf : findUnhappyDependent w.api.conditionSet m.Conditions with
        | none =>
          have hr : r.Status = gs "True" := hnone (by rw [← hstat, hf]; rfl)
          simp [isTrue, hr] at hq
        | some c =>
          have hs2 := hsome c.Status (by rw [← hstat, hf]; rfl)
          refine ⟨by simp, ?_⟩
          rw [← hs2.2]
          by_contra hle
          simp [hle] at hq
  refine ⟨key, fun h => ?_, fun h => ?_⟩
  · by_contra hq
    exact (key hq).1 h
  · by_contra hq
    exact absurd (key hq).2 (not_lt.mpr h)

/-- An instance: the record marked not ready more than six minutes ago is
back in the inventory, and the pass does not queue it. -/
theorem present_record_queued_only_if_witness :
    ([gs "azure:///vm-gone"].contains staleMachine.ProviderID = true ∧
        atMostOneOfType (gs "Ready") staleMachine.Conditions) ∧
      (heartbeatPiece (samplePass (1001 + timeMinute * 6) [staleMachine] [])
        [gs "azure:///vm-gone"] 0 staleMachine).queued = none :=
  ⟨by decide,
   (present_record_queued_only_if (samplePass (1001 + timeMinute * 6) [staleMachine] [])
      [gs "azure:///vm-gone"] 0 staleMachine (by decide) (by decide)).2.1 (by decide)⟩

/-! ## Rescheduling and failures (C14, C15, C16, C17) -/

/-- C14, as stated, fails: when listing the desired-state records fails,
`Reconcile` returns the zero `Result`, whose `RequeueAfter` is 0, not two
minutes. -/
theorem reconcile_listing_failure_requeueAfter_zero :
    (Reconcile failedListingPass).result.RequeueAfter = 0 ∧
      (Reconcile failedListingPass).err = [{ notFound := false, message := gs "timeout" }] ∧
      timeMinute * 2 ≠ 0 := by
  decide

/-- C14, amended: `Reconcile` always returns. When both listings succeed its
result has `RequeueAfter` of two minutes, whatever the calls on the store come
to; when a listing fails it returns the zero `Result` together with the error
of the listing. -/
theorem reconcile_requeueAfter (w : World) :
    (Reconcile w).panic = none ∧
    (∀ items cloud, w.listMachines = .ok items → w.listCloudProvider = .ok cloud →
      (Reconcile w).result = { Requeue := false, RequeueAfter := timeMinute * 2 }) ∧
    (∀ e, w.listMachines = .error e →
      (Reconcile w).result = { Requeue := false, RequeueAfter := 0 } ∧ (Reconcile w).err = [e]) ∧
    (∀ items e, w.listMachines = .ok items → w.listCloudProvider = .error e →
      (Reconcile w).result = { Requeue := false, RequeueAfter := 0 } ∧
        (Reconcile w).err = [e]) := by
  refine ⟨reconcile_panic w, ?_, ?_, ?_⟩
  · intro items cloud hl hc
    rw [reconcile_listed w items cloud hl hc]
  · intro e hl
    simp [Reconcile, hl]
  · intro items e hl hc
    simp [Reconcile, hl, hc]

/-- Witness for C14: a pass in which a `Patch` fails is still rescheduled after
two minutes. -/
theorem reconcile_requeueAfter_witness :
    (Reconcile secondPatchFailsPass).err ≠ [] ∧
      (Reconcile secondPatchFailsPass).result.RequeueAfter = 120000000000 :=
  ⟨by decide,
   (congrArg Result.RequeueAfter
      ((reconcile_requeueAfter secondPatchFailsPass).2.1 _ _ rfl rfl)).trans (by decide)⟩

/-- C15: when listing the desired-state records fails, or listing the cloud
inventory fails, `Reconcile` returns that error, makes no call on the store and
queues nothing. -/
theorem reconcile_listing_failure (w : World) (e : GoError) :
    (w.listMachines = .error e →
      (Reconcile w).err = [e] ∧ (Reconcile w).calls = [] ∧
        (Reconcile w).deletedMachines = [] ∧ (Reconcile w).panic = none) ∧
    (∀ items, w.listMachines = .ok items → w.listCloudProvider = .error e →
      (Reconcile w).err = [e] ∧ (Reconcile w).calls = [] ∧
        (Reconcile w).deletedMachines = [] ∧ (Reconcile w).panic = none) := by
  constructor
  · intro hl
    simp [Reconcile, hl]
  · intro items hl hc
    simp [Reconcile, hl, hc]

/-- Witness for C15: the pass whose first listing times out. -/
theorem reconcile_listing_failure_witness :
    (Reconcile failedListingPass).err = [{ notFound := false, message := gs "timeout" }] ∧
      (Reconcile failedListingPass).calls = [] :=
  ⟨((reconcile_listing_failure failedListingPass
      { notFound := false, message := gs "timeout" }).1 rfl).1,
   ((reconcile_listing_failure failedListingPass
      { notFound := false, message := gs "timeout" }).1 rfl).2.1⟩

theorem mem_multierrCombine (errs : List (Option GoError)) (e : GoError) :
    e ∈ multierrCombine errs ↔ some e ∈ errs := by
  simp [multierrCombine, List.mem_filterMap]

/-- C16: in a pass where both listings succeed, every eligible record gets its
`Patch`, and its status `Patch` when the `Patch` succeeded, whatever happens to
the other records, and every queued record gets its `Delete`. The returned
error holds exactly the failures of `Delete` and the first failures of the
patches that are not not-found errors; it is nil exactly when every such
failure is a not-found error. -/
theorem per_record_failures_isolated (w : World) (items cloud : List Machine)
    (hl : w.listMachines = .ok items) (hc : w.listCloudProvider = .ok cloud) :
    (∀ i m, (hbMachinesOf w items)[i]? = some m →
      ClientCall.patch (heartbeatUpdate w (cloudProviderProviderIDsOf cloud) i m) m ∈
        (Reconcile w).calls ∧
      (w.patch i = none →
        ClientCall.statusPatch (heartbeatUpdate w (cloudProviderProviderIDsOf cloud) i m) m ∈
          (Reconcile w).calls)) ∧
    (∀ d ∈ (Reconcile w).deletedMachines, ClientCall.delete d ∈ (Reconcile w).calls) ∧
    (∀ e, e ∈ (Reconcile w).err ↔
      e.notFound = false ∧
        ((∃ j, j < (Reconcile w).deletedMachines.length ∧ w.delete j = some e) ∨
         (∃ i, i < (hbMachinesOf w items).length ∧
            (w.patch i = some e ∨ (w.patch i = none ∧ w.statusPatch i = some e))))) ∧
    ((Reconcile w).err = [] ↔
      (∀ j e, j < (Reconcile w).deletedMachines.length → w.delete j = some e →
        e.notFound = true) ∧
      (∀ i e, i < (hbMachinesOf w items).length →
        (w.patch i = some e ∨ (w.patch i = none ∧ w.statusPatch i = some e)) →
        e.notFound = true)) := by
  have herr : ∀ e, e ∈ (Reconcile w).err ↔
      e.notFound = false ∧
        ((∃ j, j < (Reconcile w).deletedMachines.length ∧ w.delete j = some e) ∨
         (∃ i, i < (hbMachinesOf w items).length ∧
            (w.patch i = some e ∨ (w.patch i = none ∧ w.statusPatch i = some e)))) := by
    intro e
    rw [reconcile_listed w items cloud hl hc]
    dsimp only
    generalize cloudProviderProviderIDsOf cloud = ids
    generalize hD : (heartbeatPieces w ids 0 (hbMachinesOf w items)).filterMap
      (fun p => p.queued) = D
    rw [mem_multierrCombine, List.mem_append, List.mem_map, List.mem_map]
    constructor
    · rintro (⟨x, hx, hxe⟩ | ⟨p, hp, hpe⟩)
      · obtain ⟨j, d, hj, hxd⟩ := (mem_deletePieces w D 0 x).mp hx
        rw [hxd, Nat.zero_add] at hxe
        dsimp only at hxe
        have hjlt : j < D.length := (List.getElem?_eq_some_iff.mp hj).1
        cases hdel : w.delete j with
        | none => rw [hdel] at hxe; cases hxe
        | some err =>
          rw [hdel] at hxe
          dsimp only at hxe
          unfold IgnoreNotFound at hxe
          cases hn : err.notFound with
          | true => rw [hn] at hxe; cases hxe
          | false =>
            rw [hn] at hxe
            simp only [Bool.false_eq_true, if_false, Option.some.injEq] at hxe
            rw [← hxe]
            exact ⟨hn, Or.inl ⟨j, hjlt, hdel⟩⟩
      · obtain ⟨i, m, hi, hpm⟩ := (mem_heartbeatPieces w ids _ 0 p).mp hp
        rw [hpm, Nat.zero_add] at hpe
        have hilt : i < (hbMachinesOf w items).length := (List.getElem?_eq_some_iff.mp hi).1
        obtain ⟨h1, h2⟩ := (heartbeatPiece_hbErr w ids i m e).mp hpe
        exact ⟨h1, Or.inr ⟨i, hilt, h2⟩⟩
    · rintro ⟨hnf, ⟨j, hj, hdel⟩ | ⟨i, hi, hpatch⟩⟩
      · left
        refine ⟨(ClientCall.delete (D.get ⟨j, hj⟩), some e), ?_, rfl⟩
        rw [mem_deletePieces]
        refine ⟨j, D.get ⟨j, hj⟩, List.getElem?_eq_getElem hj, ?_⟩
        rw [Nat.zero_add, hdel]
        simp [IgnoreNotFound, hnf]
      · right
        refine ⟨heartbeatPiece w ids i ((hbMachinesOf w items).get ⟨i, hi⟩), ?_, ?_⟩
        · rw [mem_heartbeatPieces]
          exact ⟨i, (hbMachinesOf w items).get ⟨i, hi⟩, List.getElem?_eq_getElem hi,
            by rw [Nat.zero_add]⟩
        · exact (heartbeatPiece_hbErr w ids i _ e).mpr ⟨hnf, hpatch⟩
  refine ⟨?_, ?_, herr, ?_⟩
  · intro i m hm
    have hmem : heartbeatPiece w (cloudProviderProviderIDsOf cloud) i m ∈
        heartbeatPieces w (cloudProviderProviderIDsOf cloud) 0 (hbMachinesOf w items) := by
      rw [mem_heartbeatPieces]
      exact ⟨i, m, hm, by rw [Nat.zero_add]⟩
    rw [reconcile_listed w items cloud hl hc]
    dsimp only
    constructor
    · rw [List.mem_append, List.mem_flatMap]
      left
      refine ⟨_, hmem, ?_⟩
      rw [heartbeatPiece_calls]
      split <;> simp
    · intro hp
      rw [List.mem_append, List.mem_flatMap]
      left
      refine ⟨_, hmem, ?_⟩
      rw [heartbeatPiece_calls, hp]
      simp
  · intro d hd
    rw [reconcile_listed w items cloud hl hc] at hd ⊢
    dsimp only at hd ⊢
    rw [List.mem_append, List.mem_map]
    right
    obtain ⟨j, hj⟩ := List.getElem?_of_mem hd
    refine ⟨(ClientCall.delete d,
      match w.delete (0 + j) with
      | some err => IgnoreNotFound err
      | none => none), ?_, rfl⟩
    rw [mem_deletePieces]
    exact ⟨j, d, hj, rfl⟩
  · rw [List.eq_nil_iff_forall_not_mem]
    constructor
    · intro h
      constructor
      · intro j e hj hdel
        cases hn : e.notFound with
        | true => rfl
        | false => exact absurd ((herr e).mpr ⟨hn, Or.inl ⟨j, hj, hdel⟩⟩) (h e)
      · intro i e hi hpatch
        cases hn : e.notFound with
        | true => rfl
        | false => exact absurd ((herr e).mpr ⟨hn, Or.inr ⟨i, hi, hpatch⟩⟩) (h e)
    · rintro ⟨h1, h2⟩ e he
      obtain ⟨hn, ⟨j, hj, hdel⟩ | ⟨i, hi, hpatch⟩⟩ := (herr e).mp he
      · rw [h1 j e hj hdel] at hn; cases hn
      · rw [h2 i e hi hpatch] at hn; cases hn

/-- Witness for C16: of five records the `Patch` of the second fails; the third
is patched all the same, and the returned error is the failure of the
second. -/
theorem per_record_failures_isolated_witness :
    ClientCall.patch
        (heartbeatUpdate secondPatchFailsPass (cloudProviderProviderIDsOf [healthyMachine]) 2
          { healthyMachine with Name := gs "m3" })
        { healthyMachine with Name := gs "m3" } ∈ (Reconcile secondPatchFailsPass).calls ∧
      ({ notFound := false, message := gs "conflict on m2" } : GoError) ∈
        (Reconcile secondPatchFailsPass).err ∧
      (Reconcile secondPatchFailsPass).err.length = 1 :=
  ⟨((per_record_failures_isolated secondPatchFailsPass _ _ rfl rfl).1 2
      { healthyMachine with Name := gs "m3" } (by decide)).1,
   ((per_record_failures_isolated secondPatchFailsPass _ _ rfl rfl).2.2.1
      { notFound := false, message := gs "conflict on m2" }).mpr
      ⟨rfl, Or.inr ⟨1, by decide, Or.inl rfl⟩⟩,
   by decide⟩

/-- C17: in a pass where both listings succeed, every call on the store and
every record of the deletion set comes from a listed record that is launched
and not marked for deletion, and bears its name. So a listed record that is
not launched, or is marked for deletion, and whose name no other listed record
bears, gets no `Patch`, no status `Patch` and no `Delete` and is not in the
deletion set. -/
theorem calls_only_on_eligible (w : World) (items cloud : List Machine)
    (hl : w.listMachines = .ok items) (hc : w.listCloudProvider = .ok cloud) :
    (∀ c ∈ (Reconcile w).calls, ∃ m ∈ items,
      isTrue (getCondition m.Conditions w.api.MachineLaunched) = true ∧
      isZeroTime m.DeletionTimestamp = true ∧ c.object.Name = m.Name) ∧
    (∀ d ∈ (Reconcile w).deletedMachines, ∃ m ∈ items,
      isTrue (getCondition m.Conditions w.api.MachineLaunched) = true ∧
      isZeroTime m.DeletionTimestamp = true ∧ d.Name = m.Name) ∧
    (∀ m' ∈ items,
      ¬ (isTrue (getCondition m'.Conditions w.api.MachineLaunched) = true ∧
          isZeroTime m'.DeletionTimestamp = true) →
      (∀ m ∈ items, m.Name = m'.Name → m = m') →
      (∀ c ∈ (Reconcile w).calls, c.object.Name ≠ m'.Name) ∧
      (∀ d ∈ (Reconcile w).deletedMachines, d.Name ≠ m'.Name)) := by
  have helig : ∀ (j : Nat) (m : Machine), (hbMachinesOf w items)[j]? = some m →
      m ∈ items ∧ isTrue (getCondition m.Conditions w.api.MachineLaunched) = true ∧
        isZeroTime m.DeletionTimestamp = true := by
    intro j m hj
    have hmem : m ∈ hbMachinesOf w items := List.getElem?_mem hj
    unfold hbMachinesOf at hmem
    rw [List.mem_filter, Bool.and_eq_true] at hmem
    exact ⟨hmem.1, hmem.2.1, hmem.2.2⟩
  have hdel : ∀ d ∈ (Reconcile w).deletedMachines, ∃ m ∈ items,
      isTrue (getCondition m.Conditions w.api.MachineLaunched) = true ∧
      isZeroTime m.DeletionTimestamp = true ∧ d.Name = m.Name := by
    intro d hd
    rw [reconcile_listed w items cloud hl hc] at hd
    dsimp only at hd
    rw [List.mem_filterMap] at hd
    obtain ⟨p, hp, hq⟩ := hd
    obtain ⟨j, m, hj, hpm⟩ := (mem_heartbeatPieces _ _ _ _ _).mp hp
    rw [hpm] at hq
    obtain ⟨hdu, _, _⟩ := heartbeatPiece_queued _ _ _ _ _ hq
    obtain ⟨h1, h2, h3⟩ := helig j m hj
    exact ⟨m, h1, h2, h3, by rw [hdu]; exact (heartbeatUpdate_identity _ _ _ _).1⟩
  have hcalls : ∀ c ∈ (Reconcile w).calls, ∃ m ∈ items,
      isTrue (getCondition m.Conditions w.api.MachineLaunched) = true ∧
      isZeroTime m.DeletionTimestamp = true ∧ c.object.Name = m.Name := by
    intro c hcm
    have hcm2 := hcm
    rw [reconcile_listed w items cloud hl hc] at hcm2
    dsimp only at hcm2
    rw [List.mem_append, List.mem_flatMap, List.mem_map] at hcm2
    rcases hcm2 with ⟨p, hp, hcp⟩ | ⟨x, hx, hxc⟩
    · obtain ⟨j, m, hj, hpm⟩ := (mem_heartbeatPieces _ _ _ _ _).mp hp
      obtain ⟨h1, h2, h3⟩ := helig j m hj
      refine ⟨m, h1, h2, h3, ?_⟩
      rw [hpm, heartbeatPiece_calls] at hcp
      have hname := (heartbeatUpdate_identity w (cloudProviderProviderIDsOf cloud) (0 + j) m).1
      split at hcp
      · rw [List.mem_singleton] at hcp
        rw [hcp]; exact hname
      · simp only [List.mem_cons, List.mem_singleton, List.not_mem_nil, or_false] at hcp
        rcases hcp with hcp | hcp <;> (rw [hcp]; exact hname)
    · obtain ⟨j, d, hj, hxd⟩ := (mem_deletePieces _ _ _ _).mp hx
      have hd : d ∈ (Reconcile w).deletedMachines := by
        rw [reconcile_listed w items cloud hl hc]
        dsimp only
        exact List.getElem?_mem hj
      obtain ⟨m, h1, h2, h3, h4⟩ := hdel d hd
      refine ⟨m, h1, h2, h3, ?_⟩
      rw [← hxc, hxd]
      exact h4
  refine ⟨hcalls, hdel, ?_⟩
  intro m' _ hnot huniq
  constructor
  · intro c hcm hname
    obtain ⟨m, hm, h1, h2, h3⟩ := hcalls c hcm
    have : m = m' := huniq m hm (h3.symm.trans hname)
    rw [this] at h1 h2
    exact hnot ⟨h1, h2⟩
  · intro d hd hname
    obtain ⟨m, hm, h1, h2, h3⟩ := hdel d hd
    have : m = m' := huniq m hm (h3.symm.trans hname)
    rw [this] at h1 h2
    exact hnot ⟨h1, h2⟩

/-- Witness for C17: the machine that has not been launched gets no call,
though its provider ID is in the inventory. -/
theorem calls_only_on_eligible_witness :
    pendingMachine ∈ [healthyMachine, pendingMachine] ∧
      ∀ c ∈ (Reconcile (samplePass 5000 [healthyMachine, pendingMachine]
          [healthyMachine])).calls, c.object.Name ≠ gs "m-pending" :=
  ⟨by decide,
   ((calls_only_on_eligible (samplePass 5000 [healthyMachine, pendingMachine] [healthyMachine])
      _ _ rfl rfl).2.2 pendingMachine (by decide) (by decide) (by decide)).1⟩

/-! ## The transition time of the `Ready` condition (C23) -/

/-- The `Ready` condition of a living condition set has severity `Error`. -/
theorem severity_ready (d : List GoString) :
    severity (NewLivingConditionSet d) (gs "Ready") = ConditionSeverityError := by
  simp only [severity, isTerminal, NewLivingConditionSet]
  simp [ConditionReady]

/-- `SetCondition` changes nothing when the condition is there already, up to
its transition time. -/
theorem setCondition_of_same (now : Time) (cs : List Condition) (cond c : Condition)
    (hc : c ∈ cs) (ht : c.CondType = cond.CondType)
    (he : { cond with LastTransitionTime := c.LastTransitionTime } = c) :
    setCondition now cs cond = cs := by
  rcases setCondition_cases now cs cond with ⟨heq, _⟩ | ⟨_, hno⟩
  · exact heq
  · exact absurd ⟨c, hc, ht, he⟩ hno

/-- `SetCondition` stamps the condition with the current time when the stored
condition of the type differs from it in more than the transition time. -/
theorem setCondition_of_other (now : Time) (cs : List Condition) (cond c : Condition)
    (huniq : atMostOneOfType cond.CondType cs)
    (hget : getCondition cs cond.CondType = some c)
    (hne : c ≠ { cond with LastTransitionTime := c.LastTransitionTime }) :
    ∃ r, getCondition (setCondition now cs cond) cond.CondType = some r ∧
      r.LastTransitionTime = now := by
  obtain ⟨r, hr, _, _, hnow⟩ := getCondition_setCondition now cs cond huniq
  refine ⟨r, hr, hnow ?_⟩
  rintro ⟨x, hx, hxt, hxe⟩
  have hcmem : c ∈ cs := List.mem_of_find?_eq_some hget
  have hct : c.CondType = cond.CondType := by
    have := List.find?_some (p := fun c : Condition => c.CondType == cond.CondType) hget
    simpa using this
  have hxc : x = c := eq_of_atMostOneOfType _ _ huniq x c hx hcmem hxt hct
  rw [hxc] at hxe
  exact hne hxe.symm

/-- `MarkTrue("Ready")` is one `SetCondition` when no dependent is unhappy. -/
theorem markTrue_ready_of_fine (set : ConditionSet) (hh : set.happy = gs "Ready")
    (now later : Time) (cs : List Condition) (h : unhappyStatus set cs = none) :
    markTrue set now later cs (gs "Ready") =
      setCondition now cs
        { CondType := gs "Ready", Status := gs "True", Severity := severity set (gs "Ready") } := by
  have hstat := unhappyStatus_setCondition_happy set now cs
    { CondType := gs "Ready", Status := gs "True", Severity := severity set (gs "Ready") }
    hh.symm
  have hfud := findUnhappyDependent_status set (setCondition now cs
    { CondType := gs "Ready", Status := gs "True", Severity := severity set (gs "Ready") })
  rw [hstat, h, Option.map_eq_none'] at hfud
  simp only [markTrue, recomputeHappiness, hfud, hh, bne_self_eq_false, Bool.false_eq_true,
    if_false]

/-- C23, as stated, fails: a record stored with `Ready` false since instant
1000, with another reason than `NodeNotReady`, is absent from the inventory in
a pass at instant 5000. It is marked false with the reason `NodeNotReady`: the
status is false before and after, only the reason changes, and the transition
time moves from 1000 to 5000. -/
theorem ready_transition_time_moves_without_flip :
    (getCondition notFoundMachine.Conditions (gs "Ready")).map
        (fun c => (c.Status, c.Reason, c.LastTransitionTime)) =
          some (gs "False", gs "NodeNotFound", 1000) ∧
      (cloudProviderProviderIDsOf []).contains notFoundMachine.ProviderID = false ∧
      (getCondition (heartbeatUpdate (samplePass 5000 [notFoundMachine] [])
          (cloudProviderProviderIDsOf []) 0
          notFoundMachine).Conditions (gs "Ready")).map
        (fun c => (c.Status, c.Reason, c.LastTransitionTime)) =
          some (gs "False", gs "NodeNotReady", 5000) := by
  decide

/-- C23, amended: for a record with one `Ready` condition, the pass leaves the
conditions, and so the transition time of `Ready`, as stored when the
condition it writes equals the stored one in status, reason, message and
severity, and stamps the wall-clock reading of the marking when the stored
condition differs in any of these, whether or not the status has changed.
For a record absent from the inventory the condition written is `Ready` false
with reason `NodeNotReady` and the message of the pass; for a record present
in it none of whose dependent conditions is unhappy it is `Ready` true without
reason or message. -/
theorem ready_transition_time (w : World) (ids : List GoString) (i : Nat) (m : Machine)
    (c : Condition) (hget : getCondition m.Conditions (gs "Ready") = some c)
    (huniq : atMostOneOfType (gs "Ready") m.Conditions) :
    (ids.contains m.ProviderID = false →
      (c = { CondType := gs "Ready", Status := gs "False", Reason := gs "NodeNotReady",
             Message := gs "Node status is NotReady", Severity := ConditionSeverityError,
             LastTransitionTime := c.LastTransitionTime } →
        (heartbeatUpdate w ids i m).Conditions = m.Conditions) ∧
      (c ≠ { CondType := gs "Ready", Status := gs "False", Reason := gs "NodeNotReady",
             Message := gs "Node status is NotReady", Severity := ConditionSeverityError,
             LastTransitionTime := c.LastTransitionTime } →
        ∃ r, getCondition (heartbeatUpdate w ids i m).Conditions (gs "Ready") = some r ∧
          r.LastTransitionTime = w.wallMark i)) ∧
    (ids.contains m.ProviderID = true →
      (findUnhappyDependent w.api.conditionSet m.Conditions = none →
        (c = { CondType := gs "Ready", Status := gs "True", Severity := ConditionSeverityError,
               LastTransitionTime := c.LastTransitionTime } →
          (heartbeatUpdate w ids i m).Conditions = m.Conditions) ∧
        (c ≠ { CondType := gs "Ready", Status := gs "True", Severity := ConditionSeverityError,
               LastTransitionTime := c.LastTransitionTime } →
          ∃ r, getCondition (heartbeatUpdate w ids i m).Conditions (gs "Ready") = some r ∧
            r.LastTransitionTime = w.wallMark i))) := by
  have hcmem : c ∈ m.Conditions := List.mem_of_find?_eq_some hget
  have hct : c.CondType = gs "Ready" := by
    have := List.find?_some (p := fun c : Condition => c.CondType == gs "Ready") hget
    simpa using this
  constructor
  · intro hout
    rw [heartbeatUpdate_absent w ids i m hout]
    simp only [MachineAPI.conditionSet, markFalse_ready, severity_ready]
    constructor
    · intro he
      exact setCondition_of_same _ _ _ c hcmem hct he.symm
    · intro hne
      exact setCondition_of_other (w.wallMark i) m.Conditions
        { CondType := gs "Ready", Status := gs "False", Reason := gs "NodeNotReady",
          Message := gs "Node status is NotReady", Severity := ConditionSeverityError } c
        huniq hget hne
  · intro hin
    rw [heartbeatUpdate_present w ids i m hin]
    have hh : w.api.conditionSet.happy = gs "Ready" := happy_newLivingConditionSet _
    have hfs := findUnhappyDependent_status w.api.conditionSet m.Conditions
    intro hnone
    rw [hnone, Option.map_none'] at hfs
    simp only [markTrue_ready_of_fine w.api.conditionSet hh _ _ _ hfs.symm]
    simp only [MachineAPI.conditionSet, severity_ready]
    constructor
    · intro he
      exact setCondition_of_same _ _ _ c hcmem hct he.symm
    · intro hne
      exact setCondition_of_other (w.wallMark i) m.Conditions
        { CondType := gs "Ready", Status := gs "True", Severity := ConditionSeverityError } c
        huniq hget hne

/-- Witness for C23: the record marked not ready at instant 1000 is absent from
the inventory again at instant 5000, and its conditions stay as stored. -/
theorem ready_transition_time_witness :
    getCondition staleMachine.Conditions (gs "Ready") =
        some { CondType := gs "Ready", Status := gs "False", Reason := gs "NodeNotReady",
               Message := gs "Node status is NotReady", LastTransitionTime := 1000 } ∧
      (heartbeatUpdate (samplePass 5000 [staleMachine] []) [] 0 staleMachine).Conditions =
        staleMachine.Conditions :=
  ⟨by decide,
   ((ready_transition_time (samplePass 5000 [staleMachine] []) [] 0 staleMachine
      { CondType := gs "Ready", Status := gs "False", Reason := gs "NodeNotReady",
        Message := gs "Node status is NotReady", LastTransitionTime := 1000 }
      (by decide) (by decide)).1 (by decide)).1 (by decide)⟩

/-! ## The inventory set (C24) -/

/-- Membership in the inventory set. -/
theorem mem_cloudProviderProviderIDsOf (cloud : List Machine) (pid : GoString) :
    (cloudProviderProviderIDsOf cloud).contains pid = true ↔
      ∃ cm ∈ cloud, isZeroTime cm.DeletionTimestamp = true ∧ cm.ProviderID = pid := by
  simp only [cloudProviderProviderIDsOf, List.contains_iff_exists_mem_beq, List.mem_map,
    List.mem_filter, beq_iff_eq]
  constructor
  · rintro ⟨x, ⟨cm, ⟨hcm, hz⟩, hx⟩, hp⟩
    exact ⟨cm, hcm, hz, hx.trans hp.symm⟩
  · rintro ⟨cm, hcm, hz, hp⟩
    exact ⟨pid, ⟨cm, ⟨hcm, hz⟩, hp⟩, rfl⟩

/-- C24: the inventory set a pass decides liveness with holds exactly the
provider IDs of the cloud-listed machines whose deletion timestamp is zero.
A record is treated as present (heartbeat written, `Ready` marked true) when
its stored provider ID is the provider ID of a cloud-listed machine not marked
for deletion, and as absent (`Ready` marked false with `NodeNotReady`, nothing
else changed) otherwise, so also when only deletion-marked cloud machines bear
its provider ID. -/
theorem inventory_presence (w : World) (cloud : List Machine) (i : Nat) (m : Machine) :
    (∀ pid, (cloudProviderProviderIDsOf cloud).contains pid = true ↔
      ∃ cm ∈ cloud, isZeroTime cm.DeletionTimestamp = true ∧ cm.ProviderID = pid) ∧
    ((∃ cm ∈ cloud, isZeroTime cm.DeletionTimestamp = true ∧ cm.ProviderID = m.ProviderID) →
      heartbeatUpdate w (cloudProviderProviderIDsOf cloud) i m =
        { m with
          Annotations := some ((match m.Annotations with
            | none => GoMap.empty
            | some annotations => annotations).set NodeHeartBeatAnnotationKey
              (w.marshalJSON (w.wallHeartbeat i)))
          Conditions := markTrue w.api.conditionSet (w.wallMark i) (w.wallRecompute i)
            m.Conditions (gs "Ready") }) ∧
    ((∀ cm ∈ cloud, cm.ProviderID = m.ProviderID → isZeroTime cm.DeletionTimestamp = false) →
      heartbeatUpdate w (cloudProviderProviderIDsOf cloud) i m =
        { m with
          Conditions := markFalse w.api.conditionSet (w.wallMark i) m.Conditions
            (gs "Ready") (gs "NodeNotReady") (gs "Node status is NotReady") }) ∧
    (∀ items, w.listMachines = .ok items → w.listCloudProvider = .ok cloud →
      ∀ (j : Nat) (x : Machine), (hbMachinesOf w items)[j]? = some x →
        ClientCall.patch (heartbeatUpdate w (cloudProviderProviderIDsOf cloud) j x) x ∈
          (Reconcile w).calls) := by
  refine ⟨mem_cloudProviderProviderIDsOf cloud, fun h => ?_, fun h => ?_, ?_⟩
  · exact heartbeatUpdate_present w _ i m ((mem_cloudProviderProviderIDsOf cloud _).mpr h)
  · apply heartbeatUpdate_absent
    cases hc : (cloudProviderProviderIDsOf cloud).contains m.ProviderID with
    | false => rfl
    | true =>
      obtain ⟨cm, hcm, hz, hp⟩ := (mem_cloudProviderProviderIDsOf cloud _).mp hc
      rw [h cm hcm hp] at hz
      cases hz
  · intro items hl hc j x hj
    rw [reconcile_listed w items cloud hl hc]
    dsimp only
    rw [List.mem_append, List.mem_flatMap]
    left
    refine ⟨heartbeatPiece w (cloudProviderProviderIDsOf cloud) (0 + j) x,
      (mem_heartbeatPieces _ _ _ _ _).mpr ⟨j, x, hj, rfl⟩, ?_⟩
    rw [heartbeatPiece_calls, Nat.zero_add]
    split <;> simp

/-- Witness for C24: the only cloud machine that bears the provider ID of the
healthy record is marked for deletion, so the record is treated as absent: the
update changes its conditions only, and its `Ready` condition is false with
the reason `NodeNotReady`. -/
theorem inventory_presence_witness :
    heartbeatUpdate (samplePass 5000 [healthyMachine] [])
        (cloudProviderProviderIDsOf [{ healthyMachine with DeletionTimestamp := some 4000 }]) 0
        healthyMachine =
      { healthyMachine with
        Conditions := markFalse karpenterAPI.conditionSet 5000 healthyMachine.Conditions
          (gs "Ready") (gs "NodeNotReady") (gs "Node status is NotReady") } ∧
    (getCondition (heartbeatUpdate (samplePass 5000 [healthyMachine] [])
        (cloudProviderProviderIDsOf [{ healthyMachine with DeletionTimestamp := some 4000 }]) 0
        healthyMachine).Conditions (gs "Ready")).map (fun c => (c.Status, c.Reason)) =
      some (gs "False", gs "NodeNotReady") :=
  ⟨(inventory_presence (samplePass 5000 [healthyMachine] [])
      [{ healthyMachine with DeletionTimestamp := some 4000 }] 0 healthyMachine).2.2.1
      (by decide),
   by decide⟩

/-! ## The annotations do not decide the deletion set (C25) -/

/-- The update of a record, up to annotations, is the update of the record
without its annotations. -/
theorem heartbeatUpdate_withoutAnnotations (w : World) (ids : List GoString) (i : Nat)
    (m : Machine) :
    (heartbeatUpdate w ids i m).withoutAnnotations =
        (heartbeatUpdate w ids i m.withoutAnnotations).withoutAnnotations ∧
      (heartbeatUpdate w ids i m).Conditions =
        (heartbeatUpdate w ids i m.withoutAnnotations).Conditions := by
  cases h : ids.contains m.ProviderID with
  | true =>
    rw [heartbeatUpdate_present w ids i m h,
      heartbeatUpdate_present w ids i m.withoutAnnotations h]
    exact ⟨rfl, rfl⟩
  | false =>
    rw [heartbeatUpdate_absent w ids i m h,
      heartbeatUpdate_absent w ids i m.withoutAnnotations h]
    exact ⟨rfl, rfl⟩

/-- Whether the work on a record queues it, and what it queues up to
annotations, does not depend on the annotations of the record. -/
theorem heartbeatPiece_queued_withoutAnnotations (w : World) (ids : List GoString) (i : Nat)
    (m : Machine) :
    (heartbeatPiece w ids i m).queued.map Machine.withoutAnnotations =
      (heartbeatPiece w ids i m.withoutAnnotations).queued.map Machine.withoutAnnotations := by
  obtain ⟨h1, h2⟩ := heartbeatUpdate_withoutAnnotations w ids i m
  unfold heartbeatPiece
  cases w.patch i with
  | some err => rfl
  | none =>
    cases w.statusPatch i with
    | some err => rfl
    | none =>
      dsimp only
      rw [← h2]
      split
      · split
        · rfl
        · split
          · simp only [Option.map_some', h1]
          · rfl
      · rfl

/-- The deletion set of the first fan-out, up to annotations, is the one of the
records without their annotations. -/
theorem heartbeatPieces_queued_withoutAnnotations (w : World) (ids : List GoString)
    (l : List Machine) (k : Nat) :
    ((heartbeatPieces w ids k l).filterMap (fun p => p.queued)).map
        Machine.withoutAnnotations =
      ((heartbeatPieces w ids k (l.map Machine.withoutAnnotations)).filterMap
        (fun p => p.queued)).map Machine.withoutAnnotations := by
  induction l generalizing k with
  | nil => rfl
  | cons a rest ih =>
    simp only [heartbeatPieces, List.map_cons, List.filterMap_cons]
    have h := heartbeatPiece_queued_withoutAnnotations w ids k a
    cases h1 : (heartbeatPiece w ids k a).queued with
    | none =>
      rw [h1] at h
      cases h2 : (heartbeatPiece w ids k a.withoutAnnotations).queued with
      | none => exact ih (k + 1)
      | some d => rw [h2] at h; cases h
    | some d =>
      rw [h1] at h
      cases h2 : (heartbeatPiece w ids k a.withoutAnnotations).queued with
      | none => rw [h2] at h; cases h
      | some d2 =>
        rw [h2] at h
        simp only [Option.map_some', Option.some.injEq] at h
        simp only [List.map_cons, h, ih (k + 1)]

/-- Eligibility of a record does not depend on its annotations. -/
theorem hbMachinesOf_withoutAnnotations (w : World) (items : List Machine) :
    (hbMachinesOf w items).map Machine.withoutAnnotations =
      hbMachinesOf w (items.map Machine.withoutAnnotations) := by
  unfold hbMachinesOf
  rw [List.filter_map]
  rfl

/-- The first fan-out does not consult the listing of the records. -/
theorem heartbeatPieces_listMachines (w : World) (ids : List GoString)
    (x : Except GoError (List Machine)) (l : List Machine) (k : Nat) :
    heartbeatPieces { w with listMachines := x } ids k l = heartbeatPieces w ids k l := by
  induction l generalizing k with
  | nil => rfl
  | cons a rest ih =>
    simp only [heartbeatPieces, ih]
    rfl

/-- The deletion set of a pass over the listed records, up to annotations, in
terms of the records without their annotations. -/
theorem deletedMachines_withoutAnnotations (w : World) (items cloud : List Machine)
    (hc : w.listCloudProvider = .ok cloud) :
    (Reconcile { w with listMachines := .ok items }).deletedMachines.map
        Machine.withoutAnnotations =
      ((heartbeatPieces w (cloudProviderProviderIDsOf cloud) 0
        (hbMachinesOf w (items.map Machine.withoutAnnotations))).filterMap
          (fun p => p.queued)).map Machine.withoutAnnotations := by
  rw [reconcile_listed { w with listMachines := .ok items } items cloud rfl hc]
  dsimp only
  rw [heartbeatPieces_listMachines, heartbeatPieces_queued_withoutAnnotations,
    ← hbMachinesOf_withoutAnnotations]
  rfl

/-- C25: the deletion set does not depend on the heartbeat annotation. For two
passes that differ only in the listed records, and these records only in their
annotations (so in particular only in the stored `NodeHeartBeatTimeStamp`),
the same records are queued for deletion: the two deletion sets are equal up
to the annotations of their records, and bear the same names in the same
order. -/
theorem deletion_set_independent_of_annotations (w : World) (items₁ items₂ cloud : List Machine)
    (hc : w.listCloudProvider = .ok cloud)
    (h : items₁.map Machine.withoutAnnotations = items₂.map Machine.withoutAnnotations) :
    (Reconcile { w with listMachines := .ok items₁ }).deletedMachines.map
        Machine.withoutAnnotations =
      (Reconcile { w with listMachines := .ok items₂ }).deletedMachines.map
        Machine.withoutAnnotations ∧
    (Reconcile { w with listMachines := .ok items₁ }).deletedMachines.map (fun d => d.Name) =
      (Reconcile { w with listMachines := .ok items₂ }).deletedMachines.map (fun d => d.Name) := by
  have e : (Reconcile { w with listMachines := .ok items₁ }).deletedMachines.map
        Machine.withoutAnnotations =
      (Reconcile { w with listMachines := .ok items₂ }).deletedMachines.map
        Machine.withoutAnnotations := by
    rw [deletedMachines_withoutAnnotations w items₁ cloud hc,
      deletedMachines_withoutAnnotations w items₂ cloud hc, h]
  refine ⟨e, ?_⟩
  have hn : ∀ l : List Machine, l.map (fun d => d.Name) =
      (l.map Machine.withoutAnnotations).map (fun d => d.Name) := by
    intro l
    rw [List.map_map]
    rfl
  rw [hn, hn (Reconcile { w with listMachines := .ok items₂ }).deletedMachines, e]

/-- Witness for C25: the record marked not ready long ago is queued whether its
heartbeat annotation is the old one or a recent one. -/
theorem deletion_set_independent_of_annotations_witness :
    (Reconcile { samplePass 500000000000 [] [] with
        listMachines := .ok [staleMachine] }).deletedMachines.map (fun d => d.Name) =
      [gs "m-stale"] ∧
    (Reconcile { samplePass 500000000000 [] [] with
        listMachines := .ok [{ staleMachine with
          Annotations := some (GoMap.ofList
            [(gs "NodeHeartBeatTimeStamp", gs "t499999999999")]) }] }).deletedMachines.map
        (fun d => d.Name) = [gs "m-stale"] :=
  have h := deletion_set_independent_of_annotations (samplePass 500000000000 [] [])
    [staleMachine]
    [{ staleMachine with
        Annotations := some (GoMap.ofList [(gs "NodeHeartBeatTimeStamp", gs "t499999999999")]) }]
    [] rfl (by decide)
  ⟨by decide, h.2 ▸ (by decide)⟩

/-! ## What a pass leaves alone in a record (C26) -/

/-- The update changes no annotation but the heartbeat. -/
theorem heartbeatUpdate_annotations (w : World) (ids : List GoString) (i : Nat) (m : Machine)
    (k : GoString) (hk : k ≠ NodeHeartBeatAnnotationKey) :
    (match (heartbeatUpdate w ids i m).Annotations with
      | none => none
      | some a => a.get k) =
    (match m.Annotations with
      | none => none
      | some a => a.get k) := by
  cases h : ids.contains m.ProviderID with
  | true =>
    rw [heartbeatUpdate_present w ids i m h]
    cases m.Annotations with
    | none =>
      have hk2 : ¬ NodeHeartBeatAnnotationKey = k := fun e => hk e.symm
      simp [GoMap.get_set, hk, hk2, GoMap.get, GoMap.empty, entriesGet]
    | some a => simp [GoMap.get_set, hk]
  | false =>
    rw [heartbeatUpdate_absent w ids i m h]

/-- Every call of a pass in which both listings succeed acts on the update of
an eligible record; the two patches are made against that record as stored. -/
theorem call_object_is_update (w : World) (items cloud : List Machine)
    (hl : w.listMachines = .ok items) (hc : w.listCloudProvider = .ok cloud)
    (c : ClientCall) (hcm : c ∈ (Reconcile w).calls) :
    ∃ (j : Nat) (m : Machine), (hbMachinesOf w items)[j]? = some m ∧
      (c = .patch (heartbeatUpdate w (cloudProviderProviderIDsOf cloud) j m) m ∨
        c = .statusPatch (heartbeatUpdate w (cloudProviderProviderIDsOf cloud) j m) m ∨
        c = .delete (heartbeatUpdate w (cloudProviderProviderIDsOf cloud) j m)) := by
  rw [reconcile_listed w items cloud hl hc] at hcm
  dsimp only at hcm
  rw [List.mem_append, List.mem_flatMap, List.mem_map] at hcm
  rcases hcm with ⟨p, hp, hcp⟩ | ⟨x, hx, hxc⟩
  · obtain ⟨j, m, hj, hpm⟩ := (mem_heartbeatPieces _ _ _ _ _).mp hp
    refine ⟨j, m, hj, ?_⟩
    rw [hpm, heartbeatPiece_calls, Nat.zero_add] at hcp
    split at hcp
    · rw [List.mem_singleton] at hcp
      exact Or.inl hcp
    · simp only [List.mem_cons, List.mem_singleton, List.not_mem_nil, or_false] at hcp
      rcases hcp with hcp | hcp
      · exact Or.inl hcp
      · exact Or.inr (Or.inl hcp)
  · obtain ⟨j, d, hj, hxd⟩ := (mem_deletePieces _ _ _ _).mp hx
    have hd : d ∈ (heartbeatPieces w (cloudProviderProviderIDsOf cloud) 0
        (hbMachinesOf w items)).filterMap (fun p => p.queued) := List.getElem?_mem hj
    rw [List.mem_filterMap] at hd
    obtain ⟨p, hp, hq⟩ := hd
    obtain ⟨j2, m, hj2, hpm⟩ := (mem_heartbeatPieces _ _ _ _ _).mp hp
    rw [hpm, Nat.zero_add] at hq
    obtain ⟨hdu, _, _⟩ := heartbeatPiece_queued _ _ _ _ _ hq
    refine ⟨j2, m, hj2, Or.inr (Or.inr ?_)⟩
    rw [← hxc, hxd, hdu]

/-- C26: a pass never changes a record's provider ID. In a pass where both
listings succeed, the object of every `Patch`, status `Patch` and `Delete` is
an eligible stored record with other annotations and conditions: it has the
provider ID, name, labels and deletion timestamp of the stored record (and
the patches are made against the stored record itself), and of the
annotations only `NodeHeartBeatTimeStamp` may differ. -/
theorem calls_keep_identity (w : World) (items cloud : List Machine)
    (hl : w.listMachines = .ok items) (hc : w.listCloudProvider = .ok cloud) :
    ∀ c ∈ (Reconcile w).calls, ∃ m ∈ hbMachinesOf w items,
      (c = .patch c.object m ∨ c = .statusPatch c.object m ∨ c = .delete c.object) ∧
      c.object =
        { m with Annotations := c.object.Annotations, Conditions := c.object.Conditions } ∧
      c.object.ProviderID = m.ProviderID ∧ c.object.Name = m.Name ∧
      c.object.Labels = m.Labels ∧ c.object.DeletionTimestamp = m.DeletionTimestamp ∧
      ∀ k, k ≠ NodeHeartBeatAnnotationKey →
        (match c.object.Annotations with
          | none => none
          | some a => a.get k) =
        (match m.Annotations with
          | none => none
          | some a => a.get k) := by
  intro c hcm
  obtain ⟨j, m, hj, hform⟩ := call_object_is_update w items cloud hl hc c hcm
  have hobj : c.object = heartbeatUpdate w (cloudProviderProviderIDsOf cloud) j m := by
    rcases hform with h | h | h <;> rw [h] <;> rfl
  have hshape : heartbeatUpdate w (cloudProviderProviderIDsOf cloud) j m =
      { m with
        Annotations := (heartbeatUpdate w (cloudProviderProviderIDsOf cloud) j m).Annotations
        Conditions := (heartbeatUpdate w (cloudProviderProviderIDsOf cloud) j m).Conditions } := by
    cases h : (cloudProviderProviderIDsOf cloud).contains m.ProviderID with
    | true => rw [heartbeatUpdate_present w _ j m h]
    | false => rw [heartbeatUpdate_absent w _ j m h]
  obtain ⟨i1, i2, i3, i4⟩ := heartbeatUpdate_identity w (cloudProviderProviderIDsOf cloud) j m
  refine ⟨m, List.getElem?_mem hj, ?_, ?_, ?_, ?_, ?_, ?_, ?_⟩
  · rw [hobj]; exact hform
  · rw [hobj]; exact hshape
  · rw [hobj]; exact i2
  · rw [hobj]; exact i1
  · rw [hobj]; exact i4
  · rw [hobj]; exact i3
  · intro k hk
    rw [hobj]
    exact heartbeatUpdate_annotations w _ j m k hk

/-- Witness for C26: the two patches of a pass over the record marked not ready
before bear its provider ID. -/
theorem calls_keep_identity_witness :
    (Reconcile (samplePass 5000 [staleMachine] [])).calls.length = 2 ∧
      ∀ c ∈ (Reconcile (samplePass 5000 [staleMachine] [])).calls,
        c.object.ProviderID = gs "azure:///vm-gone" := by
  refine ⟨by decide, fun c hc => ?_⟩
  obtain ⟨m, hm, _, _, hp, _⟩ :=
    calls_keep_identity (samplePass 5000 [staleMachine] []) [staleMachine] [] rfl rfl c hc
  have : m = staleMachine := by
    have h2 : hbMachinesOf (samplePass 5000 [staleMachine] []) [staleMachine] =
        [staleMachine] := by decide
    rw [h2, List.mem_singleton] at hm
    exact hm
  rw [hp, this]
  decide

/-! ## The workers of the first fan-out (C33) -/

/-- The accesses of a piece, in terms of what the piece does: it reads its own
machine and the inventory set, counts a heartbeat atomically, and then either
writes its own error slot (a patch failed) or appends to `deletedMachines`
(it queues its record) or does neither. -/
theorem heartbeatAccesses_eq (w : World) (ids : List GoString) (i : Nat) (m : Machine) :
    heartbeatAccesses w ids i m =
      [{ var := .hbMachines i, isWrite := false }, { var := .hbMachines i, isWrite := false },
       { var := .cloudProviderProviderIDs, isWrite := false }] ++
      (if ids.contains m.ProviderID then
        [{ var := .hbUpdated, isWrite := true, isAtomic := true }]
       else []) ++
      (if (heartbeatPiece w ids i m).queued.isSome then
        [{ var := .deletedMachines, isWrite := false },
         { var := .deletedMachines, isWrite := true }]
       else if (w.patch i).isSome || (w.statusPatch i).isSome then
        [{ var := .hbErrs i, isWrite := true }]
       else []) := by
  cases hp : w.patch i with
  | some err => simp [heartbeatAccesses, heartbeatPiece, hp]
  | none =>
    cases hs : w.statusPatch i with
    | some err => simp [heartbeatAccesses, heartbeatPiece, hp, hs]
    | none =>
      cases hh : isHappy w.api.conditionSet (heartbeatUpdate w ids i m).Conditions with
      | true => simp [heartbeatAccesses, heartbeatPiece, hp, hs, hh]
      | false =>
        cases hr : getCondition (heartbeatUpdate w ids i m).Conditions (gs "Ready") with
        | none => simp [heartbeatAccesses, heartbeatPiece, hp, hs, hh, hr]
        | some ready =>
          by_cases ht : timeSub (w.clockNow i) ready.LastTransitionTime > timeMinute * 6
          · simp [heartbeatAccesses, heartbeatPiece, hp, hs, hh, hr, ht]
          · simp [heartbeatAccesses, heartbeatPiece, hp, hs, hh, hr, ht]

/-- Two different pieces race exactly when both queue their record: the
elements of `hbMachines` and the set are only read, the counter is atomic, the
error slots of different pieces are different variables, and `deletedMachines`
is one variable that every queuing piece reads and writes. -/
theorem racing_iff_both_queue (w : World) (ids : List GoString) (i j : Nat) (hij : i ≠ j)
    (m₁ m₂ : Machine) :
    racing (heartbeatAccesses w ids i m₁) (heartbeatAccesses w ids j m₂) = true ↔
      (heartbeatPiece w ids i m₁).queued.isSome = true ∧
        (heartbeatPiece w ids j m₂).queued.isSome = true := by
  have hji : ¬ j = i := fun e => hij e.symm
  rw [heartbeatAccesses_eq, heartbeatAccesses_eq]
  cases ids.contains m₁.ProviderID <;> cases ids.contains m₂.ProviderID <;>
    cases (heartbeatPiece w ids i m₁).queued.isSome <;>
    cases (heartbeatPiece w ids j m₂).queued.isSome <;>
    cases ((w.patch i).isSome || (w.statusPatch i).isSome) <;>
    cases ((w.patch j).isSome || (w.statusPatch j).isSome) <;>
    simp [racing, conflict, hij, hji]

/-- The appends of two workers, one after the other, leave both records. -/
theorem append_in_turn (r₁ r₂ : Machine) :
    ((appendPhaseOf [r₁, r₂]).run [0, 0, 1, 1]).deletedMachines = [r₁, r₂] := by
  simp [appendPhaseOf, AppendPhase.run, AppendPhase.step]

/-- The appends of two workers that both read before either writes leave the
record of the worker that writes last, and lose the other. -/
theorem append_interleaved (r₁ r₂ : Machine) :
    ((appendPhaseOf [r₁, r₂]).run [0, 1, 0, 1]).deletedMachines = [r₂] ∧
      ((appendPhaseOf [r₁, r₂]).run [0, 1, 1, 0]).deletedMachines = [r₁] := by
  simp [appendPhaseOf, AppendPhase.run, AppendPhase.step]

/-- C33, at the failing input: a pass over two records that are both absent
from the inventory and overdue. Taken one after the other the two pieces queue
both records; run by two workers they race, on the variable `deletedMachines`
and on nothing else (each reads it and writes it, without a lock), though not
on the counter, the error slots or their own records; and in the schedule
where both workers read the variable before either writes it, the record of
the first is lost from the deletion set. -/
theorem heartbeat_workers_race_on_deletedMachines :
    hbMachinesOf twoStalePass
        [{ staleMachine with Name := gs "m-stale-1" },
         { staleMachine with Name := gs "m-stale-2" }] =
      [{ staleMachine with Name := gs "m-stale-1" },
       { staleMachine with Name := gs "m-stale-2" }] ∧
    (Reconcile twoStalePass).deletedMachines.map (fun d => d.Name) =
      [gs "m-stale-1", gs "m-stale-2"] ∧
    racing
      (heartbeatAccesses twoStalePass [] 0 { staleMachine with Name := gs "m-stale-1" })
      (heartbeatAccesses twoStalePass [] 1 { staleMachine with Name := gs "m-stale-2" }) =
        true ∧
    (∀ a ∈ heartbeatAccesses twoStalePass [] 0 { staleMachine with Name := gs "m-stale-1" },
      ∀ b ∈ heartbeatAccesses twoStalePass [] 1 { staleMachine with Name := gs "m-stale-2" },
        conflict a b = true → a.var = SharedVar.deletedMachines ∧ a.isAtomic = false ∧
          b.isAtomic = false) ∧
    ((appendPhaseOf (Reconcile twoStalePass).deletedMachines).run
        [0, 0, 1, 1]).deletedMachines.map (fun d => d.Name) =
      [gs "m-stale-1", gs "m-stale-2"] ∧
    ((appendPhaseOf (Reconcile twoStalePass).deletedMachines).run
        [0, 1, 0, 1]).deletedMachines.map (fun d => d.Name) = [gs "m-stale-2"] := by
  decide

/-! ## The deletion set under a schedule (C11) -/

/-- Whatever the schedule, the variable `deletedMachines`, and what the
workers have read from it, holds only records that a worker appends. -/
theorem mem_run_deletedMachines (records : List Machine) (schedule : List Nat) (d : Machine)
    (h : d ∈ ((appendPhaseOf records).run schedule).deletedMachines) : d ∈ records := by
  have inv : ∀ (sched : List Nat) (s : AppendPhase),
      ((∀ x ∈ s.deletedMachines, x ∈ records) ∧
        ∀ wk ∈ s.workers, wk.record ∈ records ∧
          ∀ l, wk.loaded = some l → ∀ x ∈ l, x ∈ records) →
      ((∀ x ∈ (s.run sched).deletedMachines, x ∈ records) ∧
        ∀ wk ∈ (s.run sched).workers, wk.record ∈ records ∧
          ∀ l, wk.loaded = some l → ∀ x ∈ l, x ∈ records) := by
    intro sched
    induction sched with
    | nil => intro s hs; exact hs
    | cons i rest ih =>
      intro s hs
      have hstep : (s.run (i :: rest)) = (s.step i).run rest := rfl
      rw [hstep]
      apply ih
      obtain ⟨hd, hw⟩ := hs
      unfold AppendPhase.step
      cases hwi : s.workers[i]? with
      | none => exact ⟨hd, hw⟩
      | some worker =>
        have hmem : worker ∈ s.workers := List.getElem?_mem hwi
        obtain ⟨hrec, hload⟩ := hw worker hmem
        dsimp only
        by_cases hst : worker.stored = true
        · rw [if_pos hst]; exact ⟨hd, hw⟩
        · rw [if_neg hst]
          cases hl : worker.loaded with
          | none =>
            dsimp only
            refine ⟨hd, fun wk hwk => ?_⟩
            rcases List.mem_or_eq_of_mem_set hwk with h1 | h1
            · exact hw wk h1
            · rw [h1]
              refine ⟨hrec, fun l hl2 x hx => ?_⟩
              simp only [Option.some.injEq] at hl2
              rw [← hl2] at hx
              exact hd x hx
          | some old =>
            dsimp only
            refine ⟨fun x hx => ?_, fun wk hwk => ?_⟩
            · rw [List.mem_append, List.mem_singleton] at hx
              rcases hx with hx | hx
              · exact hload old hl x hx
              · rw [hx]; exact hrec
            · rcases List.mem_or_eq_of_mem_set hwk with h1 | h1
              · exact hw wk h1
              · rw [h1]
                exact ⟨hrec, fun l hl2 x hx => hload l (hl.trans hl2) x hx⟩
  refine (inv schedule (appendPhaseOf records) ⟨?_, ?_⟩).1 d h
  · intro x hx
    simp [appendPhaseOf] at hx
  · intro wk hwk
    simp only [appendPhaseOf, List.mem_map] at hwk
    obtain ⟨r, hr, hwr⟩ := hwk
    rw [← hwr]
    exact ⟨hr, fun l hl => by simp at hl⟩

/-- One worker's read and write, with no step of another worker between them,
append its record. -/
theorem run_own_steps (d : List Machine) (done : List AppendWorker) (r : Machine)
    (rest : List AppendWorker) :
    (AppendPhase.mk d (done ++ { record := r } :: rest)).run [done.length, done.length] =
      AppendPhase.mk (d ++ [r])
        (done ++ { record := r, loaded := some d, stored := true } :: rest) := by
  have hget : ∀ x : AppendWorker, (done ++ x :: rest)[done.length]? = some x := by
    intro x
    rw [List.getElem?_append_right (le_refl _), Nat.sub_self]
    simp
  have hset : ∀ x y : AppendWorker,
      (done ++ x :: rest).set done.length y = done ++ y :: rest := by
    intro x y
    rw [List.set_append_right _ _ (le_refl _), Nat.sub_self]
    simp
  have h1 : (AppendPhase.mk d (done ++ { record := r } :: rest)).step done.length =
      AppendPhase.mk d (done ++ { record := r, loaded := some d } :: rest) := by
    unfold AppendPhase.step
    simp only [hget, hset, Bool.false_eq_true, if_false]
  have h2 : (AppendPhase.mk d (done ++ { record := r, loaded := some d } :: rest)).step
        done.length =
      AppendPhase.mk (d ++ [r])
        (done ++ { record := r, loaded := some d, stored := true } :: rest) := by
    unfold AppendPhase.step
    simp only [hget, hset, Bool.false_eq_true, if_false]
  simp only [AppendPhase.run, List.foldl_cons, List.foldl_nil, h1, h2]

/-- The workers appending in turn, from a state in which the first of them
have finished. -/
theorem run_inTurn_from (rest : List Machine) (d : List Machine) (done : List AppendWorker) :
    ((AppendPhase.mk d (done ++ rest.map (fun r => { record := r }))).run
        ((List.range' done.length rest.length).flatMap (fun i => [i, i]))).deletedMachines =
      d ++ rest := by
  induction rest generalizing d done with
  | nil => simp [AppendPhase.run]
  | cons r rest ih =>
    have hsched : (List.range' done.length (r :: rest).length).flatMap (fun i => [i, i]) =
        [done.length, done.length] ++
          (List.range' (done.length + 1) rest.length).flatMap (fun i => [i, i]) := by
      simp [List.range'_succ]
    have hrun : ∀ (s : AppendPhase) (a b : List Nat), s.run (a ++ b) = (s.run a).run b := by
      intro s a b
      simp [AppendPhase.run, List.foldl_append]
    rw [hsched, hrun, List.map_cons, run_own_steps]
    have h := ih (d ++ [r]) (done ++ [{ record := r, loaded := some d, stored := true }])
    simp only [List.length_append, List.length_singleton, List.append_assoc,
      List.singleton_append] at h
    rw [h]

/-- The workers appending in turn leave every record, in order. -/
theorem run_inTurn (records : List Machine) :
    ((appendPhaseOf records).run (inTurn records.length)).deletedMachines = records := by
  have h := run_inTurn_from records [] []
  simp only [List.length_nil, List.nil_append] at h
  rw [appendPhaseOf, inTurn, List.range_eq_range']
  exact h

/-- The deletion set of `Reconcile` is the one of the schedule in which the
queuing pieces append in turn. -/
theorem deletedMachinesUnder_inTurn (w : World) (items cloud : List Machine)
    (hl : w.listMachines = .ok items) (hc : w.listCloudProvider = .ok cloud) :
    deletedMachinesUnder w items cloud (inTurn (Reconcile w).deletedMachines.length) =
      (Reconcile w).deletedMachines := by
  rw [reconcile_listed w items cloud hl hc]
  exact run_inTurn _

/-- Under every schedule, a record in the deletion set was queued by its
piece: it is in the deletion set of `Reconcile`. -/
theorem deletedMachinesUnder_subset (w : World) (items cloud : List Machine)
    (hl : w.listMachines = .ok items) (hc : w.listCloudProvider = .ok cloud)
    (schedule : List Nat) (d : Machine)
    (h : d ∈ deletedMachinesUnder w items cloud schedule) :
    d ∈ (Reconcile w).deletedMachines := by
  rw [reconcile_listed w items cloud hl hc]
  exact mem_run_deletedMachines _ schedule d h

/-- C11, at the failing input: a pass over two eligible records, both absent
from the inventory, whose `Patch` and status `Patch` succeed. After the update
each has `Ready` false with a last transition more than six minutes before the
clock's reading, so each meets the rule and its piece reaches the append. When
the two pieces append in turn both records are in the deletion set; when both
read `deletedMachines` before either writes it, the first record, which meets
the rule, is not in the deletion set. -/
theorem overdue_record_lost_from_deletion_set :
    hbMachinesOf twoStalePass
        [{ staleMachine with Name := gs "m-stale-1" },
         { staleMachine with Name := gs "m-stale-2" }] =
      [{ staleMachine with Name := gs "m-stale-1" },
       { staleMachine with Name := gs "m-stale-2" }] ∧
    twoStalePass.patch 0 = none ∧ twoStalePass.statusPatch 0 = none ∧
    isHappy twoStalePass.api.conditionSet
        (heartbeatUpdate twoStalePass [] 0
          { staleMachine with Name := gs "m-stale-1" }).Conditions = false ∧
    (getCondition (heartbeatUpdate twoStalePass [] 0
          { staleMachine with Name := gs "m-stale-1" }).Conditions (gs "Ready")).map
        (fun ready => (ready.Status,
          decide (timeSub (twoStalePass.clockNow 0) ready.LastTransitionTime >
            timeMinute * 6))) = some (gs "False", true) ∧
    (heartbeatPiece twoStalePass [] 0
        { staleMachine with Name := gs "m-stale-1" }).queued.map (fun d => d.Name) =
      some (gs "m-stale-1") ∧
    (deletedMachinesUnder twoStalePass
        [{ staleMachine with Name := gs "m-stale-1" },
         { staleMachine with Name := gs "m-stale-2" }] [] (inTurn 2)).map (fun d => d.Name) =
      [gs "m-stale-1", gs "m-stale-2"] ∧
    (deletedMachinesUnder twoStalePass
        [{ staleMachine with Name := gs "m-stale-1" },
         { staleMachine with Name := gs "m-stale-2" }] [] [0, 1, 0, 1]).map (fun d => d.Name) =
      [gs "m-stale-2"] := by
  decide

end GarbageCollection

namespace CloudProvider

open AKSBootstrap GarbageCollection

/-! ## Run-time failures of `instanceToMachine` (C30) -/

/-- The inputs on which `instanceToMachine` returns a machine: the instance is
not nil (a nil instance is dereferenced by the first statement), the instance
type, when one is given, has an overhead (`Allocatable` dereferences it), no
tag that is looked up holds a nil pointer, and the labels are not written to
while they are a nil map, which they are when the instance has a nil map of
labels and no instance type is given. -/
theorem instanceToMachine_returns_iff (keys : MachineKeys) (inst : Instance)
    (instanceType : Option InstanceType) :
    instanceToMachine keys none instanceType = .error GoPanic.nilPointerDereference ∧
    ((∃ m, instanceToMachine keys (some inst) instanceType = .ok m) ↔
      ((∀ it, instanceType = some it → it.Overhead ≠ none) ∧
        ((inst.Labels ≠ none ∨ instanceType ≠ none) ∨
          (inst.CapacityType = none ∧
            tagLookup inst.Tags keys.ProvisionerNameLabelKey = none)) ∧
        tagLookup inst.Tags keys.ProvisionerNameLabelKey ≠ some none ∧
        tagLookup inst.Tags keys.MachineManagedByAnnotationKey ≠ some none)) := by
  refine ⟨rfl, ?_⟩
  simp only [instanceToMachine]
  rcases instanceType with _ | it
  · rcases hl : inst.Labels with _ | l <;>
      rcases hc : inst.CapacityType with _ | ct <;>
      rcases hp : tagLookup inst.Tags keys.ProvisionerNameLabelKey with _ | _ | pv <;>
      rcases hm : tagLookup inst.Tags keys.MachineManagedByAnnotationKey with _ | _ | mv <;>
      simp only [deref, assignEntry, Option.getD] <;>
      cases inst.ID <;>
      simp
  · rcases ho : it.Overhead with _ | overhead
    · simp [InstanceType.Allocatable, ho]
    · rcases hl : inst.Labels with _ | l <;>
        rcases hc : inst.CapacityType with _ | ct <;>
        rcases hp : tagLookup inst.Tags keys.ProvisionerNameLabelKey with _ | _ | pv <;>
        rcases hm : tagLookup inst.Tags keys.MachineManagedByAnnotationKey with _ | _ | mv <;>
        simp only [InstanceType.Allocatable, ho, deref, assignEntry, Option.getD] <;>
        cases inst.ID <;>
        simp [ho]

/-- With an instance type whose overhead is nil, `instanceToMachine` panics in
`Allocatable`, whatever the instance. -/
theorem instanceToMachine_nil_overhead (keys : MachineKeys) (inst : Instance)
    (it : InstanceType) (ho : it.Overhead = none) :
    instanceToMachine keys (some inst) (some it) = .error GoPanic.nilPointerDereference := by
  simp [instanceToMachine, InstanceType.Allocatable, ho]

/-- C30, at the failing inputs: `instanceToMachine` panics on a nil instance
(which its own guard `instanceObj != nil` allows for, three lines before it
returns), on an instance with a nil map of labels and no instance type when
the capacity type or the provisioner-name tag is set, and on an instance whose
provisioner-name tag holds a nil pointer. It returns a machine with an empty
provider ID for an instance with a nil ID. -/
theorem instanceToMachine_panics_on_admitted_inputs :
    instanceToMachine karpenterKeys none none = .error GoPanic.nilPointerDereference ∧
    instanceToMachine karpenterKeys (some unlabelledInstance) none =
      .error GoPanic.assignmentToEntryInNilMap ∧
    instanceToMachine karpenterKeys (some taggedUnlabelledInstance) none =
      .error GoPanic.assignmentToEntryInNilMap ∧
    instanceToMachine karpenterKeys (some nilTagInstance) none =
      .error GoPanic.nilPointerDereference ∧
    (instanceToMachine karpenterKeys (some noIDInstance) none).toOption.map
        (fun m => (m.Name, m.ProviderID)) = some (gs "vm-3", []) :=
  ⟨rfl, rfl, rfl, rfl, by decide⟩

/-! ## The fields of the machine `instanceToMachine` returns (C32) -/

/-- C32, as stated, fails: the instance has no tag at all, its labels name a
provisioner, and the machine returned bears the provisioner-name label. -/
theorem provisioner_label_without_tag :
    tagLookup labelledInstance.Tags karpenterKeys.ProvisionerNameLabelKey = none ∧
      (instanceToMachine karpenterKeys (some labelledInstance) none).toOption.map
          (fun m => lookupIn m.Labels karpenterKeys.ProvisionerNameLabelKey) =
        some (some (gs "default")) := by
  decide

/-- C32, amended: when `instanceToMachine` returns a machine for a non-nil
instance (and the keys of the linked and managed-by annotations differ, as do
those of the capacity-type and provisioner-name labels), its name is the
instance name (empty for a nil name); with an ID, the provider ID and the
linked annotation are that ID; without one, the provider ID is empty and there
is no linked annotation; the managed-by annotation is present exactly when the
tag is, with the tag's value; the provisioner-name label holds the tag's value
when the tag is present, and otherwise what the labels the function starts
from hold for that key (the instance's own labels, merged with those of the
instance type when one is given); the capacity-type label holds the capacity
type of the instance when that is set. -/
theorem instanceToMachine_fields (keys : MachineKeys) (inst : Instance)
    (instanceType : Option InstanceType) (m : Machine)
    (hk1 : keys.MachineLinkedAnnotationKey ≠ keys.MachineManagedByAnnotationKey)
    (hk2 : keys.LabelCapacityType ≠ keys.ProvisionerNameLabelKey)
    (h : instanceToMachine keys (some inst) instanceType = .ok m) :
    m.Name = loFromPtr inst.Name ∧
    (∀ id, inst.ID = some id →
      m.ProviderID = id ∧ lookupIn m.Annotations keys.MachineLinkedAnnotationKey = some id) ∧
    (inst.ID = none →
      m.ProviderID = [] ∧ lookupIn m.Annotations keys.MachineLinkedAnnotationKey = none) ∧
    (∀ v, lookupIn m.Annotations keys.MachineManagedByAnnotationKey = some v ↔
      tagLookup inst.Tags keys.MachineManagedByAnnotationKey = some (some v)) ∧
    (∀ v, tagLookup inst.Tags keys.ProvisionerNameLabelKey = some (some v) →
      lookupIn m.Labels keys.ProvisionerNameLabelKey = some v) ∧
    (tagLookup inst.Tags keys.ProvisionerNameLabelKey = none →
      lookupIn m.Labels keys.ProvisionerNameLabelKey =
        lookupIn (match instanceType with
          | some it =>
            some (loAssign [inst.Labels.getD GoMap.empty, it.singleValuedRequirementLabels])
          | none => inst.Labels) keys.ProvisionerNameLabelKey) ∧
    (∀ ct, inst.CapacityType = some ct →
      lookupIn m.Labels keys.LabelCapacityType = some ct) := by
  have hk1' : ¬ keys.MachineManagedByAnnotationKey = keys.MachineLinkedAnnotationKey :=
    fun e => hk1 e.symm
  have hk2' : ¬ keys.ProvisionerNameLabelKey = keys.LabelCapacityType := fun e => hk2 e.symm
  have hempty : ∀ k, GoMap.empty.get k = none := fun _ => rfl
  simp only [instanceToMachine] at h
  rcases instanceType with _ | it
  · rcases hl : inst.Labels with _ | l <;>
      rcases hc : inst.CapacityType with _ | ct <;>
      rcases hp : tagLookup inst.Tags keys.ProvisionerNameLabelKey with _ | _ | pv <;>
      rcases hm : tagLookup inst.Tags keys.MachineManagedByAnnotationKey with _ | _ | mv <;>
      rcases hi : inst.ID with _ | id <;>
      simp only [hl, hc, hp, hm, hi, deref, assignEntry, Option.getD, reduceCtorEq,
        Except.ok.injEq] at h <;>
      subst h <;>
      simp [lookupIn, GoMap.get_set, hk1, hk2, hk1', hk2', hempty]
  · rcases ho : it.Overhead with _ | overhead
    · simp [InstanceType.Allocatable, ho] at h
    · rcases hl : inst.Labels with _ | l <;>
        rcases hc : inst.CapacityType with _ | ct <;>
        rcases hp : tagLookup inst.Tags keys.ProvisionerNameLabelKey with _ | _ | pv <;>
        rcases hm : tagLookup inst.Tags keys.MachineManagedByAnnotationKey with _ | _ | mv <;>
        rcases hi : inst.ID with _ | id <;>
        simp only [InstanceType.Allocatable, ho, hl, hc, hp, hm, hi, deref, assignEntry,
          Option.getD, reduceCtorEq, Except.ok.injEq] at h <;>
        subst h <;>
        simp [lookupIn, GoMap.get_set, hk1, hk2, hk1', hk2', hempty]

/-- Witness for C32: the machine returned for an instance with a name, an ID,
a capacity type and both tags. -/
theorem instanceToMachine_fields_witness :
    instanceToMachine karpenterKeys (some fullInstance) none = .ok fullMachine ∧
      fullMachine.Name = gs "vm-6" ∧
      fullMachine.ProviderID = gs "azure:///vm-6" ∧
      lookupIn fullMachine.Annotations (gs "karpenter.sh/linked") = some (gs "azure:///vm-6") ∧
      lookupIn fullMachine.Labels (gs "karpenter.sh/provisioner-name") = some (gs "default") ∧
      lookupIn fullMachine.Labels (gs "karpenter.sh/capacity-type") = some (gs "on-demand") :=
  have h := instanceToMachine_fields karpenterKeys fullInstance none fullMachine
    (by decide) (by decide) rfl
  ⟨rfl, h.1, (h.2.1 _ rfl).1, (h.2.1 _ rfl).2, h.2.2.2.2.1 _ (by decide),
    h.2.2.2.2.2.2 _ rfl⟩

end CloudProvider

namespace OfferingSelection

open AKSBootstrap

/-! ## Facts about the selector -/

theorem cheapestFirst_eq_none (l : List (SKU × Offering)) :
    cheapestFirst l = none ↔ l = [] := by
  cases l with
  | nil => simp [cheapestFirst]
  | cons x rest =>
    simp only [cheapestFirst]
    cases cheapestFirst rest with
    | none => simp
    | some best =>
      dsimp only
      split <;> simp

/-- What `cheapestFirst` returns splits the list: everything before it costs
strictly more, nothing after it costs less. -/
theorem cheapestFirst_split (l : List (SKU × Offering)) (x : SKU × Offering)
    (h : cheapestFirst l = some x) :
    ∃ pre post, l = pre ++ x :: post ∧ (∀ y ∈ pre, x.2.price < y.2.price) ∧
      (∀ y ∈ post, x.2.price ≤ y.2.price) := by
  induction l generalizing x with
  | nil => simp [cheapestFirst] at h
  | cons a rest ih =>
    simp only [cheapestFirst] at h
    cases hr : cheapestFirst rest with
    | none =>
      rw [hr] at h
      have hnil := (cheapestFirst_eq_none rest).mp hr
      subst hnil
      cases h
      exact ⟨[], [], rfl, by simp, by simp⟩
    | some best =>
      rw [hr] at h
      obtain ⟨pre, post, hsplit, hpre, hpost⟩ := ih best hr
      dsimp only at h
      by_cases hlt : best.2.price < a.2.price
      · rw [if_pos hlt] at h
        cases h
        refine ⟨a :: pre, post, by rw [hsplit]; rfl, ?_, hpost⟩
        intro y hy
        rcases List.mem_cons.mp hy with hy | hy
        · rw [hy]; exact hlt
        · exact hpre y hy
      · rw [if_neg hlt] at h
        cases h
        refine ⟨[], rest, rfl, by simp, ?_⟩
        intro y hy
        have hab : a.2.price ≤ best.2.price := not_lt.mp hlt
        rw [hsplit, List.mem_append, List.mem_cons] at hy
        rcases hy with hy | hy | hy
        · exact le_trans hab (le_of_lt (hpre y hy))
        · rw [hy]; exact hab
        · exact le_trans hab (hpost y hy)

theorem mem_candidates (c : Constraints) (catalog : List SKU) (s : SKU) (o : Offering) :
    (s, o) ∈ candidates c catalog ↔ s ∈ catalog ∧ o ∈ s.offerings ∧ eligible c s o = true := by
  simp only [candidates, List.mem_flatMap, List.mem_map, List.mem_filter, Prod.mk.injEq]
  constructor
  · rintro ⟨s', hs', o', ⟨ho', he⟩, rfl, rfl⟩
    exact ⟨hs', ho', he⟩
  · rintro ⟨hs, ho, he⟩
    exact ⟨s, hs, o, ⟨ho, he⟩, rfl, rfl⟩

/-- A candidate of one SKU splits the offering list of the SKU at its offering:
the candidates before it are the eligible offerings before it. -/
theorem offers_split (c : Constraints) (s : SKU) (l : List Offering)
    (pre post : List (SKU × Offering)) (x : SKU × Offering)
    (h : (l.filter (eligible c s)).map (fun o => (s, o)) = pre ++ x :: post) :
    ∃ opre opost, x.1 = s ∧ l = opre ++ x.2 :: opost ∧
      ∀ o ∈ opre, eligible c s o = true → (s, o) ∈ pre := by
  induction l generalizing pre with
  | nil => simp at h
  | cons a rest ih =>
    by_cases ha : eligible c s a = true
    · rw [List.filter_cons_of_pos ha, List.map_cons] at h
      cases pre with
      | nil =>
        rw [List.nil_append, List.cons.injEq] at h
        refine ⟨[], rest, by rw [← h.1], by rw [← h.1]; rfl, by simp⟩
      | cons p pre' =>
        rw [List.cons_append, List.cons.injEq] at h
        obtain ⟨opre, opost, h1, h2, h3⟩ := ih pre' h.2
        refine ⟨a :: opre, opost, h1, by rw [h2]; rfl, ?_⟩
        intro o ho he
        rcases List.mem_cons.mp ho with ho | ho
        · rw [ho, ← h.1]; exact List.mem_cons_self _ _
        · exact List.mem_cons_of_mem _ (h3 o ho he)
    · rw [List.filter_cons_of_neg ha] at h
      obtain ⟨opre, opost, h1, h2, h3⟩ := ih pre h
      refine ⟨a :: opre, opost, h1, by rw [h2]; rfl, ?_⟩
      intro o ho he
      rcases List.mem_cons.mp ho with ho | ho
      · rw [ho] at he; exact absurd he ha
      · exact h3 o ho he

/-- A candidate splits the catalog at its SKU and the offering list of the SKU
at its offering: the candidates before it are the eligible offerings of the
SKUs before, and the eligible offerings before it in its SKU. -/
theorem candidates_split (c : Constraints) (catalog : List SKU)
    (pre post : List (SKU × Offering)) (x : SKU × Offering)
    (h : candidates c catalog = pre ++ x :: post) :
    ∃ cpre cpost opre opost, catalog = cpre ++ x.1 :: cpost ∧
      x.1.offerings = opre ++ x.2 :: opost ∧
      (∀ s ∈ cpre, ∀ o ∈ s.offerings, eligible c s o = true → (s, o) ∈ pre) ∧
      (∀ o ∈ opre, eligible c x.1 o = true → (x.1, o) ∈ pre) := by
  induction catalog generalizing pre with
  | nil => simp [candidates] at h
  | cons s rest ih =>
    have hc : candidates c (s :: rest) =
        (s.offerings.filter (eligible c s)).map (fun o => (s, o)) ++ candidates c rest := by
      simp [candidates]
    rw [hc, List.append_eq_append_iff] at h
    rcases h with ⟨mid, h1, h2⟩ | ⟨mid, h1, h2⟩
    · -- the candidate belongs to a later SKU
      obtain ⟨cpre, cpost, opre, opost, e1, e2, e3, e4⟩ := ih mid h2
      refine ⟨s :: cpre, cpost, opre, opost, by rw [e1]; rfl, e2, ?_, ?_⟩
      · intro s' hs' o ho he
        rw [h1, List.mem_append]
        rcases List.mem_cons.mp hs' with hs' | hs'
        · left
          rw [hs']
          exact List.mem_map.mpr ⟨o, List.mem_filter.mpr ⟨by rw [← hs']; exact ho,
            by rw [← hs']; exact he⟩, rfl⟩
        · exact Or.inr (e3 s' hs' o ho he)
      · intro o ho he
        rw [h1, List.mem_append]
        exact Or.inr (e4 o ho he)
    · cases mid with
      | nil =>
        rw [List.append_nil] at h1
        rw [List.nil_append] at h2
        obtain ⟨cpre, cpost, opre, opost, e1, e2, e3, e4⟩ :=
          ih [] (by rw [List.nil_append]; exact h2.symm)
        refine ⟨s :: cpre, cpost, opre, opost, by rw [e1]; rfl, e2, ?_, ?_⟩
        · intro s' hs' o ho he
          rcases List.mem_cons.mp hs' with hs' | hs'
          · rw [← h1, hs']
            exact List.mem_map.mpr ⟨o, List.mem_filter.mpr ⟨by rw [← hs']; exact ho,
              by rw [← hs']; exact he⟩, rfl⟩
          · exact absurd (e3 s' hs' o ho he) (List.not_mem_nil _)
        · intro o ho he
          exact absurd (e4 o ho he) (List.not_mem_nil _)
      | cons y mid' =>
        rw [List.cons_append, List.cons.injEq] at h2
        obtain ⟨hxy, hpost⟩ := h2
        subst hxy
        obtain ⟨opre, opost, f1, f2, f3⟩ := offers_split c s s.offerings pre mid' x h1
        refine ⟨[], rest, opre, opost, by rw [f1]; rfl, by rw [f1]; exact f2, by simp, ?_⟩
        intro o ho he
        rw [f1] at he ⊢
        exact f3 o ho he

/-! ## The selector's choice (C21, C22) -/

/-- C21: whenever some offering of the catalog is eligible (available and
satisfying the constraints) the selector chooses a pair, and the pair it
chooses is an SKU of the catalog with one of its offerings, available and
eligible, whose price is at most the price of every eligible offering of the
catalog; every eligible offering of an SKU earlier in the catalog, and every
eligible offering earlier in the list of the chosen SKU, costs strictly more,
so among the cheapest the choice is the earliest in catalog order and then in
offering-list order. -/
theorem selection_is_first_cheapest (c : Constraints) (catalog : List SKU) :
    ((∃ s ∈ catalog, ∃ o ∈ s.offerings, eligible c s o = true) →
      ∃ s o, selectOffering c catalog = some (s, o)) ∧
    ∀ s o, selectOffering c catalog = some (s, o) →
      s ∈ catalog ∧ o ∈ s.offerings ∧ o.available = true ∧ eligible c s o = true ∧
      (∀ s' ∈ catalog, ∀ o' ∈ s'.offerings, eligible c s' o' = true → o.price ≤ o'.price) ∧
      ∃ cpre cpost opre opost, catalog = cpre ++ s :: cpost ∧
        s.offerings = opre ++ o :: opost ∧
        (∀ s' ∈ cpre, ∀ o' ∈ s'.offerings, eligible c s' o' = true → o.price < o'.price) ∧
        (∀ o' ∈ opre, eligible c s o' = true → o.price < o'.price) := by
  constructor
  · rintro ⟨s, hs, o, ho, he⟩
    cases h : selectOffering c catalog with
    | some x => exact ⟨x.1, x.2, rfl⟩
    | none =>
      have hnil := (cheapestFirst_eq_none _).mp h
      have hmem := (mem_candidates c catalog s o).mpr ⟨hs, ho, he⟩
      rw [hnil] at hmem
      exact absurd hmem (List.not_mem_nil _)
  · intro s o h
    obtain ⟨pre, post, hsplit, hpre, hpost⟩ := cheapestFirst_split _ _ h
    have hmem : (s, o) ∈ candidates c catalog := by
      rw [hsplit]; simp
    obtain ⟨hs, ho, he⟩ := (mem_candidates c catalog s o).mp hmem
    have hav : o.available = true := by
      simp only [eligible, Bool.and_eq_true] at he
      exact he.1.1.1
    refine ⟨hs, ho, hav, he, ?_, ?_⟩
    · intro s' hs' o' ho' he'
      have hm := (mem_candidates c catalog s' o').mpr ⟨hs', ho', he'⟩
      rw [hsplit, List.mem_append, List.mem_cons] at hm
      rcases hm with hm | hm | hm
      · exact le_of_lt (hpre _ hm)
      · rw [(Prod.mk.inj hm).2]
      · exact hpost _ hm
    · obtain ⟨cpre, cpost, opre, opost, e1, e2, e3, e4⟩ :=
        candidates_split c catalog pre post (s, o) hsplit
      exact ⟨cpre, cpost, opre, opost, e1, e2,
        fun s' hs' o' ho' he' => hpre _ (e3 s' hs' o' ho' he'),
        fun o' ho' he' => hpre _ (e4 o' ho' he')⟩

/-- Witness for C21: on the catalog of the test, two SKUs that both offer the
price 0.1, the selector chooses the first, `Standard_D2s_v3`, with the regular
capacity type, and no eligible offering is cheaper. -/
theorem selection_is_first_cheapest_witness :
    (selectOffering {} testCatalog).map (fun x => (x.1.name, x.2.capacityType, x.2.price)) =
        some (gs "Standard_D2s_v3", CapacityType.Regular, 0.1) ∧
      ∀ s' ∈ testCatalog, ∀ o' ∈ s'.offerings, eligible {} s' o' = true →
        (0.1 : ℚ) ≤ o'.price :=
  have h : selectOffering {} testCatalog =
      some ({ name := gs "Standard_D2s_v3"
              offerings := [{ price := 0.1, zone := gs "westus-2", capacityType := .Regular,
                              available := true }] },
            { price := 0.1, zone := gs "westus-2", capacityType := .Regular,
              available := true }) := by
    simp [selectOffering, testCatalog, candidates, cheapestFirst, eligible]
  ⟨by rw [h]; rfl, ((selection_is_first_cheapest {} testCatalog).2 _ _ h).2.2.2.2.1⟩

/-- C22: on the empty catalog, and on a catalog all of whose offerings are
unavailable, the selector returns the "none available" outcome; it returns it
exactly when no offering of the catalog is eligible. (The selector is a total
function: it has no other outcome than a pair or "none available".) -/
theorem selection_none_available (c : Constraints) (catalog : List SKU) :
    selectOffering c [] = none ∧
    ((∀ s ∈ catalog, ∀ o ∈ s.offerings, o.available = false) →
      selectOffering c catalog = none) ∧
    (selectOffering c catalog = none ↔
      ∀ s ∈ catalog, ∀ o ∈ s.offerings, eligible c s o = false) := by
  have hiff : selectOffering c catalog = none ↔
      ∀ s ∈ catalog, ∀ o ∈ s.offerings, eligible c s o = false := by
    rw [selectOffering, cheapestFirst_eq_none]
    constructor
    · intro hnil s hs o ho
      cases he : eligible c s o with
      | false => rfl
      | true =>
        have hm := (mem_candidates c catalog s o).mpr ⟨hs, ho, he⟩
        rw [hnil] at hm
        exact absurd hm (List.not_mem_nil _)
    · intro hall
      rw [List.eq_nil_iff_forall_not_mem]
      rintro ⟨s, o⟩ hm
      obtain ⟨hs, ho, he⟩ := (mem_candidates c catalog s o).mp hm
      rw [hall s hs o ho] at he
      cases he
  refine ⟨rfl, fun hun => hiff.mpr fun s hs o ho => ?_, hiff⟩
  simp [eligible, hun s hs o ho]

/-- Witness for C22: the "none available" outcome on a catalog whose only
offering is unavailable. -/
theorem selection_none_available_witness :
    (∀ s ∈ unavailableCatalog, ∀ o ∈ s.offerings, o.available = false) ∧
      selectOffering {} unavailableCatalog = none :=
  have h : ∀ s ∈ unavailableCatalog, ∀ o ∈ s.offerings, o.available = false := by
    simp [unavailableCatalog]
  ⟨h, (selection_none_available {} unavailableCatalog).2.1 h⟩

end OfferingSelection
